import Mathlib

/-!
# HSN-PiDeploy: device state machine, lanes, bulk dispatch, templates and configuration

A shallow embedding of the Qt front end of HSN-PiDeploy
(`Qt_GUI/Sources/RaspberryPi.cpp`, `Qt_GUI/Sources/SSH.cpp`,
`Qt_GUI/Sources/MainWindow.cpp`) and of the SSH executable it starts
(`SSH/SSH.cpp`, `SSH/main.cpp`).

Conventions of the embedding:

* `QString` and `QByteArray` are `String`.
* A slot that mutates the window and a device takes both and returns both
  (explicit state passing); the signals a slot emits towards the lanes of a
  device are returned as a list, in emission order.
* Signals between the device object and the main window live in one thread
  and are therefore direct calls; signals to and from the three lane objects
  are queued and modelled as data (`LaneRequest`, `LaneSignal`).
* `unsigned int busyPiCount` is a `Nat` below `2 ^ 32` with wrap-around
  increment and decrement.
* A `QMap<QString, QString>` is the list of its entries in ascending key
  order; text functions of `QString` work on the list of characters.
* A file is the text it holds; a loop that reads lines and may not end takes
  fuel, one unit for each iteration, and returns `none` when it runs out.
* What libssh, the remote shell and a child process answer is a parameter
  (`Channel`, `Host`, `QProcess`, `StreamProcess`); a function of the
  executable returns its return code with what it wrote to stdout and stderr.
-/

namespace PiDeploy

/-! ## Data model -/

/-- Connection and application states of a device (`enum class piStatus`). -/
inductive piStatus where
  | checking
  | offline
  | online
  | appRunning
  deriving DecidableEq, Repr

/-- The part of a device's `QTreeWidgetItem` that the slots read or write:
icon, drag flag, check box of column 0 and selection. -/
structure QTreeWidgetItem where
  icon : String
  dragEnabled : Bool
  checked : Bool
  selected : Bool
  deriving DecidableEq, Repr

/-- The device object (`class RaspberryPi`).  `statusTimerActive` is the state
of the single-shot `statusTimer`, `te_output` the text of the device's output
tab. -/
structure RaspberryPi where
  name : String
  addr : String
  project : String
  args : List (String × String)
  projectValid : Bool
  argv : String
  error : String
  status : piStatus
  statusTimerActive : Bool
  item : QTreeWidgetItem
  te_output : String
  deriving DecidableEq, Repr

/-- Signals a device emits towards its three lane objects
(`SSHstatus`, `SSHaction`, `SSHoutput`). -/
inductive LaneRequest where
  | SSHgetStatus
  | SSHsave (path2project : String)
  | SSHcompile
  | SSHstart
  | SSHstop
  | SSHreadOutput_once
  | SSHreadOutput_cont
  | SSHreadOutput_stop
  deriving DecidableEq, Repr

/-- Signals the lane objects of a device emit back (the device pointer they
carry is the owning device). -/
inductive LaneSignal where
  | SSHcurrStatus (status : piStatus) (error : String)
  | SSHsave_finished (success : Bool) (output : String)
  | SSHcompile_finished (success : Bool) (output : String)
  | SSHstart_finished (success : Bool) (output : String)
  | SSHstop_finished (success : Bool) (output : String)
  | SSHreadOutput_finished (output : String)
  deriving DecidableEq, Repr

/-- The main window: device list, busy counter, state of the five operation
buttons, the trace of `btns_setEnabled` calls (oldest first), the info list
and the error label; the argument templates of the projects
(`QMap<QString, QString> projects_argv`, entries in ascending key order), the
top-level items of the device tree `tw_pis` (text of the item and its
children, each child given by the index in `pis` of the device that
`item2pi` maps it to; the first item is "(unassigned)"), and whether the
"(unassigned)" item is hidden. -/
structure MainWindow where
  projectsPath : String
  pis : List RaspberryPi
  busyPiCount : Nat
  btnsEnabled : Bool
  btnsCalls : List Bool
  lw_infoOutput : List String
  lbl_error : String
  projects_argv : List (String × String) := []
  tw_pis : List (String × List Nat) := []
  unassignedHidden : Bool := true
  deriving DecidableEq, Repr

/-- Number of values of `unsigned int`. -/
def UINT_RANGE : Nat := 2 ^ 32

/-! ## Device state machine -/

/-- `MainWindow::SSHcurrStatus` (MainWindow.cpp 823-885). -/
def MainWindow.SSHcurrStatus (w : MainWindow) (pi : RaspberryPi)
    (currStatus : piStatus) (error : String) : MainWindow × RaspberryPi :=
  let oldStatus := pi.status
  if currStatus = piStatus.appRunning ∧ oldStatus ≠ piStatus.appRunning then
    let pi1 := { pi with
      status := currStatus
      error := ""
      item := { pi.item with icon := ":/icons/ApplicationRunning.png", dragEnabled := false } }
    if pi1.item.selected then ({ w with lbl_error := "" }, pi1) else (w, pi1)
  else if currStatus = piStatus.online ∧ oldStatus ≠ piStatus.online then
    let pi1 := { pi with
      status := currStatus
      item := { pi.item with icon := ":/icons/StatusOK.png", dragEnabled := true } }
    if oldStatus = piStatus.offline then
      let pi2 := { pi1 with error := "", te_output := "" }
      if pi2.item.selected then ({ w with lbl_error := "" }, pi2) else (w, pi2)
    else (w, pi1)
  else if currStatus = piStatus.offline then
    let pi1 :=
      if oldStatus ≠ piStatus.offline then
        { pi with
          status := currStatus
          item := { pi.item with icon := ":/icons/StatusInvalid.png", dragEnabled := true } }
      else pi
    let pi2 := { pi1 with error := error }
    if pi2.item.selected then ({ w with lbl_error := "Error: " ++ pi2.error }, pi2) else (w, pi2)
  else (w, pi)

/-- The output requests chosen by the `switch (prevStatus)` of
`RaspberryPi::SSHgetStatus_finished` (RaspberryPi.cpp 142-171). -/
def RaspberryPi.outputRequests (prevStatus currStatus : piStatus) : List LaneRequest :=
  match prevStatus with
  | piStatus.checking | piStatus.offline =>
    if currStatus = piStatus.online then [LaneRequest.SSHreadOutput_once]
    else if currStatus = piStatus.appRunning then [LaneRequest.SSHreadOutput_cont]
    else []
  | piStatus.online =>
    if currStatus = piStatus.appRunning then [LaneRequest.SSHreadOutput_cont] else []
  | piStatus.appRunning =>
    if currStatus = piStatus.online then [LaneRequest.SSHreadOutput_stop] else []

/-- `RaspberryPi::SSHgetStatus_finished` (RaspberryPi.cpp 138-178): emit the
output requests for the transition, pass the status on to
`MainWindow::SSHcurrStatus`, restart the status timer. -/
def RaspberryPi.SSHgetStatus_finished (w : MainWindow) (pi : RaspberryPi)
    (currStatus : piStatus) (error : String) : MainWindow × RaspberryPi × List LaneRequest :=
  let prevStatus := pi.status
  let emitted := RaspberryPi.outputRequests prevStatus currStatus
  let r := MainWindow.SSHcurrStatus w pi currStatus error
  (r.1, { r.2 with statusTimerActive := true }, emitted)

/-! ## Lane objects (SSH.cpp) -/

/-- What a slot observes of the `QProcess` it ran: whether the SSH executable
could be started (`waitForStarted`), and after `waitForFinished` the exit code
and the two captured channels. -/
structure QProcess where
  started : Bool
  exitCode : Int
  standardOutput : String
  standardError : String
  deriving DecidableEq, Repr

/-- `SSH::execSSHexe` (SSH.cpp 17-34): `true` iff the executable started; the
call returns only after the process has exited. -/
def SSH.execSSHexe (process : QProcess) : Bool :=
  if !process.started then false else true

/-- `SSHstatus::SSHgetStatus` (SSH.cpp 36-61). -/
def SSHstatus.SSHgetStatus (process : QProcess) : List LaneSignal :=
  if SSH.execSSHexe process then
    match process.exitCode with
    | 1 => [LaneSignal.SSHcurrStatus piStatus.appRunning ""]
    | 2 => [LaneSignal.SSHcurrStatus piStatus.online ""]
    | _ => [LaneSignal.SSHcurrStatus piStatus.offline process.standardError]
  else
    [LaneSignal.SSHcurrStatus piStatus.offline "SSH executable couldn't be started."]

/-- `SSHaction::SSHsave` (SSH.cpp 63-79). -/
def SSHaction.SSHsave (process : QProcess) : List LaneSignal :=
  if SSH.execSSHexe process then
    if process.exitCode = 0 then [LaneSignal.SSHsave_finished true process.standardOutput]
    else [LaneSignal.SSHsave_finished false process.standardError]
  else [LaneSignal.SSHsave_finished false "SSH executable couldn't be started."]

/-- `SSHaction::SSHcompile` (SSH.cpp 81-97). -/
def SSHaction.SSHcompile (process : QProcess) : List LaneSignal :=
  if SSH.execSSHexe process then
    if process.exitCode = 0 then [LaneSignal.SSHcompile_finished true process.standardOutput]
    else [LaneSignal.SSHcompile_finished false process.standardError]
  else [LaneSignal.SSHcompile_finished false "SSH executable couldn't be started."]

/-- `SSHaction::SSHstart` (SSH.cpp 99-119): on exit code 0 the finished signal
is followed by `SSHcurrStatus(appRunning)`. -/
def SSHaction.SSHstart (process : QProcess) : List LaneSignal :=
  if SSH.execSSHexe process then
    if process.exitCode = 0 then
      [LaneSignal.SSHstart_finished true process.standardOutput,
       LaneSignal.SSHcurrStatus piStatus.appRunning ""]
    else [LaneSignal.SSHstart_finished false process.standardError]
  else [LaneSignal.SSHstart_finished false "SSH executable couldn't be started."]

/-- `SSHaction::SSHstop` (SSH.cpp 121-141): on exit code 0 the finished signal
is followed by `SSHcurrStatus(online)`. -/
def SSHaction.SSHstop (process : QProcess) : List LaneSignal :=
  if SSH.execSSHexe process then
    if process.exitCode = 0 then
      [LaneSignal.SSHstop_finished true process.standardOutput,
       LaneSignal.SSHcurrStatus piStatus.online ""]
    else [LaneSignal.SSHstop_finished false process.standardError]
  else [LaneSignal.SSHstop_finished false "SSH executable couldn't be started."]

/-- `SSHoutput::SSHreadOutput_once` (SSH.cpp 143-156). -/
def SSHoutput.SSHreadOutput_once (process : QProcess) : List LaneSignal :=
  if SSH.execSSHexe process then
    if process.exitCode = 0 then [LaneSignal.SSHreadOutput_finished process.standardOutput]
    else []
  else [LaneSignal.SSHreadOutput_finished "SSH executable couldn't be started."]

/-- `SSHoutput::process_finished` (SSH.cpp 191-199), the exit of the
continuous-output process: exit code -1 is reported as `offline` with the
process's stderr. -/
def SSHoutput.process_finished (exitCode : Int) (standardError : String) : List LaneSignal :=
  if exitCode = -1 then [LaneSignal.SSHcurrStatus piStatus.offline standardError] else []

/-! ## Main-window slots for finished operations (MainWindow.cpp 887-954) -/

/-- `MainWindow::btns_setEnabled` (MainWindow.cpp 425-432); the call is also
appended to the trace `btnsCalls`. -/
def MainWindow.btns_setEnabled (w : MainWindow) (enable : Bool) : MainWindow :=
  { w with btnsEnabled := enable, btnsCalls := w.btnsCalls ++ [enable] }

/-- `busyPiCount++` on `unsigned int`. -/
def incBusy (c : Nat) : Nat := (c + 1) % UINT_RANGE

/-- `--busyPiCount` on `unsigned int`: at zero the counter wraps to
`UINT_MAX`. -/
def decBusy (c : Nat) : Nat := if c = 0 then UINT_RANGE - 1 else c - 1

/-- `MainWindow::SSHsave_finished` (MainWindow.cpp 887-899). -/
def MainWindow.SSHsave_finished (w : MainWindow) (pi : RaspberryPi) (_success : Bool)
    (output : String) : MainWindow × RaspberryPi :=
  let w1 := { w with lw_infoOutput := w.lw_infoOutput ++ [pi.name ++ ":\n" ++ output] }
  let w2 := { w1 with busyPiCount := decBusy w1.busyPiCount }
  if w2.busyPiCount = 0 then
    (MainWindow.btns_setEnabled
      { w2 with lw_infoOutput := w2.lw_infoOutput ++ ["### Save finished ###\n"] } true, pi)
  else (w2, pi)

/-- `MainWindow::SSHcompile_finished` (MainWindow.cpp 901-913). -/
def MainWindow.SSHcompile_finished (w : MainWindow) (pi : RaspberryPi) (_success : Bool)
    (output : String) : MainWindow × RaspberryPi :=
  let w1 := { w with lw_infoOutput := w.lw_infoOutput ++ [pi.name ++ ":\n" ++ output] }
  let w2 := { w1 with busyPiCount := decBusy w1.busyPiCount }
  if w2.busyPiCount = 0 then
    (MainWindow.btns_setEnabled
      { w2 with lw_infoOutput := w2.lw_infoOutput ++ ["### Build finished ###\n"] } true, pi)
  else (w2, pi)

/-- `MainWindow::SSHstart_finished` (MainWindow.cpp 915-928). -/
def MainWindow.SSHstart_finished (w : MainWindow) (pi : RaspberryPi) (started : Bool)
    (output : String) : MainWindow × RaspberryPi :=
  let pi1 := if started then { pi with te_output := "" } else pi
  let w1 := { w with lw_infoOutput := w.lw_infoOutput ++ [pi1.name ++ ": " ++ output] }
  let w2 := { w1 with busyPiCount := decBusy w1.busyPiCount }
  if w2.busyPiCount = 0 then (MainWindow.btns_setEnabled w2 true, pi1) else (w2, pi1)

/-- `MainWindow::SSHstop_finished` (MainWindow.cpp 930-938). -/
def MainWindow.SSHstop_finished (w : MainWindow) (pi : RaspberryPi) (_success : Bool)
    (output : String) : MainWindow × RaspberryPi :=
  let w1 := { w with lw_infoOutput := w.lw_infoOutput ++ [pi.name ++ ": " ++ output] }
  let w2 := { w1 with busyPiCount := decBusy w1.busyPiCount }
  if w2.busyPiCount = 0 then (MainWindow.btns_setEnabled w2 true, pi) else (w2, pi)

/-- `MainWindow::SSHnewOutput` (MainWindow.cpp 940-954): the output is appended
at the end of the device's output text (the scroll bar is not modelled). -/
def MainWindow.SSHnewOutput (w : MainWindow) (pi : RaspberryPi) (output : String) :
    MainWindow × RaspberryPi :=
  (w, { pi with te_output := pi.te_output ++ output })

/-- The `connect` wiring of the constructor `RaspberryPi::RaspberryPi`
(RaspberryPi.cpp 33-69): `SSHcurrStatus` of each of the three lane objects
goes to `RaspberryPi::SSHgetStatus_finished`, every `*_finished` signal to the
main-window slot of the same name, `SSHreadOutput_finished` to `SSHnewOutput`. -/
def RaspberryPi.deliver (w : MainWindow) (pi : RaspberryPi) :
    LaneSignal → MainWindow × RaspberryPi × List LaneRequest
  | LaneSignal.SSHcurrStatus status error => RaspberryPi.SSHgetStatus_finished w pi status error
  | LaneSignal.SSHsave_finished success output =>
    let r := MainWindow.SSHsave_finished w pi success output
    (r.1, r.2, [])
  | LaneSignal.SSHcompile_finished success output =>
    let r := MainWindow.SSHcompile_finished w pi success output
    (r.1, r.2, [])
  | LaneSignal.SSHstart_finished success output =>
    let r := MainWindow.SSHstart_finished w pi success output
    (r.1, r.2, [])
  | LaneSignal.SSHstop_finished success output =>
    let r := MainWindow.SSHstop_finished w pi success output
    (r.1, r.2, [])
  | LaneSignal.SSHreadOutput_finished output =>
    let r := MainWindow.SSHnewOutput w pi output
    (r.1, r.2, [])

/-- Deliver a list of lane signals in order, collecting the requests the
device emits in response. -/
def RaspberryPi.deliverAll (w : MainWindow) (pi : RaspberryPi) :
    List LaneSignal → MainWindow × RaspberryPi × List LaneRequest
  | [] => (w, pi, [])
  | s :: rest =>
    let r := RaspberryPi.deliver w pi s
    let r2 := RaspberryPi.deliverAll r.1 r.2.1 rest
    (r2.1, r2.2.1, r.2.2 ++ r2.2.2)

/-! ## Bulk dispatch (MainWindow.cpp 434-692) -/

/-- Local variables of the `for (RaspberryPi* pi : pis)` loop of a button slot,
together with the counter and the signals emitted to devices so far. -/
structure ClickLoop where
  noPiSelected : Bool
  warnings : String
  busyPiCount : Nat
  emitted : List (RaspberryPi × LaneRequest)
  deriving DecidableEq, Repr

/-- What a button slot hands to the outside: the signals emitted to devices
(device, request), in order, and the `QMessageBox::warning` shown, as
(title, text). -/
structure ClickOutput where
  emitted : List (RaspberryPi × LaneRequest)
  messageBox : Option (String × String)
  deriving DecidableEq, Repr

/-- Loop body of `MainWindow::btn_save_clicked` (MainWindow.cpp 442-478). -/
def MainWindow.btn_save_body (projectsPath : String) (acc : ClickLoop) (pi : RaspberryPi) :
    ClickLoop :=
  if pi.item.checked then
    let acc1 := { acc with noPiSelected := false }
    match pi.status with
    | piStatus.online =>
      { acc1 with
        emitted := acc1.emitted ++ [(pi, LaneRequest.SSHsave projectsPath)]
        busyPiCount := incBusy acc1.busyPiCount }
    | piStatus.offline =>
      { acc1 with warnings := acc1.warnings ++ (pi.name ++ " is not connected.\n") }
    | piStatus.appRunning =>
      { acc1 with warnings := acc1.warnings ++ ("An application is running on " ++ pi.name ++ ".\n") }
    | piStatus.checking =>
      { acc1 with warnings := acc1.warnings ++ ("Still ckecking the status of " ++ pi.name ++ ".\n") }
  else acc

/-- Loop body of `MainWindow::btn_compile_clicked` (MainWindow.cpp 509-545). -/
def MainWindow.btn_compile_body (acc : ClickLoop) (pi : RaspberryPi) : ClickLoop :=
  if pi.item.checked then
    let acc1 := { acc with noPiSelected := false }
    match pi.status with
    | piStatus.online =>
      { acc1 with
        emitted := acc1.emitted ++ [(pi, LaneRequest.SSHcompile)]
        busyPiCount := incBusy acc1.busyPiCount }
    | piStatus.offline =>
      { acc1 with warnings := acc1.warnings ++ (pi.name ++ " is not connected.\n") }
    | piStatus.appRunning =>
      { acc1 with warnings := acc1.warnings ++ ("An application is running on " ++ pi.name ++ ".\n") }
    | piStatus.checking =>
      { acc1 with warnings := acc1.warnings ++ ("Still ckecking the status of " ++ pi.name ++ ".\n") }
  else acc

/-- Loop body of `MainWindow::btn_start_clicked` (MainWindow.cpp 576-612). -/
def MainWindow.btn_start_body (acc : ClickLoop) (pi : RaspberryPi) : ClickLoop :=
  if pi.item.checked then
    let acc1 := { acc with noPiSelected := false }
    match pi.status with
    | piStatus.online =>
      { acc1 with
        emitted := acc1.emitted ++ [(pi, LaneRequest.SSHstart)]
        busyPiCount := incBusy acc1.busyPiCount }
    | piStatus.offline =>
      { acc1 with warnings := acc1.warnings ++ (pi.name ++ " is not connected.\n") }
    | piStatus.appRunning =>
      { acc1 with warnings := acc1.warnings ++
          ("Application " ++ pi.project ++ " is already running on " ++ pi.name ++ ".\n") }
    | piStatus.checking =>
      { acc1 with warnings := acc1.warnings ++ ("Still ckecking the status of " ++ pi.name ++ ".\n") }
  else acc

/-- Loop body of `MainWindow::btn_stop_clicked` (MainWindow.cpp 639-675). -/
def MainWindow.btn_stop_body (acc : ClickLoop) (pi : RaspberryPi) : ClickLoop :=
  if pi.item.checked then
    let acc1 := { acc with noPiSelected := false }
    match pi.status with
    | piStatus.appRunning =>
      { acc1 with
        emitted := acc1.emitted ++ [(pi, LaneRequest.SSHstop)]
        busyPiCount := incBusy acc1.busyPiCount }
    | piStatus.offline =>
      { acc1 with warnings := acc1.warnings ++ (pi.name ++ " is not connected.\n") }
    | piStatus.online =>
      { acc1 with warnings := acc1.warnings ++
          ("Application " ++ pi.project ++ " is not running on " ++ pi.name ++ ".\n") }
    | piStatus.checking =>
      { acc1 with warnings := acc1.warnings ++ ("Still ckecking the status of " ++ pi.name ++ ".\n") }
  else acc

/-- The part after the loop that Save and Compile share up to the banner
(MainWindow.cpp 480-498, 547-565): disable the buttons and add the
"started" banner when the counter is positive, show the warnings when there
are any, or the "No Raspberry Pi selected." box. -/
def MainWindow.afterLoopBanner (w : MainWindow) (r : ClickLoop) (banner : String) :
    MainWindow × ClickOutput :=
  let w1 := { w with busyPiCount := r.busyPiCount }
  if !r.noPiSelected then
    let w2 :=
      if w1.busyPiCount > 0 then
        let w3 := MainWindow.btns_setEnabled w1 false
        { w3 with lw_infoOutput := w3.lw_infoOutput ++ [banner] }
      else w1
    (w2, { emitted := r.emitted,
           messageBox := if r.warnings ≠ "" then some ("Warning(s)", r.warnings) else none })
  else
    (w1, { emitted := r.emitted, messageBox := some ("Warning", "No Raspberry Pi selected.") })

/-- The part after the loop of Start and Stop (MainWindow.cpp 614-628,
677-691): as for Save, without a banner. -/
def MainWindow.afterLoop (w : MainWindow) (r : ClickLoop) : MainWindow × ClickOutput :=
  let w1 := { w with busyPiCount := r.busyPiCount }
  if !r.noPiSelected then
    let w2 := if w1.busyPiCount > 0 then MainWindow.btns_setEnabled w1 false else w1
    (w2, { emitted := r.emitted,
           messageBox := if r.warnings ≠ "" then some ("Warning(s)", r.warnings) else none })
  else
    (w1, { emitted := r.emitted, messageBox := some ("Warning", "No Raspberry Pi selected.") })

/-- Initial loop variables of a button slot. -/
def MainWindow.loopInit (w : MainWindow) : ClickLoop :=
  { noPiSelected := true, warnings := "", busyPiCount := w.busyPiCount, emitted := [] }

/-- `MainWindow::btn_save_clicked` (MainWindow.cpp 434-499). -/
def MainWindow.btn_save_clicked (w : MainWindow) : MainWindow × ClickOutput :=
  MainWindow.afterLoopBanner w
    (w.pis.foldl (MainWindow.btn_save_body w.projectsPath) (MainWindow.loopInit w))
    "### Save started ###\n"

/-- `MainWindow::btn_compile_clicked` (MainWindow.cpp 501-566). -/
def MainWindow.btn_compile_clicked (w : MainWindow) : MainWindow × ClickOutput :=
  MainWindow.afterLoopBanner w
    (w.pis.foldl MainWindow.btn_compile_body (MainWindow.loopInit w))
    "### Build started ###\n"

/-- `MainWindow::btn_start_clicked` (MainWindow.cpp 568-629). -/
def MainWindow.btn_start_clicked (w : MainWindow) : MainWindow × ClickOutput :=
  MainWindow.afterLoop w (w.pis.foldl MainWindow.btn_start_body (MainWindow.loopInit w))

/-- `MainWindow::btn_stop_clicked` (MainWindow.cpp 631-692). -/
def MainWindow.btn_stop_clicked (w : MainWindow) : MainWindow × ClickOutput :=
  MainWindow.afterLoop w (w.pis.foldl MainWindow.btn_stop_body (MainWindow.loopInit w))

/-- The four operations of the orchestrator. -/
inductive Operation where
  | save
  | compile
  | start
  | stop
  deriving DecidableEq, Repr

/-- The button slot of an operation (the `connect` lines of the constructor
`MainWindow::MainWindow`, MainWindow.cpp 18-21). -/
def MainWindow.btn_clicked (op : Operation) (w : MainWindow) : MainWindow × ClickOutput :=
  match op with
  | Operation.save => MainWindow.btn_save_clicked w
  | Operation.compile => MainWindow.btn_compile_clicked w
  | Operation.start => MainWindow.btn_start_clicked w
  | Operation.stop => MainWindow.btn_stop_clicked w

/-- The loop body of the button slot of an operation. -/
def MainWindow.btn_body (op : Operation) (w : MainWindow) : ClickLoop → RaspberryPi → ClickLoop :=
  match op with
  | Operation.save => MainWindow.btn_save_body w.projectsPath
  | Operation.compile => MainWindow.btn_compile_body
  | Operation.start => MainWindow.btn_start_body
  | Operation.stop => MainWindow.btn_stop_body

/-- The main-window slot that receives the result of an operation (the
`connect` lines RaspberryPi.cpp 33-36). -/
def MainWindow.SSH_finished (op : Operation) (w : MainWindow) (pi : RaspberryPi)
    (success : Bool) (output : String) : MainWindow × RaspberryPi :=
  match op with
  | Operation.save => MainWindow.SSHsave_finished w pi success output
  | Operation.compile => MainWindow.SSHcompile_finished w pi success output
  | Operation.start => MainWindow.SSHstart_finished w pi success output
  | Operation.stop => MainWindow.SSHstop_finished w pi success output

/-! ## Runs of the device state machine -/

/-- Apply a sequence of status observations `(status, error)` to a device,
each through `RaspberryPi::SSHgetStatus_finished`; the third component is the
trace of requests sent to the output lane, oldest first. -/
def RaspberryPi.observeAll (w : MainWindow) (pi : RaspberryPi) :
    List (piStatus × String) → MainWindow × RaspberryPi × List LaneRequest
  | [] => (w, pi, [])
  | o :: rest =>
    let r := RaspberryPi.SSHgetStatus_finished w pi o.1 o.2
    let r2 := RaspberryPi.observeAll r.1 r.2.1 rest
    (r2.1, r2.2.1, r.2.2 ++ r2.2.2)

/-- Some observation of the sequence is `offline` and is applied while the
device's status is `appRunning`. -/
def RaspberryPi.offlineWhileRunning (w : MainWindow) (pi : RaspberryPi) :
    List (piStatus × String) → Bool
  | [] => false
  | o :: rest =>
    (pi.status == piStatus.appRunning && o.1 == piStatus.offline) ||
      RaspberryPi.offlineWhileRunning (RaspberryPi.SSHgetStatus_finished w pi o.1 o.2).1
        (RaspberryPi.SSHgetStatus_finished w pi o.1 o.2).2.1 rest

/-- Run a sequence of completed status polls: each process result goes through
`SSHstatus::SSHgetStatus` and the emitted signal is delivered to the device. -/
def RaspberryPi.runPolls (w : MainWindow) (pi : RaspberryPi) :
    List QProcess → MainWindow × RaspberryPi × List LaneRequest
  | [] => (w, pi, [])
  | p :: rest =>
    let r := RaspberryPi.deliverAll w pi (SSHstatus.SSHgetStatus p)
    let r2 := RaspberryPi.runPolls r.1 r.2.1 rest
    (r2.1, r2.2.1, r.2.2 ++ r2.2.2)

/-! ## The lanes of one device -/

/-- One device with its window, the number of `SSHgetStatus` signals sent to
the status lane whose slot has not yet completed, the requests sent to the
action lane whose slot has not yet completed (oldest first; the lane's thread
runs them one after the other), and the trace of all requests sent to the
lanes. -/
structure DeviceLanes where
  w : MainWindow
  pi : RaspberryPi
  pollsOutstanding : Nat
  actionQueue : List LaneRequest
  requests : List LaneRequest
  deriving DecidableEq, Repr

/-- Events of one device's lanes: the status timer fires, the status lane
completes a poll, the operator clicks an operation button, the action lane
completes its oldest request, the continuous-output process exits. -/
inductive LaneEvent where
  | timerFired
  | pollCompleted (process : QProcess)
  | operationRequested (op : Operation)
  | actionCompleted (process : QProcess)
  | outputExited (exitCode : Int) (standardError : String)
  deriving DecidableEq, Repr

/-- State right after the constructor `RaspberryPi::RaspberryPi`
(RaspberryPi.cpp 6-87; RaspberryPi.h 55-59): status `checking`, empty error,
the single-shot timer created but not started, and the first `SSHgetStatus()`
already emitted. -/
def DeviceLanes.afterConstructor (w : MainWindow) (pi : RaspberryPi) : DeviceLanes :=
  { w := w
    pi := { pi with status := piStatus.checking, error := "", statusTimerActive := false }
    pollsOutstanding := 1
    actionQueue := []
    requests := [LaneRequest.SSHgetStatus] }

/-- Deliver the signals of a lane slot to the device and record the requests
the device sends in response. -/
def DeviceLanes.receive (s : DeviceLanes) (signals : List LaneSignal) : DeviceLanes :=
  let r := RaspberryPi.deliverAll s.w s.pi signals
  { s with w := r.1, pi := r.2.1, requests := s.requests ++ r.2.2 }

/-- The slot of `SSHaction` a request runs (the `connect` lines
RaspberryPi.cpp 27-30). -/
def SSHaction.slot (request : LaneRequest) (process : QProcess) : List LaneSignal :=
  match request with
  | LaneRequest.SSHsave _ => SSHaction.SSHsave process
  | LaneRequest.SSHcompile => SSHaction.SSHcompile process
  | LaneRequest.SSHstart => SSHaction.SSHstart process
  | LaneRequest.SSHstop => SSHaction.SSHstop process
  | _ => []

/-- One event of a device's lanes; `none` when the event cannot happen in the
state.  The single-shot timer fires only while active and is inactive
afterwards; its timeout is connected to `SSHgetStatus` (RaspberryPi.cpp
80-83).  A poll completes only when one is outstanding.  A button click runs
the button slot on a device list that holds this device.  The action lane
completes its oldest request.  The exit of the continuous-output process runs
`SSHoutput::process_finished`. -/
def DeviceLanes.step (s : DeviceLanes) : LaneEvent → Option DeviceLanes
  | LaneEvent.timerFired =>
    if s.pi.statusTimerActive then
      some { s with
        pi := { s.pi with statusTimerActive := false }
        pollsOutstanding := s.pollsOutstanding + 1
        requests := s.requests ++ [LaneRequest.SSHgetStatus] }
    else none
  | LaneEvent.pollCompleted process =>
    if s.pollsOutstanding > 0 then
      some (DeviceLanes.receive { s with pollsOutstanding := s.pollsOutstanding - 1 }
        (SSHstatus.SSHgetStatus process))
    else none
  | LaneEvent.operationRequested op =>
    let r := MainWindow.btn_clicked op { s.w with pis := [s.pi] }
    some { s with
      w := r.1
      actionQueue := s.actionQueue ++ r.2.emitted.map Prod.snd
      requests := s.requests ++ r.2.emitted.map Prod.snd }
  | LaneEvent.actionCompleted process =>
    match s.actionQueue with
    | [] => none
    | request :: rest =>
      some (DeviceLanes.receive { s with actionQueue := rest } (SSHaction.slot request process))
  | LaneEvent.outputExited exitCode standardError =>
    some (DeviceLanes.receive s (SSHoutput.process_finished exitCode standardError))

/-- Run a sequence of lane events. -/
def DeviceLanes.run (s : DeviceLanes) : List LaneEvent → Option DeviceLanes
  | [] => some s
  | e :: rest =>
    match DeviceLanes.step s e with
    | none => none
    | some s1 => DeviceLanes.run s1 rest

/-- The events of the poll lane alone: the timer and the completion of a
poll. -/
def LaneEvent.isPollLane : LaneEvent → Bool
  | LaneEvent.timerFired => true
  | LaneEvent.pollCompleted _ => true
  | _ => false

/-! ## Validation table and report lines, for the statements -/

/-- The valid precondition of an operation, as the specification's validation
table gives it: Online for Save, Compile and Start, AppRunning for Stop. -/
def Operation.validPrecondition : Operation → piStatus
  | Operation.save => piStatus.online
  | Operation.compile => piStatus.online
  | Operation.start => piStatus.online
  | Operation.stop => piStatus.appRunning

/-- The request an operation dispatches to a valid device. -/
def Operation.request (op : Operation) (w : MainWindow) : LaneRequest :=
  match op with
  | Operation.save => LaneRequest.SSHsave w.projectsPath
  | Operation.compile => LaneRequest.SSHcompile
  | Operation.start => LaneRequest.SSHstart
  | Operation.stop => LaneRequest.SSHstop

/-- The line of the warning report for a device that fails validation (the
texts of the four button slots, MainWindow.cpp 459-475, 526-542, 593-609,
656-672). -/
def Operation.warningLine (op : Operation) (pi : RaspberryPi) : String :=
  match pi.status with
  | piStatus.offline => pi.name ++ " is not connected.\n"
  | piStatus.checking => "Still ckecking the status of " ++ pi.name ++ ".\n"
  | piStatus.appRunning =>
    match op with
    | Operation.start =>
      "Application " ++ pi.project ++ " is already running on " ++ pi.name ++ ".\n"
    | _ => "An application is running on " ++ pi.name ++ ".\n"
  | piStatus.online => "Application " ++ pi.project ++ " is not running on " ++ pi.name ++ ".\n"

/-- Concatenation of report lines. -/
def concatLines : List String → String
  | [] => ""
  | l :: rest => l ++ concatLines rest

/-- The selected devices that pass validation for an operation, in
device-list order. -/
def MainWindow.validSelected (op : Operation) (w : MainWindow) : List RaspberryPi :=
  w.pis.filter (fun pi => pi.item.checked && pi.status == op.validPrecondition)

/-- The selected devices that fail validation for an operation, in
device-list order. -/
def MainWindow.invalidSelected (op : Operation) (w : MainWindow) : List RaspberryPi :=
  w.pis.filter (fun pi => pi.item.checked && pi.status != op.validPrecondition)

/-- The result of one dispatched operation as it arrives at the main window:
device, success flag, text. -/
structure ActionResult where
  pi : RaspberryPi
  success : Bool
  output : String
  deriving DecidableEq, Repr

/-- Apply the results of an operation to the window in arrival order, each
through the `*_finished` slot of the operation (the device component the slot
returns belongs to the device, not to the window). -/
def MainWindow.applyResults (op : Operation) (w : MainWindow) : List ActionResult → MainWindow
  | [] => w
  | r :: rest =>
    MainWindow.applyResults op (MainWindow.SSH_finished op w r.pi r.success r.output).1 rest

/-- The info-list entry a result adds (`"%1:\n%2"` for Save and Compile,
`"%1: %2"` for Start and Stop). -/
def Operation.infoItem (op : Operation) (r : ActionResult) : String :=
  match op with
  | Operation.save => r.pi.name ++ ":\n" ++ r.output
  | Operation.compile => r.pi.name ++ ":\n" ++ r.output
  | Operation.start => r.pi.name ++ ": " ++ r.output
  | Operation.stop => r.pi.name ++ ": " ++ r.output

/-- The banner that accompanies the batch-finished notification. -/
def Operation.finishedBanner : Operation → List String
  | Operation.save => ["### Save finished ###\n"]
  | Operation.compile => ["### Build finished ###\n"]
  | Operation.start => []
  | Operation.stop => []

/-- The banner a button slot adds when it has dispatched something. -/
def Operation.startedBanner : Operation → List String
  | Operation.save => ["### Save started ###\n"]
  | Operation.compile => ["### Build started ###\n"]
  | Operation.start => []
  | Operation.stop => []

/-- A button slot rejects a device with a reason line: no signal is emitted to
the device, and the warning box is shown and contains the line. -/
def ClickOutput.rejects (out : ClickOutput) (pi : RaspberryPi) (line : String) : Prop :=
  (∀ req, (pi, req) ∉ out.emitted) ∧
  ∃ pre post, out.messageBox = some ("Warning(s)", pre ++ line ++ post)

/-- Number of continuous streams a status stands for: one in `appRunning`,
none otherwise. -/
def runningStreams (s : piStatus) : Nat := if s = piStatus.appRunning then 1 else 0

/-- Invariant of an output-request trace that starts with `k` streams running:
at every start of a stream or a fetch all earlier streams have been sent a
stop, and at no point more than one stream is without a stop. -/
def streamInvariant (k : Nat) (trace : List LaneRequest) : Prop :=
  (∀ pre r post, trace = pre ++ r :: post →
    (r = LaneRequest.SSHreadOutput_cont ∨ r = LaneRequest.SSHreadOutput_once) →
    pre.count LaneRequest.SSHreadOutput_cont + k ≤ pre.count LaneRequest.SSHreadOutput_stop) ∧
  (∀ pre post, trace = pre ++ post →
    pre.count LaneRequest.SSHreadOutput_cont + k ≤ pre.count LaneRequest.SSHreadOutput_stop + 1)

/-! ## Concrete inputs -/

/-- A window with no devices, counter 0 and enabled buttons. -/
def sampleWindow : MainWindow :=
  { projectsPath := "pi_workspace", pis := [], busyPiCount := 0, btnsEnabled := true,
    btnsCalls := [], lw_infoOutput := [], lbl_error := "" }

/-- A device with the given name, status and check box. -/
def samplePi (name : String) (status : piStatus) (checked : Bool) : RaspberryPi :=
  { name := name, addr := "10.0.0." ++ name, project := "Project1", args := [],
    projectValid := true, argv := "", error := "", status := status,
    statusTimerActive := false,
    item := { icon := "", dragEnabled := true, checked := checked, selected := false },
    te_output := "" }

/-- A process that started and exited with the given code. -/
def sampleProcess (exitCode : Int) : QProcess :=
  { started := true, exitCode := exitCode, standardOutput := "out", standardError := "err" }

/-- A fleet of five devices: two selected and online, one selected with the
application running, one selected and still checking, one online but not
selected. -/
def sampleFleet : MainWindow :=
  { sampleWindow with
    pis := [samplePi "1" piStatus.online true, samplePi "2" piStatus.appRunning true,
            samplePi "3" piStatus.online true, samplePi "4" piStatus.checking true,
            samplePi "5" piStatus.online false] }

/-- The results of the two devices of `sampleFleet` a Start is dispatched to,
arriving in reverse order. -/
def sampleResults : List ActionResult :=
  [{ pi := samplePi "3" piStatus.online true, success := true, output := "started" },
   { pi := samplePi "1" piStatus.online true, success := false, output := "no makefile" }]

/-- A poll that finds the device online; the timer issues the next poll; the
operator clicks Start and the Start succeeds while that poll is still in
flight; the status timer fires again. -/
def sampleLaneEvents : List LaneEvent :=
  [LaneEvent.pollCompleted (sampleProcess 2), LaneEvent.timerFired,
   LaneEvent.operationRequested Operation.start,
   LaneEvent.actionCompleted (sampleProcess 0), LaneEvent.timerFired]

/-- Observations: application running, then offline, then running again. -/
def sampleObservations : List (piStatus × String) :=
  [(piStatus.appRunning, ""), (piStatus.offline, "Connection error"), (piStatus.appRunning, "")]

/-- Observations in which no offline observation meets a running
application. -/
def sampleCleanObservations : List (piStatus × String) :=
  [(piStatus.appRunning, ""), (piStatus.online, ""), (piStatus.offline, "Connection error"),
   (piStatus.appRunning, ""), (piStatus.online, "")]

/-! ## The orchestrator: requests and results -/

/-- The orchestrator: the main window together with the operations that have
been dispatched and whose result has not yet been applied (operation and
device, oldest first). -/
structure Orchestrator where
  w : MainWindow
  pending : List (Operation × RaspberryPi)
  deriving DecidableEq, Repr

/-- Steps of the orchestrator: the operator requests an operation, the device
list being `pis` at that moment (statuses and check boxes as they are then);
the result of the `i`-th pending operation arrives. -/
inductive OrchEvent where
  | request (op : Operation) (pis : List RaspberryPi)
  | result (i : Nat) (success : Bool) (output : String)
  deriving DecidableEq, Repr

/-- One step of the orchestrator; `none` when the step cannot happen.  A
request needs the buttons to be enabled (a disabled button emits no `clicked`)
and runs the button slot; the device list is shorter than the range of the
counter.  A result needs a pending operation and runs the `*_finished` slot of
that operation. -/
def Orchestrator.step (s : Orchestrator) : OrchEvent → Option Orchestrator
  | OrchEvent.request op pis =>
    if s.w.btnsEnabled = true ∧ pis.length < UINT_RANGE then
      some
        { w := (MainWindow.btn_clicked op { s.w with pis := pis }).1
          pending := s.pending ++
            (MainWindow.btn_clicked op { s.w with pis := pis }).2.emitted.map
              (fun e => (op, e.1)) }
    else none
  | OrchEvent.result i success output =>
    match s.pending.get? i with
    | none => none
    | some (op, pi) =>
      some
        { w := (MainWindow.SSH_finished op s.w pi success output).1
          pending := s.pending.eraseIdx i }

/-- Run a sequence of orchestrator steps. -/
def Orchestrator.run (s : Orchestrator) : List OrchEvent → Option Orchestrator
  | [] => some s
  | e :: rest =>
    match Orchestrator.step s e with
    | none => none
    | some s1 => Orchestrator.run s1 rest

/-- The orchestrator invariant: the counter is the number of pending
operations, it is below the range of the counter, and the buttons are
disabled exactly when it is non-zero. -/
def Orchestrator.Inv (s : Orchestrator) : Prop :=
  s.w.busyPiCount = s.pending.length ∧ s.pending.length < UINT_RANGE ∧
    (s.w.btnsEnabled = false ↔ s.w.busyPiCount ≠ 0)

/-- The `*_finished` signal of an operation. -/
def Operation.finishedSignal (op : Operation) (success : Bool) (output : String) : LaneSignal :=
  match op with
  | Operation.save => LaneSignal.SSHsave_finished success output
  | Operation.compile => LaneSignal.SSHcompile_finished success output
  | Operation.start => LaneSignal.SSHstart_finished success output
  | Operation.stop => LaneSignal.SSHstop_finished success output

/-- The success flag of a `*_finished` result of an action. -/
def LaneSignal.success? : LaneSignal → Option Bool
  | LaneSignal.SSHsave_finished success _ => some success
  | LaneSignal.SSHcompile_finished success _ => some success
  | LaneSignal.SSHstart_finished success _ => some success
  | LaneSignal.SSHstop_finished success _ => some success
  | _ => none

/-- A lane signal is a `*_finished` result of an action. -/
def LaneSignal.isActionFinished : LaneSignal → Bool
  | LaneSignal.SSHsave_finished _ _ => true
  | LaneSignal.SSHcompile_finished _ _ => true
  | LaneSignal.SSHstart_finished _ _ => true
  | LaneSignal.SSHstop_finished _ _ => true
  | _ => false

/-- Requests of two operations on `sampleFleet` with the results in between:
Start on the fleet, its two results in reverse order, then Save with device
"1" still online and selected, and its result. -/
def sampleOrchEvents : List OrchEvent :=
  [OrchEvent.request Operation.start sampleFleet.pis,
   OrchEvent.result 1 true "started", OrchEvent.result 0 false "no makefile",
   OrchEvent.request Operation.save [samplePi "1" piStatus.online true],
   OrchEvent.result 0 true "saved"]

/-- The orchestrator after the first two steps of `sampleOrchEvents`: one of
the two Start results has been applied. -/
def sampleOrchState : Orchestrator :=
  (Orchestrator.run { w := sampleWindow, pending := [] } (sampleOrchEvents.take 2)).getD
    { w := sampleWindow, pending := [] }

/-! ## Argument templates (RaspberryPi.cpp 116-136) -/

/-- The class `\w` of `QRegularExpression` without
`UseUnicodePropertiesOption`: an ASCII letter, an ASCII digit or `_`. -/
def isWordChar (c : Char) : Bool := c.isAlphanum || c == '_'

/-- A match of the pattern `%\w+%` that starts at the first character of the
text: the token between the two `%`.  `\w+` takes the whole run of word
characters (giving characters back cannot help, since `%` is not a word
character). -/
def matchPlaceholder : List Char → Option (List Char)
  | [] => none
  | c :: rest =>
    if c = '%' ∧ rest.takeWhile isWordChar ≠ [] ∧
        (rest.dropWhile isWordChar).head? = some '%' then
      some (rest.takeWhile isWordChar)
    else none

/-- The matches of `%\w+%` that `QRegularExpression::globalMatch` iterates:
leftmost first, each search starting where the previous match ended.  The
first argument is the number of characters still to skip because they belong
to the match found last. -/
def globalMatchFrom : Nat → List Char → List (List Char)
  | _, [] => []
  | skip + 1, _ :: rest => globalMatchFrom skip rest
  | 0, c :: rest =>
    match matchPlaceholder (c :: rest) with
    | some tok => ('%' :: tok ++ ['%']) :: globalMatchFrom (tok.length + 1) rest
    | none => globalMatchFrom 0 rest

/-- The captured strings of all matches of `%\w+%` in a text. -/
def globalMatch (text : List Char) : List (List Char) := globalMatchFrom 0 text

/-- Scan of `QString::replace(before, after)` for a non-empty `before`: every
occurrence of `before`, found left to right without overlap, is replaced by
`after`; replaced text is not scanned again.  The first argument is the number
of characters still to skip because they belong to the occurrence found
last. -/
def replaceFrom (before after : List Char) : Nat → List Char → List Char
  | _, [] => []
  | skip + 1, _ :: rest => replaceFrom before after skip rest
  | 0, c :: rest =>
    if before.isPrefixOf (c :: rest) then
      after ++ replaceFrom before after (before.length - 1) rest
    else c :: replaceFrom before after 0 rest

/-- `QString::replace(const QString &before, const QString &after)`; for an
empty `before` Qt inserts `after` in front of every character and at the
end. -/
def QString.replace (s before after : String) : String :=
  if before.data = [] then
    String.mk (after.data ++ (s.data.map (fun c => c :: after.data)).flatten)
  else String.mk (replaceFrom before.data after.data 0 s.data)

/-- `QMap<QString, QString>::value(key, defaultValue)` on a map given as the
list of its (key, value) entries. -/
def QMap.value (m : List (String × String)) (key : String) (defaultValue : String) : String :=
  (m.lookup key).getD defaultValue

/-- The string `RaspberryPi::calc_argv` computes (RaspberryPi.cpp 118-132):
for each match of `%\w+%` in the project's argument string, in order, every
occurrence of the matched string in the string rewritten so far is replaced by
the value of the token (`match.mid(1, match.length() - 2)`) in `args`, or by
the empty string. -/
def calcArgvText (args : List (String × String)) (project_argv : String) : String :=
  (globalMatch project_argv.data).foldl
    (fun argv m =>
      QString.replace argv (String.mk m)
        (QMap.value args (String.mk ((m.drop 1).take (m.length - 2))) ""))
    project_argv

/-- `RaspberryPi::calc_argv` (RaspberryPi.cpp 116-136). -/
def RaspberryPi.calc_argv (pi : RaspberryPi) (project_argv : String) : RaspberryPi :=
  { pi with argv := calcArgvText pi.args project_argv }

/-- The single-pass resolution, as the specification words it: the
non-overlapping `%token%` matches of the template are found left to right,
each is replaced by the map's value for its token or by the empty string, all
other characters are kept, and inserted text is not looked at again. -/
def singlePassFrom (args : List (String × String)) : Nat → List Char → List Char
  | _, [] => []
  | skip + 1, _ :: rest => singlePassFrom args skip rest
  | 0, c :: rest =>
    match matchPlaceholder (c :: rest) with
    | some tok =>
      (QMap.value args (String.mk tok) "").data ++ singlePassFrom args (tok.length + 1) rest
    | none => c :: singlePassFrom args 0 rest

/-- The single-pass resolution of a template. -/
def singlePass (args : List (String × String)) (template : String) : String :=
  String.mk (singlePassFrom args 0 template.data)

/-- A template text contains a placeholder `%token%`: a `%`, one or more word
characters, a `%`. -/
def containsPlaceholder (text : List Char) : Prop :=
  ∃ pre tok post, text = pre ++ '%' :: tok ++ '%' :: post ∧ tok ≠ [] ∧
    ∀ c ∈ tok, isWordChar c = true

/-- The text of a template given by its placeholders, each with the token and
the text that follows it. -/
def templateText : List (List Char × List Char) → List Char
  | [] => []
  | seg :: rest => '%' :: seg.1 ++ '%' :: seg.2 ++ templateText rest

/-- The template with the placeholders whose token is in `done` replaced by
their values and the others left in place. -/
def partialText (args : List (String × String)) (done : List (List Char)) :
    List (List Char × List Char) → List Char
  | [] => []
  | seg :: rest =>
    (if seg.1 ∈ done then (QMap.value args (String.mk seg.1) "").data
      else '%' :: seg.1 ++ ['%']) ++ seg.2 ++ partialText args done rest

/-- The template with every placeholder replaced by its value. -/
def resolvedText (args : List (String × String)) : List (List Char × List Char) → List Char
  | [] => []
  | seg :: rest => (QMap.value args (String.mk seg.1) "").data ++ seg.2 ++ resolvedText args rest

/-- Every token is a non-empty run of word characters and the text after a
placeholder holds no `%`. -/
def segmentsClean (segs : List (List Char × List Char)) : Prop :=
  ∀ seg ∈ segs, seg.1 ≠ [] ∧ (∀ c ∈ seg.1, isWordChar c = true) ∧ '%' ∉ seg.2

/-- Two consecutive placeholders are separated by at least one character that
is not a word character. -/
def segmentsSeparated : List (List Char × List Char) → Prop
  | [] => True
  | seg :: rest => (rest = [] ∨ ∃ c ∈ seg.2, isWordChar c = false) ∧ segmentsSeparated rest

/-- A device whose value for the token `a` is itself a placeholder. -/
def sampleNestedPi : RaspberryPi :=
  { samplePi "1" piStatus.online true with args := [("a", "%b%"), ("b", "X")] }

/-- A device with the argument map of the example: x ↦ 5. -/
def sampleArgsPi : RaspberryPi :=
  { samplePi "1" piStatus.online true with args := [("x", "5")] }

/-- The segments of the template `--p1 %x% --p2 %y%` after its lead `--p1 `. -/
def sampleSegments : List (List Char × List Char) :=
  [("x".data, " --p2 ".data), ("y".data, [])]

/-! ## Text files (QString, QTextStream, QMap) -/

/-- `QString::split(sep)` with the default `Qt::KeepEmptyParts`, on the
characters of the string. -/
def splitChars (sep : Char) : List Char → List (List Char)
  | [] => [[]]
  | c :: rest =>
    if c = sep then [] :: splitChars sep rest
    else
      match splitChars sep rest with
      | [] => [[c]]
      | part :: parts => (c :: part) :: parts

/-- `QString::split(QChar sep)`. -/
def QString.split (s : String) (sep : Char) : List String :=
  (splitChars sep s.data).map String.mk

/-- `QString::startsWith(QChar c)`. -/
def QString.startsWith (s : String) (c : Char) : Bool := s.data.head? == some c

/-- `QString::endsWith(QChar c)`. -/
def QString.endsWith (s : String) (c : Char) : Bool := s.data.getLast? == some c

/-- `QString::mid(position, n)`. -/
def QString.mid (s : String) (position n : Nat) : String :=
  String.mk ((s.data.drop position).take n)

/-- The lines `QTextStream::readLine` returns until `atEnd()`: the text is cut
at every `\n`; a text that ends with `\n` has no further line after it. -/
def textLines : List Char → List (List Char)
  | [] => []
  | c :: rest =>
    if c = '\n' then [] :: textLines rest
    else
      match textLines rest with
      | [] => [[c]]
      | line :: lines => (c :: line) :: lines

/-- The lines of a file opened with `QIODevice::Text` and read through a
`QTextStream`: in text mode every `\r` is removed, then the text is cut into
lines. -/
def QTextStream.lines (text : String) : List String :=
  (textLines (text.data.filter (fun c => c != '\r'))).map String.mk

/-- `QTextStream::readLine` on the lines that remain: the next line and the
lines after it; at the end of the file a null (empty) string. -/
def QTextStream.readLine : List String → String × List String
  | [] => ("", [])
  | line :: rest => (line, rest)

/-- `QMap::insert(key, value)` (also `map[key] = value`) on a map given as the
list of its entries in ascending key order: an entry with the same key is
replaced.  The keys are ordered as the lists of their characters. -/
def QMap.insert : List (String × String) → String → String → List (String × String)
  | [], key, value => [(key, value)]
  | (k1, v1) :: rest, key, value =>
    if key.data < k1.data then (key, value) :: (k1, v1) :: rest
    else if key = k1 then (key, value) :: rest
    else (k1, v1) :: QMap.insert rest key value

/-- The non-const `QMap::operator[](key)` used as a value: the value of the
key, and the map, into which a missing key is inserted with an empty
value. -/
def QMap.index (m : List (String × String)) (key : String) : String × List (String × String) :=
  match m.lookup key with
  | some value => (value, m)
  | none => ("", QMap.insert m key "")

/-- Parts joined with a separator character between them. -/
def joinWith (sep : Char) : List (List Char) → List Char
  | [] => []
  | [part] => part
  | part :: rest => part ++ sep :: joinWith sep rest

/-! ## The configuration file (MainWindow.cpp 60-157, 382-423) -/

/-- The configuration of a device as read from the file (`struct piConfig`).
`readConfig` leaves `projectValid` uninitialised (it is set by
`check_piConfig` before it is read); the model reads it as `false`. -/
structure piConfig where
  name : String
  addr : String
  project : String
  args : List (String × String)
  projectValid : Bool
  deriving DecidableEq, Repr

/-- The loop over the arguments of an `args=` line (MainWindow.cpp
114-122). -/
def readConfig.args (value : String) (args : List (String × String)) :
    List (String × String) :=
  (QString.split value ',').foldl
    (fun acc arg =>
      match QString.split arg ':' with
      | [key, v] => QMap.insert acc key v
      | _ => acc)
    args

/-- One property line of a device section (MainWindow.cpp 99-124). -/
def readConfig.property (pi : piConfig) (line : String) : piConfig :=
  match QString.split line '=' with
  | [prop, value] =>
    if prop = "address" then { pi with addr := value }
    else if prop = "project" then { pi with project := value }
    else if prop = "args" then { pi with args := readConfig.args value pi.args }
    else pi
  | _ => pi

/-- The inner loop `while (!line.isEmpty())` of `readConfig` (MainWindow.cpp
93-128) with the current line and the lines that remain.  Each iteration
takes one unit of fuel; `none` means the fuel ran out.  On a line that starts
with `#` the `continue` goes back to the loop test with the same line. -/
def readConfig.section : Nat → piConfig → String → List String → Option (piConfig × List String)
  | 0, _, _, _ => none
  | fuel + 1, pi, line, rest =>
    if line.data = [] then some (pi, rest)
    else if QString.startsWith line '#' then readConfig.section fuel pi line rest
    else
      readConfig.section fuel (readConfig.property pi line)
        (QTextStream.readLine rest).1 (QTextStream.readLine rest).2

/-- The outer loop `while (!in.atEnd())` of `readConfig` (MainWindow.cpp
76-144) with the project path and the configurations read so far.  Each
iteration takes one unit of fuel; `none` means the fuel ran out. -/
def readConfig.loop : Nat → String → List piConfig → List String →
    Option (String × List piConfig)
  | 0, _, _, _ => none
  | _ + 1, projectsPath, pis, [] => some (projectsPath, pis)
  | fuel + 1, projectsPath, pis, line :: rest =>
    if QString.startsWith line '#' then readConfig.loop fuel projectsPath pis rest
    else if QString.startsWith line '[' && QString.endsWith line ']' then
      match readConfig.section fuel
          { name := QString.mid line 1 (line.length - 2), addr := "", project := "",
            args := [], projectValid := false }
          (QTextStream.readLine rest).1 (QTextStream.readLine rest).2 with
      | none => none
      | some (pi, rest2) => readConfig.loop fuel projectsPath (pis ++ [pi]) rest2
    else
      match QString.split line '=' with
      | [prop, value] =>
        if prop = "projectsPath" then readConfig.loop fuel value pis rest
        else readConfig.loop fuel projectsPath pis rest
      | _ => readConfig.loop fuel projectsPath pis rest

/-- How a call of `readConfig` ends when it ends: with
`exit(EXIT_FAILURE)` after an error box, or with the list of
configurations (and `projectsPath` set in the window). -/
inductive ReadOutcome where
  | exited (message : String)
  | returned (w : MainWindow) (configs : List piConfig)
  deriving DecidableEq, Repr

/-- `MainWindow::readConfig` (MainWindow.cpp 60-157) on the content of the
configuration file (`none`: the file cannot be opened).  `none` as result
means that the fuel ran out. -/
def MainWindow.readConfig (fuel : Nat) (w : MainWindow) (file : Option String) :
    Option ReadOutcome :=
  match file with
  | none =>
    some (ReadOutcome.exited "Cannot open file testbed_workspace/testbedkonfiguration.txt")
  | some text =>
    match readConfig.loop fuel w.projectsPath [] (QTextStream.lines text) with
    | none => none
    | some (projectsPath, pis) =>
      if projectsPath = "" then some (ReadOutcome.exited "No project directory was given.")
      else some (ReadOutcome.returned { w with projectsPath := projectsPath } pis)

/-- The text after `args=` that `writeConfig` writes for a device
(MainWindow.cpp 405-416). -/
def writeConfig.args (args : List (String × String)) : String :=
  match args.map Prod.fst with
  | [] => ""
  | key :: keys =>
    keys.foldl (fun out k => out ++ "," ++ k ++ ":" ++ QMap.value args k "")
      (key ++ ":" ++ QMap.value args key "")

/-- The text `writeConfig` writes for one device (MainWindow.cpp 400-418). -/
def writeConfig.device (pi : RaspberryPi) : String :=
  "\n[" ++ pi.name ++ "]\n" ++ "address=" ++ pi.addr ++ "\n" ++ "project=" ++ pi.project ++
    "\n" ++ "args=" ++ writeConfig.args pi.args ++ "\n"

/-- `MainWindow::writeConfig` (MainWindow.cpp 382-423): the text written to
the configuration file when it can be opened. -/
def MainWindow.writeConfig (w : MainWindow) : String :=
  w.pis.foldl (fun out pi => out ++ writeConfig.device pi)
    ("projectsPath=" ++ w.projectsPath ++ "\n")

/-- The configuration a device stands for: name, address, project and
argument map. -/
def RaspberryPi.config (pi : RaspberryPi) : String × String × String × List (String × String) :=
  (pi.name, pi.addr, pi.project, pi.args)

/-- Name, address, project and argument map of a configuration. -/
def piConfig.config (c : piConfig) : String × String × String × List (String × String) :=
  (c.name, c.addr, c.project, c.args)

/-- One line of `config.txt` in `read_argv` (MainWindow.cpp 172-190). -/
def read_argv.line (projectName : String) (projects_argv : List (String × String))
    (line : String) : List (String × String) :=
  if QString.startsWith line '#' then projects_argv
  else
    match QString.split line '=' with
    | [prop, value] =>
      if prop = "argv" then QMap.insert projects_argv projectName value else projects_argv
    | _ => projects_argv

/-- `MainWindow::read_argv` (MainWindow.cpp 159-197) on the content of the
project's `config.txt` (`none`: the file cannot be opened): whether the file
was read, and the window with the templates registered. -/
def MainWindow.read_argv (w : MainWindow) (projectName : String) (file : Option String) :
    Bool × MainWindow :=
  match file with
  | none => (false, w)
  | some text =>
    (true, { w with projects_argv :=
      (QTextStream.lines text).foldl (read_argv.line projectName) w.projects_argv })

/-- The text of an `args=` value for a list of token and value pairs:
`token:value` joined with commas. -/
def argsText (pairs : List (String × String)) : String :=
  String.mk (joinWith ',' (pairs.map (fun kv => kv.1.data ++ ':' :: kv.2.data)))

/-- The four lines of a device section with un-indented property lines. -/
def sectionLines (name addr project : String) (pairs : List (String × String)) : List String :=
  ["[" ++ name ++ "]", "address=" ++ addr, "project=" ++ project, "args=" ++ argsText pairs]

/-- The argument map built from a list of token and value pairs by inserting
them in order. -/
def argsMap (pairs : List (String × String)) : List (String × String) :=
  pairs.foldl (fun m kv => QMap.insert m kv.1 kv.2) []

/-- A string holds none of the given characters. -/
def freeOf (chars : List Char) (s : String) : Prop := ∀ c ∈ chars, c ∉ s.data

/-- Decidability of `freeOf`. -/
instance (chars : List Char) (s : String) : Decidable (freeOf chars s) :=
  inferInstanceAs (Decidable (∀ c ∈ chars, c ∉ s.data))

/-- A device section of a configuration file: the name of the header line,
the values of the `address=` and `project=` lines, and the token and value
pairs of the `args=` line. -/
structure PlainSection where
  name : String
  addr : String
  project : String
  pairs : List (String × String)
  deriving DecidableEq, Repr

/-- The lines of device sections with un-indented property lines, with one
empty line between two sections. -/
def plainSections : List PlainSection → List String
  | [] => []
  | [s] => sectionLines s.name s.addr s.project s.pairs
  | s :: rest => sectionLines s.name s.addr s.project s.pairs ++ "" :: plainSections rest

/-- The values of a section can be read back: no equal sign in address and
project, no equal sign, comma or colon in tokens and values. -/
def PlainSection.clean (s : PlainSection) : Prop :=
  '=' ∉ s.addr.data ∧ '=' ∉ s.project.data ∧
  ∀ kv ∈ s.pairs, freeOf ['=', ',', ':'] kv.1 ∧ freeOf ['=', ',', ':'] kv.2

/-- Decidability of `PlainSection.clean`. -/
instance (s : PlainSection) : Decidable s.clean :=
  inferInstanceAs (Decidable (_ ∧ _ ∧ _))

/-- The device configuration a section stands for. -/
def PlainSection.config (s : PlainSection) : piConfig :=
  { name := s.name, addr := s.addr, project := s.project, args := argsMap s.pairs,
    projectValid := false }

/-- What a line outside a device section does to the project path
(MainWindow.cpp 80-82, 133-143). -/
def topLevelLine (projectsPath line : String) : String :=
  if QString.startsWith line '#' then projectsPath
  else
    match QString.split line '=' with
    | [prop, value] => if prop = "projectsPath" then value else projectsPath
    | _ => projectsPath

/-- The project path after lines outside a device section. -/
def topLevelPath (projectsPath : String) (lines : List String) : String :=
  lines.foldl topLevelLine projectsPath

/-- A configuration file with a comment, the project path and two sections
whose property lines are not indented. -/
def sampleTwoSections : String :=
  "# devices of the test bed\nprojectsPath=pi_workspace\n\n[pi1]\naddress=10.0.0.1\nproject=Project1\nargs=x:5,y:7\n\n[pi2]\naddress=10.0.0.2\nproject=\nargs=\n"

/-- A configuration file in which the header of a second section follows the
header of the first at once. -/
def sampleHeaderInSection : String :=
  "projectsPath=pi_workspace\n[a]\n[b]\naddress=10.0.0.2\nproject=Project1\nargs=\n"

/-- A configuration file with a comment line inside a device section. -/
def sampleCommentInSection : String :=
  "projectsPath=pi_workspace\n\n[pi1]\n# the first device\naddress=10.0.0.1\nproject=Project1\nargs=\n"

/-- The same configuration file without the comment line. -/
def sampleCommentRemoved : String :=
  "projectsPath=pi_workspace\n\n[pi1]\naddress=10.0.0.1\nproject=Project1\nargs=\n"

/-- A configuration file whose property lines are indented. -/
def sampleIndentedConfig : String :=
  "projectsPath=pi_workspace\n\n[pi1]\n  address=10.0.0.1\n  project=Project1\n  args=x:5\n"

/-- A configuration file whose property lines are not indented. -/
def samplePlainConfig : String :=
  "projectsPath=pi_workspace\n\n[pi1]\naddress=10.0.0.1\nproject=Project1\nargs=x:5,y:7\n"

/-- A per-project `config.txt` whose template holds an equal sign. -/
def sampleArgvWithEqual : String := "argv=--mode=%m%\n"

/-- A per-project `config.txt` with a comment and a template. -/
def sampleArgvConfig : String := "# arguments of the project\nargv=--p1 %x% --p2 %y%\n"

/-- The entries of a `QMap` are in strictly ascending key order. -/
def QMap.wellFormed (m : List (String × String)) : Prop :=
  (m.map Prod.fst).Pairwise (fun a b : String => a.data < b.data)

/-- Decidability of `QMap.wellFormed`. -/
instance (m : List (String × String)) : Decidable (QMap.wellFormed m) :=
  inferInstanceAs (Decidable ((m.map Prod.fst).Pairwise (fun a b : String => a.data < b.data)))

/-- A device whose configuration the file format can hold: no line break in
the name, no equal sign or line break in address and project, no equal sign,
comma, colon or line break in the tokens and values of the argument map. -/
def RaspberryPi.writable (pi : RaspberryPi) : Prop :=
  freeOf ['\n', '\r'] pi.name ∧ freeOf ['=', '\n', '\r'] pi.addr ∧
  freeOf ['=', '\n', '\r'] pi.project ∧
  (∀ kv ∈ pi.args, freeOf ['=', ',', ':', '\n', '\r'] kv.1 ∧
    freeOf ['=', ',', ':', '\n', '\r'] kv.2) ∧
  QMap.wellFormed pi.args

/-- Decidability of `RaspberryPi.writable`. -/
instance (pi : RaspberryPi) : Decidable pi.writable :=
  inferInstanceAs (Decidable (_ ∧ _ ∧ _ ∧ _ ∧ _))

/-- A window whose configuration the file format can hold: a non-empty
project path without equal sign and line break, and writable devices. -/
def MainWindow.writable (w : MainWindow) : Prop :=
  w.projectsPath ≠ "" ∧ freeOf ['=', '\n', '\r'] w.projectsPath ∧ ∀ pi ∈ w.pis, pi.writable

/-- Decidability of `MainWindow.writable`. -/
instance (w : MainWindow) : Decidable w.writable :=
  inferInstanceAs (Decidable (_ ∧ _ ∧ _))

/-- The lines of the device sections of a configuration file, each section
after an empty line. -/
def sectionsLines (pis : List RaspberryPi) : List String :=
  (pis.map (fun pi => "" :: sectionLines pi.name pi.addr pi.project pi.args)).flatten

/-- Lines written one after the other, each ended by a line feed. -/
def unlines (lines : List String) : List Char :=
  (lines.map (fun l => l.data ++ ['\n'])).flatten

/-- A window with two devices with argument maps. -/
def sampleArgsWindow : MainWindow :=
  { sampleWindow with
    pis := [{ samplePi "1" piStatus.online true with args := [("x", "5"), ("y", "7")] },
            { samplePi "2" piStatus.offline false with project := "", args := [] }] }

/-- The configuration that `readConfig` yields for the section of a
device. -/
def RaspberryPi.toConfig (pi : RaspberryPi) : piConfig :=
  { name := pi.name, addr := pi.addr, project := pi.project, args := pi.args,
    projectValid := false }

/-! ## Creating devices and reassigning projects (MainWindow.cpp 256-373, 764-808) -/

/-- The constructor `RaspberryPi::RaspberryPi` (RaspberryPi.cpp 6-87) as far
as the members of the device go: the values of the configuration, the item,
an empty output tab, the initial status and error of the class
(RaspberryPi.h), the timer created but not started, and the argument string
calculated by `calc_argv(project_argv)`. -/
def RaspberryPi.create (config : piConfig) (project_argv : String) (item : QTreeWidgetItem) :
    RaspberryPi :=
  RaspberryPi.calc_argv
    { name := config.name, addr := config.addr, project := config.project,
      args := config.args, projectValid := config.projectValid, argv := "", error := "",
      status := piStatus.checking, statusTimerActive := false, item := item, te_output := "" }
    project_argv

/-- The loop of `check_piConfig` over the devices created so far
(MainWindow.cpp 267-280): the warning of the first device with the same name
or the same address, if there is one. -/
def check_piConfig.loop (pi_config : piConfig) : List RaspberryPi → Option String
  | [] => none
  | pi :: rest =>
    if pi_config.name = pi.name then some ("Duplicate name: " ++ pi_config.name ++ ".\n")
    else if pi_config.addr = pi.addr then
      some ("Client " ++ pi_config.name ++ " has the same address as Client " ++ pi.name ++
        " (" ++ pi_config.addr ++ ").\n")
    else check_piConfig.loop pi_config rest

/-- `MainWindow::check_piConfig` (MainWindow.cpp 256-293): whether the
configuration is accepted, the configuration with `projectValid` set, and the
warnings. -/
def MainWindow.check_piConfig (w : MainWindow) (pi_config : piConfig) (projects : List String)
    (warnings : String) : Bool × piConfig × String :=
  if pi_config.name = "" then (false, pi_config, warnings)
  else if pi_config.addr = "" then
    (false, pi_config, warnings ++ "No address was set for Client " ++ pi_config.name ++ ".\n")
  else
    match check_piConfig.loop pi_config w.pis with
    | some warning => (false, pi_config, warnings ++ warning)
    | none =>
      if pi_config.project = "" then (true, { pi_config with projectValid := false }, warnings)
      else if ¬ pi_config.project ∈ projects then
        (true, { pi_config with projectValid := false }, warnings)
      else (true, { pi_config with projectValid := true }, warnings)

/-- A list with the entry at a position changed. -/
def updateAt {α : Type} (l : List α) (i : Nat) (f : α → α) : List α :=
  match l, i with
  | [], _ => []
  | a :: rest, 0 => f a :: rest
  | a :: rest, n + 1 => a :: updateAt rest n f

/-- `QTreeWidgetItem::addChild` on the top-level item at a position of the
device tree. -/
def addChild (tree : List (String × List Nat)) (top child : Nat) : List (String × List Nat) :=
  updateAt tree top (fun it => (it.1, it.2 ++ [child]))

/-- One iteration of the loop of `create_piNodes` (MainWindow.cpp 303-363).
`project2item` maps a project to the position of its top-level item in the
device tree; the "(unassigned)" item is at position 0.  The new device takes
the next position of the device list. -/
def create_piNodes.step (project2item : List (String × Nat)) (state : MainWindow × String)
    (pi_config : piConfig) : MainWindow × String :=
  let w := state.1
  let checked := w.check_piConfig pi_config (project2item.map Prod.fst) state.2
  if checked.1 = false then (w, checked.2.2)
  else
    let config := checked.2.1
    let item : QTreeWidgetItem :=
      { icon := ":/icons/StatusNotStarted.png", dragEnabled := true, checked := false,
        selected := false }
    let w1 :=
      if config.projectValid then
        { w with tw_pis := addChild w.tw_pis ((project2item.lookup config.project).getD 0)
                   w.pis.length }
      else { w with unassignedHidden := false, tw_pis := addChild w.tw_pis 0 w.pis.length }
    let template := QMap.index w1.projects_argv config.project
    ({ w1 with
        pis := w1.pis ++ [RaspberryPi.create config template.1 item]
        projects_argv := template.2 },
      checked.2.2)

/-- `MainWindow::create_piNodes` (MainWindow.cpp 295-373): the window with
the devices created, and the warnings shown if there are any. -/
def MainWindow.create_piNodes (w : MainWindow) (pi_configs : List piConfig)
    (project2item : List (String × Nat)) : MainWindow × String :=
  pi_configs.foldl (create_piNodes.step project2item) (w, "")

/-- The body of the loops of `tw_pis_itemDropped` for one child of a project
item (MainWindow.cpp 775-796); the child is given by the position of its
device.  A position outside the device list does not occur: the children of
a project item are items of devices. -/
def tw_pis_itemDropped.child (project : String) (w : MainWindow) (child : Nat) : MainWindow :=
  match w.pis.get? child with
  | none => w
  | some pi =>
    if pi.project ≠ project then
      let pi1 := { pi with project := project }
      let template := QMap.index w.projects_argv pi1.project
      let pi2 := pi1.calc_argv template.1
      let pi3 :=
        if pi2.projectValid = false then
          { pi2 with projectValid := true, item := { pi2.item with checked := false } }
        else pi2
      { w with pis := w.pis.set child pi3, projects_argv := template.2 }
    else w

/-- `MainWindow::tw_pis_itemDropped` (MainWindow.cpp 764-808), called after
the tree has moved the dropped item: the window, and the text written to the
configuration file. -/
def MainWindow.tw_pis_itemDropped (w : MainWindow) : MainWindow × String :=
  let w1 := { w with lbl_error := "" }
  let w2 := (w1.tw_pis.drop 1).foldl
    (fun acc top => top.2.foldl (tw_pis_itemDropped.child top.1) acc) w1
  let unassigned : List Nat := (w2.tw_pis.head?.map Prod.snd).getD []
  let w3 :=
    if w2.unassignedHidden = false then
      if unassigned.length = 0 then { w2 with unassignedHidden := true } else w2
    else w2
  (w3, MainWindow.writeConfig w3)

/-- The argument string of every device is `calc_argv` of the template
registered for its project (the empty template when none is registered) and
its argument map. -/
def MainWindow.argvResolved (w : MainWindow) : Prop :=
  ∀ pi ∈ w.pis,
    pi.argv = calcArgvText pi.args (QMap.value w.projects_argv pi.project "")

/-- A window after `getProjects` with two projects, the first with a
template. -/
def sampleProjectWindow : MainWindow :=
  { sampleWindow with
    projects_argv := [("Project1", "--p1 %x% --p2 %y%")]
    tw_pis := [("(unassigned)", []), ("Project1", []), ("Project2", [])] }

/-- Two configurations as read from the file: one for the first project, one
without a project. -/
def sampleConfigs : List piConfig :=
  [{ name := "pi1", addr := "10.0.0.1", project := "Project1", args := [("x", "5")],
     projectValid := false },
   { name := "pi2", addr := "10.0.0.2", project := "", args := [("x", "7")],
     projectValid := false }]

/-- The positions of the project items of `sampleProjectWindow`. -/
def sampleProject2item : List (String × Nat) := [("Project1", 1), ("Project2", 2)]

/-- The window after the two sample devices were created and the item of the
second device was moved from "(unassigned)" to the first project. -/
def sampleDroppedWindow : MainWindow :=
  { (sampleProjectWindow.create_piNodes sampleConfigs sampleProject2item).1 with
    tw_pis := [("(unassigned)", []), ("Project1", [0, 1]), ("Project2", [])] }

/-- A window after `getProjects` found one project, a directory whose name
holds an equal sign. -/
def sampleEqualProjectWindow : MainWindow :=
  { sampleWindow with tw_pis := [("(unassigned)", []), ("Release=1", [])] }

/-- The window after a device without project was created from its
configuration and its item was moved from "(unassigned)" to the project
`Release=1`. -/
def sampleEqualDropWindow : MainWindow :=
  { (sampleEqualProjectWindow.create_piNodes
      [{ name := "pi1", addr := "10.0.0.1", project := "", args := [("x", "5")],
         projectValid := false }]
      [("Release=1", 1)]).1 with
    tw_pis := [("(unassigned)", []), ("Release=1", [0])] }

/-! ## Uniqueness of names and addresses (MainWindow.cpp 256-369) -/

/-- The names of the devices are pairwise distinct, and so are their
addresses. -/
def MainWindow.uniqueDevices (w : MainWindow) : Prop :=
  (w.pis.map RaspberryPi.name).Nodup ∧ (w.pis.map RaspberryPi.addr).Nodup

/-- Configurations as read from a file with a repeated name, a repeated
address, a missing name and a missing address among them. -/
def sampleClashingConfigs : List piConfig :=
  [{ name := "pi1", addr := "10.0.0.1", project := "Project1", args := [],
     projectValid := false },
   { name := "pi1", addr := "10.0.0.2", project := "Project1", args := [],
     projectValid := false },
   { name := "pi3", addr := "10.0.0.1", project := "Project2", args := [],
     projectValid := false },
   { name := "", addr := "10.0.0.4", project := "Project2", args := [],
     projectValid := false },
   { name := "pi5", addr := "", project := "Project2", args := [], projectValid := false },
   { name := "pi6", addr := "10.0.0.6", project := "Project2", args := [],
     projectValid := false }]

/-! ## Sequences of status events (MainWindow.cpp 823-885) -/

/-- A sequence of status events, each a status and an error text, applied to
a device by `MainWindow::SSHcurrStatus` in order. -/
def MainWindow.applyStatus (w : MainWindow) (pi : RaspberryPi) :
    List (piStatus × String) → MainWindow × RaspberryPi
  | [] => (w, pi)
  | e :: rest =>
    MainWindow.applyStatus (MainWindow.SSHcurrStatus w pi e.1 e.2).1
      (MainWindow.SSHcurrStatus w pi e.1 e.2).2 rest

/-- The stored error text is empty unless the status is `offline`. -/
def RaspberryPi.errorOnlyOffline (pi : RaspberryPi) : Prop :=
  pi.status ≠ piStatus.offline → pi.error = ""

/-- Status events as they may arrive at a device over time: an error, a
recovery, a start and a late `checking`. -/
def sampleStatusEvents : List (piStatus × String) :=
  [(piStatus.offline, "timeout"), (piStatus.online, ""), (piStatus.appRunning, ""),
   (piStatus.checking, "late"), (piStatus.offline, "lost")]

/-! ## The SSH executable (src/SSH/SSH.h, src/SSH/SSH.cpp, src/SSH/main.cpp) -/

/-- `#define SSH_OK 0` (libssh, SSH.h). -/
def SSH_OK : Int := 0

/-- `#define SSH_ERROR -1` (libssh, SSH.h). -/
def SSH_ERROR : Int := -1

/-- `#define SSH_CMD_ERROR -2` (SSH.h). -/
def SSH_CMD_ERROR : Int := -2

/-- `#define SSH_APP_RUNNING 1` (SSH.h). -/
def SSH_APP_RUNNING : Int := 1

/-- `#define SSH_APP_NOT_RUNNING 2` (SSH.h). -/
def SSH_APP_NOT_RUNNING : Int := 2

/-- `#define SSH_NO_BYTES_READ 0` (SSH.cpp). -/
def SSH_NO_BYTES_READ : Int := 0

/-- `#define SSH_BYTES_READ 1` (SSH.cpp). -/
def SSH_BYTES_READ : Int := 1

/-- The result of one `ssh_channel_read`: the number of bytes read (zero at
the end of the stream, negative on error) and the bytes. -/
structure ChannelRead where
  nbytes : Int
  data : String
  deriving DecidableEq, Repr

/-- What libssh answers when a command is run on a new channel of the
session: whether the channel is allocated, whether the session channel opens,
whether the exec request is accepted, the results of the successive reads of
the remote stdout and stderr (a read past the end of the list returns 0), and
the text of `ssh_get_error`.  The lists are finite: the remote command
ends. -/
structure Channel where
  allocated : Bool
  opened : Bool
  execAccepted : Bool
  stdoutReads : List ChannelRead
  stderrReads : List ChannelRead
  error : String
  deriving DecidableEq, Repr

/-- The `do … while (nbytes > 0)` loop of `channel_redirect_output`
(SSH.cpp 131-137) with the bytes of the last read, the reads that remain and
the text redirected so far: the last `nbytes` and the text redirected. -/
def SSH.redirectLoop : String → List ChannelRead → String → Int × String
  | data, [], out => (0, out ++ data)
  | data, r :: rest, out =>
    if r.nbytes > 0 then SSH.redirectLoop r.data rest (out ++ data)
    else (r.nbytes, out ++ data)

/-- `SSH::channel_redirect_output` (SSH.cpp 116-152) on the reads of one
stream of the channel: the return code and the text passed to `to`. -/
def SSH.channel_redirect_output (reads : List ChannelRead) : Int × String :=
  let first : ChannelRead := reads.head?.getD { nbytes := 0, data := "" }
  if first.nbytes > 0 then
    let r := SSH.redirectLoop first.data reads.tail ""
    if r.1 < 0 then (SSH_ERROR, r.2) else (SSH_BYTES_READ, r.2)
  else if first.nbytes < 0 then (SSH_ERROR, "")
  else (SSH_NO_BYTES_READ, "")

/-- What a function of the class `SSH` leaves behind: its return code and
what it wrote to stdout and stderr of the executable. -/
structure ExecResult where
  rc : Int
  stdout : String
  stderr : String
  deriving DecidableEq, Repr

/-- `SSH::execute` (SSH.cpp 154-225) on the channel the command runs on. -/
def SSH.execute (channel : Channel) : ExecResult :=
  if channel.allocated = false then
    { rc := SSH_ERROR, stdout := "", stderr := "Couldn't create Channel.\n" }
  else if channel.opened = false then
    { rc := SSH_ERROR, stdout := "", stderr := channel.error ++ "\n" }
  else if channel.execAccepted = false then
    { rc := SSH_ERROR, stdout := "", stderr := channel.error ++ "\n" }
  else
    let out := SSH.channel_redirect_output channel.stdoutReads
    if out.1 = SSH_ERROR then
      { rc := SSH_ERROR, stdout := out.2, stderr := channel.error ++ "\n" }
    else
      let err := SSH.channel_redirect_output channel.stderrReads
      if err.1 = SSH_ERROR then
        { rc := SSH_ERROR, stdout := out.2, stderr := err.2 ++ channel.error ++ "\n" }
      else
        { rc := if err.1 = SSH_BYTES_READ then SSH_CMD_ERROR else SSH_OK,
          stdout := out.2, stderr := err.2 }

/-- The environment of the executable: what `ssh.connect` does for a host
name (`none`: connected; otherwise the text of `ssh_get_error`), the channel
on which a shell command runs, the directories and files that the iteration
over the local project directory finds (or the text of the exception), and
the outcome of the SFTP transfer of the files (`project_save_files`, SSH.cpp
350-388). -/
structure Host where
  connect : String → Option String
  session : String → Channel
  projectEntries : String → String → Except String (List String × List String)
  transfer : List String → String → ExecResult

/-- `SSH::project_mkdirs` (SSH.cpp 249-261). -/
def SSH.project_mkdirs (host : Host) (project : String) (dirs : List String) : ExecResult :=
  SSH.execute (host.session
    (dirs.foldl (fun cmd dirPath => cmd ++ " sw_workspace/" ++ dirPath)
      ("mkdir -p sw_workspace && rm -rf sw_workspace/" ++ project ++
        "/* && mkdir -p sw_workspace/" ++ project)))

/-- `SSH::save` (SSH.cpp 390-420). -/
def SSH.save (host : Host) (project : String) (path2project : Option String) : ExecResult :=
  let path := path2project.getD "."
  match host.projectEntries path project with
  | Except.error what => { rc := SSH_ERROR, stdout := "", stderr := what ++ "\n" }
  | Except.ok entries =>
    let made := SSH.project_mkdirs host project entries.1
    if made.rc ≠ SSH_OK then made
    else
      let saved := host.transfer entries.2 path
      { rc := saved.rc, stdout := made.stdout ++ saved.stdout,
        stderr := made.stderr ++ saved.stderr }

/-- `SSH::compile` (SSH.cpp 422-454). -/
def SSH.compile (host : Host) (project : String) : ExecResult :=
  let r := SSH.execute (host.session
    ("cd sw_workspace/" ++ project ++
      " && (mkdir -p Debug && (test -f makefile && (make -s && > Debug/output.txt || " ++
      ">&2 echo Build error)) || >&2 echo Error: The project is missing a makefile) || " ++
      ">&2 echo Have you saved the project before?"))
  if r.rc ≠ SSH_OK then r else { r with stdout := r.stdout ++ "Build succeeded.\n" }

/-- `SSH::start` (SSH.cpp 456-503); `args` is `none` for a null pointer. -/
def SSH.start (host : Host) (project : String) (args : Option String) : ExecResult :=
  let r := SSH.execute (host.session
    ("cd sw_workspace/" ++ project ++ " && (cd Debug && (test -f " ++ project ++
      " && \x7b bash -c \x27./" ++ project ++ " " ++ args.getD "" ++
      " &> output.txt; echo \"\nThe Process exited with Code $?\" >> output.txt\x27" ++
      " &>/dev/null & \x7d || >&2 echo \x27The binary " ++ project ++
      " of the project is missing\nIs the final target of the makefile called " ++ project ++
      "?\nWas the compilation of the project successful?\x27) || " ++
      ">&2 echo \x27Have you compiled the project before?\x27) || " ++
      ">&2 echo \x27Have you saved the project before?\x27"))
  if r.rc ≠ SSH_OK then r
  else { r with stdout := r.stdout ++ "Application " ++ project ++ " started.\n" }

/-- `SSH::stop` (SSH.cpp 505-523). -/
def SSH.stop (host : Host) (project : String) : ExecResult :=
  let r := SSH.execute (host.session
    ("killall " ++ project ++ " || >&2 echo Are you sure that the Application is running?"))
  if r.rc ≠ SSH_OK then r
  else { r with stdout := r.stdout ++ "Application " ++ project ++ " stopped.\n" }

/-- The shell command of `SSH::isAppRunning`. -/
def SSH.isAppRunning.command (project : String) : String :=
  "pidof " ++ project ++
    " > /dev/null && echo Application is running. || >&2 echo Application is not running."

/-- `SSH::isAppRunning` (SSH.cpp 525-543). -/
def SSH.isAppRunning (host : Host) (project : String) : ExecResult :=
  let r := SSH.execute (host.session (SSH.isAppRunning.command project))
  if r.rc = SSH_OK then { r with rc := SSH_APP_RUNNING }
  else if r.rc = SSH_CMD_ERROR then { r with rc := SSH_APP_NOT_RUNNING }
  else r

/-- The shell command of `SSH::readOutput_once` with the default
`nbytes = 2048`. -/
def SSH.readOutput_once.command (project : String) : String :=
  "tail -c2048 sw_workspace/" ++ project ++ "/Debug/output.txt"

/-- `SSH::readOutput_once` (SSH.cpp 545-551) with the default
`nbytes = 2048`. -/
def SSH.readOutput_once (host : Host) (project : String) : ExecResult :=
  SSH.execute (host.session (SSH.readOutput_once.command project))

/-- `SSH::readOutput_cont` (SSH.cpp 553-559) with the default
`nbytes = 2048`, for a stream that ends. -/
def SSH.readOutput_cont (host : Host) (project : String) : ExecResult :=
  SSH.execute (host.session ("tail -f -c2048 sw_workspace/" ++ project ++ "/Debug/output.txt"))

/-- The map `str2func` of `main` (main.cpp 86-95): the function for a
command, taking the project and the first optional argument. -/
def str2func : List (String × (Host → String → Option String → ExecResult)) :=
  [("status", fun host project _ => SSH.isAppRunning host project),
   ("execute", fun host project _ => SSH.execute (host.session project)),
   ("save", fun host project optArg => SSH.save host project optArg),
   ("compile", fun host project _ => SSH.compile host project),
   ("start", fun host project optArg => SSH.start host project optArg),
   ("stop", fun host project _ => SSH.stop host project),
   ("readOutput_once", fun host project _ => SSH.readOutput_once host project),
   ("readOutput_cont", fun host project _ => SSH.readOutput_cont host project)]

/-- Calls of `main` on the session. -/
inductive SshCall where
  | connect (addr user passwd : String)
  | run (command project : String) (optArg : Option String)
  | disconnect
  deriving DecidableEq, Repr

/-- What a run of the executable leaves behind: the value `main` returns,
what was written to stdout and stderr, and the calls on the session in
order. -/
structure MainResult where
  rc : Int
  stdout : String
  stderr : String
  calls : List SshCall
  deriving DecidableEq, Repr

/-- `main` (main.cpp 45-136) on the argument vector, `argv[0]` included
(`argv[i]` is a null pointer from `i = argc` on); the thread that waits for
input on stdin and the signal handler are not modelled. -/
def main (host : Host) (argv : List String) : MainResult :=
  match argv.get? 1 with
  | none =>
    { rc := SSH_ERROR, stdout := "", stderr := "Error: No host name given\n", calls := [] }
  | some hostName =>
    match argv.get? 2 with
    | none =>
      { rc := SSH_ERROR, stdout := "", stderr := "Error: No command given\n", calls := [] }
    | some command =>
      match argv.get? 3 with
      | none =>
        { rc := SSH_ERROR, stdout := "", stderr := "Error: No project given\n", calls := [] }
      | some project =>
        match str2func.lookup command with
        | none =>
          { rc := SSH_ERROR, stdout := "", stderr := "Unknown command: " ++ command ++ "\n",
            calls := [] }
        | some execFunc =>
          match host.connect hostName with
          | some error =>
            { rc := SSH_ERROR, stdout := "", stderr := error ++ "\n",
              calls := [SshCall.connect hostName "pi" "raspberry"] }
          | none =>
            let r := execFunc host project (argv.get? 4)
            { rc := r.rc, stdout := r.stdout, stderr := r.stderr,
              calls := [SshCall.connect hostName "pi" "raspberry",
                SshCall.run command project (argv.get? 4), SshCall.disconnect] }

/-- The commands of the command line. -/
def knownCommands : List String :=
  ["status", "execute", "save", "compile", "start", "stop", "readOutput_once",
   "readOutput_cont"]

/-- The message for an argument vector without host name, command or
project, or with an unknown command. -/
def usageMessage (argv : List String) : String :=
  if argv.length ≤ 1 then "Error: No host name given\n"
  else if argv.length = 2 then "Error: No command given\n"
  else if argv.length = 3 then "Error: No project given\n"
  else "Unknown command: " ++ (argv.get? 2).getD "" ++ "\n"

/-- A channel on which the command runs and writes the given texts to its
stdout and stderr (nothing is read for an empty text). -/
def sampleChannel (out err : String) : Channel :=
  { allocated := true, opened := true, execAccepted := true,
    stdoutReads := if out = "" then [] else [{ nbytes := out.length, data := out }],
    stderrReads := if err = "" then [] else [{ nbytes := err.length, data := err }],
    error := "" }

/-- A channel that cannot be opened: the connection is lost. -/
def sampleBrokenChannel : Channel :=
  { allocated := true, opened := false, execAccepted := false, stdoutReads := [],
    stderrReads := [], error := "Socket error: disconnected" }

/-- The message of `tail` for a missing output file. -/
def sampleTailError : String :=
  "tail: cannot open \x27sw_workspace/Project1/Debug/output.txt\x27 for reading: No such file or directory\n"

/-- A device on which the project has no output file: `tail` writes only an
error message to stderr; every other command runs silently. -/
def sampleNoOutputHost : Host :=
  { connect := fun _ => none
    session := fun cmd =>
      if cmd = SSH.readOutput_once.command "Project1" then sampleChannel "" sampleTailError
      else sampleChannel "" ""
    projectEntries := fun _ _ => Except.ok ([], [])
    transfer := fun _ _ => { rc := SSH_OK, stdout := "", stderr := "" } }

/-- A device that accepts the connection and then loses it: no channel can
be opened. -/
def sampleLostHost : Host :=
  { connect := fun _ => none
    session := fun _ => sampleBrokenChannel
    projectEntries := fun _ _ => Except.ok ([], [])
    transfer := fun _ _ => { rc := SSH_OK, stdout := "", stderr := "" } }

/-! ## The continuous output and its stop (Qt_GUI/Sources/SSH.cpp 158-199) -/

/-- A `QProcess` object that exists: whether the process is running (it is
not if the executable could not be started), what has been written to its
stdin, and the time in milliseconds after which the process exits once it is
asked to (`none`: it does not exit by itself).  An object that was handed to
`deleteLater` is no such object, see `ProcessPointer`. -/
structure StreamProcess where
  running : Bool
  stdin : String
  exitsAfter : Option Nat
  deriving DecidableEq, Repr

/-- The member `QProcess* process` of `SSHoutput` (Qt_GUI/Headers/SSH.h
141-143).  No constructor initialises it; `SSHreadOutput_cont` points it to a
new object; `process_finished` hands that object to `deleteLater` and leaves
the member as it is, so that it then refers to a deleted object. -/
inductive ProcessPointer where
  | uninitialised
  | object (process : StreamProcess)
  | deleted
  deriving DecidableEq, Repr

/-- `SSHoutput::SSHreadOutput_cont` (SSH.cpp 158-174) as far as the member
goes: `process` points to a new object, on which the SSH executable is
started (`started`: whether it could be started). -/
def SSHoutput.SSHreadOutput_cont (started : Bool) (exitsAfter : Option Nat)
    (_process : ProcessPointer) : ProcessPointer :=
  ProcessPointer.object { running := started, stdin := "", exitsAfter := exitsAfter }

/-- The statement `process->deleteLater()` that ends `process_finished`
(SSH.cpp 197-198): the object is deleted when the thread is back in its event
loop, and the member is not reset. -/
def SSHoutput.process_finished.member (_process : ProcessPointer) : ProcessPointer :=
  ProcessPointer.deleted

/-- `QProcess::write(data)`: the bytes go to the stdin of a running process;
on a process that is not running the device is closed and nothing is
written.  The call does not block. -/
def StreamProcess.write (p : StreamProcess) (data : String) : StreamProcess :=
  if p.running = true then { p with stdin := p.stdin ++ data } else p

/-- `QProcess::waitForFinished(msecs)`: blocks until the process has finished
or `msecs` milliseconds have passed; returns `true` if the process finished,
`false` if the time ran out or the process was not running.  The result is
the return value, the time blocked and the process afterwards. -/
def StreamProcess.waitForFinished (p : StreamProcess) (msecs : Nat) :
    Bool × Nat × StreamProcess :=
  if p.running = false then (false, 0, p)
  else
    match p.exitsAfter with
    | some t =>
      if t ≤ msecs then (true, t, { p with running := false })
      else (false, msecs, { p with exitsAfter := some (t - msecs) })
    | none => (false, msecs, p)

/-- `QProcess::kill()`: a running process is terminated at once; on a process
that is not running nothing happens. -/
def StreamProcess.kill (p : StreamProcess) : StreamProcess := { p with running := false }

/-- What a call of `SSHreadOutput_stop` does: the process afterwards, the time
the call blocked, whether `kill()` was called and whether it terminated a
running process. -/
structure StopResult where
  process : StreamProcess
  waited : Nat
  killCalled : Bool
  killed : Bool
  deriving DecidableEq, Repr

/-- `SSHoutput::SSHreadOutput_stop` (SSH.cpp 176-184) on the member
`process`.  Each of its calls dereferences the member: if the member is not
initialised or refers to a deleted object, the behaviour is undefined
(`none`). -/
def SSHoutput.SSHreadOutput_stop : ProcessPointer → Option StopResult
  | ProcessPointer.object process =>
    let p1 := process.write "q"
    let waited := p1.waitForFinished 2000
    if waited.1 = false then
      some { process := waited.2.2.kill, waited := waited.2.1, killCalled := true,
             killed := waited.2.2.running }
    else
      some { process := waited.2.2, waited := waited.2.1, killCalled := false,
             killed := false }
  | _ => none

/-- The process exits within the given time once it is asked to. -/
def StreamProcess.exitsWithin (p : StreamProcess) (msecs : Nat) : Bool :=
  match p.exitsAfter with
  | some t => decide (t ≤ msecs)
  | none => false

/-! ## Teardown of a device (RaspberryPi.cpp 101-114) -/

/-- The three lane objects of a device. -/
inductive Lane where
  | sshAction
  | sshStatus
  | sshOutput
  deriving DecidableEq, Repr

/-- A device and the window around a teardown: `signalsBlocked()` of the
three lane objects, the signals of the lanes that are posted to the main
thread and not yet delivered (the connections from the lane threads are
queued), the requests the device has emitted, and whether `deleteLater()` was
called. -/
structure Teardown where
  w : MainWindow
  pi : RaspberryPi
  actionBlocked : Bool
  statusBlocked : Bool
  outputBlocked : Bool
  posted : List LaneSignal
  requests : List LaneRequest
  deleteLater : Bool
  deriving DecidableEq, Repr

/-- `RaspberryPi::clear` (RaspberryPi.cpp 101-114). -/
def RaspberryPi.clear (s : Teardown) : Teardown :=
  let s1 := { s with actionBlocked := true, statusBlocked := true, outputBlocked := true }
  let s2 :=
    if s1.pi.status = piStatus.appRunning then
      { s1 with requests := s1.requests ++ [LaneRequest.SSHreadOutput_stop] }
    else s1
  { s2 with deleteLater := true }

/-- Whether the signals of a lane object are blocked. -/
def Teardown.signalsBlocked (s : Teardown) : Lane → Bool
  | Lane.sshAction => s.actionBlocked
  | Lane.sshStatus => s.statusBlocked
  | Lane.sshOutput => s.outputBlocked

/-- What happens around a device: a lane object emits a signal in its
thread, or the event loop of the main thread delivers the next posted
signal. -/
inductive TeardownEvent where
  | emitted (lane : Lane) (signal : LaneSignal)
  | delivered
  deriving DecidableEq, Repr

/-- One event: a signal emitted by a lane whose signals are blocked is
dropped, otherwise it is posted to the main thread; a delivery runs the slot
connected to the oldest posted signal. -/
def Teardown.step (s : Teardown) : TeardownEvent → Teardown
  | TeardownEvent.emitted lane signal =>
    if s.signalsBlocked lane = true then s else { s with posted := s.posted ++ [signal] }
  | TeardownEvent.delivered =>
    match s.posted with
    | [] => s
    | signal :: rest =>
      let r := RaspberryPi.deliver s.w s.pi signal
      { s with w := r.1, pi := r.2.1, requests := s.requests ++ r.2.2, posted := rest }

/-- A sequence of events in order. -/
def Teardown.run (s : Teardown) (events : List TeardownEvent) : Teardown :=
  events.foldl Teardown.step s

/-- A device that is online, with nothing posted and no signals blocked. -/
def sampleTeardown (status : piStatus) (posted : List LaneSignal) : Teardown :=
  { w := sampleWindow, pi := samplePi "1" status true, actionBlocked := false,
    statusBlocked := false, outputBlocked := false, posted := posted, requests := [],
    deleteLater := false }

/-- Events after a teardown: every lane finishes what it was doing and emits
its signals, and the main thread delivers what it finds. -/
def sampleTeardownEvents : List TeardownEvent :=
  [TeardownEvent.emitted Lane.sshStatus (LaneSignal.SSHcurrStatus piStatus.online ""),
   TeardownEvent.delivered,
   TeardownEvent.emitted Lane.sshAction (LaneSignal.SSHstop_finished true "stopped"),
   TeardownEvent.emitted Lane.sshAction (LaneSignal.SSHcurrStatus piStatus.online ""),
   TeardownEvent.delivered,
   TeardownEvent.emitted Lane.sshOutput (LaneSignal.SSHreadOutput_finished "output"),
   TeardownEvent.delivered]

/-! ## The device state machine: single observations (C1, C2) -/

/-- Status after `MainWindow::SSHcurrStatus`: an observation other than
`checking` becomes the status, `checking` leaves it. -/
theorem SSHcurrStatus_status (w : MainWindow) (pi : RaspberryPi) (o : piStatus) (e : String) :
    (MainWindow.SSHcurrStatus w pi o e).2.status =
      if o = piStatus.checking then pi.status else o := by
  unfold MainWindow.SSHcurrStatus
  cases o <;> cases h : pi.status <;> simp [h] <;> split <;> simp [h]

/-- Status after `RaspberryPi::SSHgetStatus_finished`. -/
theorem SSHgetStatus_finished_status (w : MainWindow) (pi : RaspberryPi) (o : piStatus)
    (e : String) :
    (RaspberryPi.SSHgetStatus_finished w pi o e).2.1.status =
      if o = piStatus.checking then pi.status else o := by
  simp [RaspberryPi.SSHgetStatus_finished, SSHcurrStatus_status]

/-- Requests emitted by `RaspberryPi::SSHgetStatus_finished`. -/
theorem SSHgetStatus_finished_requests (w : MainWindow) (pi : RaspberryPi) (o : piStatus)
    (e : String) :
    (RaspberryPi.SSHgetStatus_finished w pi o e).2.2 =
      RaspberryPi.outputRequests pi.status o := by
  simp [RaspberryPi.SSHgetStatus_finished]

/-- An `offline` observation stores its error text. -/
theorem SSHcurrStatus_offline_error (w : MainWindow) (pi : RaspberryPi) (e : String) :
    (MainWindow.SSHcurrStatus w pi piStatus.offline e).2.error = e := by
  unfold MainWindow.SSHcurrStatus
  cases h : pi.status <;> simp [h] <;> split <;> simp [h]

/-- C1, as stated, fails: a device whose status is AppRunning (its continuous
stream is running) receives an Offline observation, and no
`SSHreadOutput_stop` is emitted. -/
theorem C1_offline_from_running_sends_no_stop :
    (samplePi "1" piStatus.appRunning false).status = piStatus.appRunning ∧
    LaneRequest.SSHreadOutput_stop ∉
      (RaspberryPi.SSHgetStatus_finished sampleWindow (samplePi "1" piStatus.appRunning false)
        piStatus.offline "Connection error").2.2 := by
  decide

/-- C1, amended: for every current status, applying an Offline observation
(`RaspberryPi::SSHgetStatus_finished` followed by `MainWindow::SSHcurrStatus`)
leaves the device Offline and records the observation's error text; it sends
no request to the output lane, so no stop is issued, whatever the current
status. -/
theorem C1_offline_observation (w : MainWindow) (pi : RaspberryPi) (error : String) :
    (RaspberryPi.SSHgetStatus_finished w pi piStatus.offline error).2.1.status =
      piStatus.offline ∧
    (RaspberryPi.SSHgetStatus_finished w pi piStatus.offline error).2.1.error = error ∧
    (RaspberryPi.SSHgetStatus_finished w pi piStatus.offline error).2.2 = [] := by
  refine ⟨?_, ?_, ?_⟩
  · simp [SSHgetStatus_finished_status]
  · simp [RaspberryPi.SSHgetStatus_finished, SSHcurrStatus_offline_error]
  · rw [SSHgetStatus_finished_requests]
    cases pi.status <;> simp [RaspberryPi.outputRequests]

/-- C2: for every current status and every observed status in
{Online, AppRunning}, applying the observation leaves the device in the
observed status and emits exactly the request of the transition table:
Checking/Offline to Online one `SSHreadOutput_once`, Checking/Offline/Online
to AppRunning one `SSHreadOutput_cont`, AppRunning to Online one
`SSHreadOutput_stop`, and nothing when the observation equals the current
status. -/
theorem C2_transition_table (w : MainWindow) (pi : RaspberryPi) (observed : piStatus)
    (error : String) (hobs : observed = piStatus.online ∨ observed = piStatus.appRunning) :
    (RaspberryPi.SSHgetStatus_finished w pi observed error).2.1.status = observed ∧
    ((pi.status = piStatus.checking ∨ pi.status = piStatus.offline) →
      observed = piStatus.online →
      (RaspberryPi.SSHgetStatus_finished w pi observed error).2.2 =
        [LaneRequest.SSHreadOutput_once]) ∧
    ((pi.status = piStatus.checking ∨ pi.status = piStatus.offline ∨
        pi.status = piStatus.online) →
      observed = piStatus.appRunning →
      (RaspberryPi.SSHgetStatus_finished w pi observed error).2.2 =
        [LaneRequest.SSHreadOutput_cont]) ∧
    (pi.status = piStatus.appRunning → observed = piStatus.online →
      (RaspberryPi.SSHgetStatus_finished w pi observed error).2.2 =
        [LaneRequest.SSHreadOutput_stop]) ∧
    (observed = pi.status →
      (RaspberryPi.SSHgetStatus_finished w pi observed error).2.2 = []) := by
  rw [SSHgetStatus_finished_status, SSHgetStatus_finished_requests]
  rcases hobs with h | h <;> subst h <;> cases pi.status <;>
    simp [RaspberryPi.outputRequests]

/-- C2 at a concrete input: an Offline device observed Online goes Online with
one one-shot fetch. -/
theorem C2_transition_table_witness :
    (piStatus.online = piStatus.online ∨ piStatus.online = piStatus.appRunning) ∧
    (RaspberryPi.SSHgetStatus_finished sampleWindow (samplePi "1" piStatus.offline false)
      piStatus.online "").2.1.status = piStatus.online ∧
    (RaspberryPi.SSHgetStatus_finished sampleWindow (samplePi "1" piStatus.offline false)
      piStatus.online "").2.2 = [LaneRequest.SSHreadOutput_once] :=
  ⟨Or.inl rfl,
   (C2_transition_table sampleWindow (samplePi "1" piStatus.offline false) piStatus.online ""
      (Or.inl rfl)).1,
   (C2_transition_table sampleWindow (samplePi "1" piStatus.offline false) piStatus.online ""
      (Or.inl rfl)).2.1 (Or.inr rfl) rfl⟩

/-! ## Status polls (C6, C3) -/

/-- The `switch` of `SSHstatus::SSHgetStatus` as a chain of tests. -/
theorem SSHgetStatus_eq (p : QProcess) :
    SSHstatus.SSHgetStatus p =
      if p.started = true then
        if p.exitCode = 1 then [LaneSignal.SSHcurrStatus piStatus.appRunning ""]
        else if p.exitCode = 2 then [LaneSignal.SSHcurrStatus piStatus.online ""]
        else [LaneSignal.SSHcurrStatus piStatus.offline p.standardError]
      else [LaneSignal.SSHcurrStatus piStatus.offline "SSH executable couldn't be started."] := by
  unfold SSHstatus.SSHgetStatus SSH.execSSHexe
  cases hs : p.started
  · simp
  · simp only [Bool.not_true, Bool.false_eq_true, if_false, if_true]
    split
    · next h =>
      have h1 : p.exitCode = 1 := h
      simp [h1]
    · next h =>
      have h2 : p.exitCode = 2 := h
      simp [h2]
    · next h1 h2 =>
      have h3 : ¬ p.exitCode = 1 := h1
      have h4 : ¬ p.exitCode = 2 := h2
      simp [h3, h4]

/-- Delivering one status signal is one call of
`RaspberryPi::SSHgetStatus_finished`. -/
theorem deliverAll_singleton_status (w : MainWindow) (pi : RaspberryPi) (s : piStatus)
    (e : String) :
    RaspberryPi.deliverAll w pi [LaneSignal.SSHcurrStatus s e] =
      ((RaspberryPi.SSHgetStatus_finished w pi s e).1,
       (RaspberryPi.SSHgetStatus_finished w pi s e).2.1,
       (RaspberryPi.SSHgetStatus_finished w pi s e).2.2) := by
  simp [RaspberryPi.deliverAll, RaspberryPi.deliver]

/-- A poll that exits with code 2 puts the device Online and emits the
requests of the transition to Online. -/
theorem poll_exit2 (w : MainWindow) (pi : RaspberryPi) (p : QProcess)
    (hp : p.started = true ∧ p.exitCode = 2) :
    (RaspberryPi.deliverAll w pi (SSHstatus.SSHgetStatus p)).2.1.status = piStatus.online ∧
    (RaspberryPi.deliverAll w pi (SSHstatus.SSHgetStatus p)).2.2 =
      RaspberryPi.outputRequests pi.status piStatus.online := by
  rw [SSHgetStatus_eq]
  simp [hp.1, hp.2, deliverAll_singleton_status, SSHgetStatus_finished_status,
    SSHgetStatus_finished_requests]

/-- Polls that exit with code 2 keep an Online device Online and emit
nothing. -/
theorem runPolls_online_exit2 (ps : List QProcess) (w : MainWindow) (pi : RaspberryPi)
    (hpi : pi.status = piStatus.online)
    (hps : ∀ q ∈ ps, q.started = true ∧ q.exitCode = 2) :
    (RaspberryPi.runPolls w pi ps).2.1.status = piStatus.online ∧
    (RaspberryPi.runPolls w pi ps).2.2 = [] := by
  induction ps generalizing w pi with
  | nil => simp [RaspberryPi.runPolls, hpi]
  | cons q rest ih =>
    have hq := poll_exit2 w pi q (hps q (List.mem_cons_self _ _))
    have hrest := ih (RaspberryPi.deliverAll w pi (SSHstatus.SSHgetStatus q)).1
      (RaspberryPi.deliverAll w pi (SSHstatus.SSHgetStatus q)).2.1 hq.1
      (fun q2 h2 => hps q2 (List.mem_cons_of_mem _ h2))
    simp only [RaspberryPi.runPolls]
    refine ⟨hrest.1, ?_⟩
    rw [hrest.2, hq.2, hpi]
    simp [RaspberryPi.outputRequests]

/-- C3: for a device whose status is Offline, a status poll whose process
exits with code 2 moves the device to Online and emits one
`SSHreadOutput_once` and no `SSHreadOutput_cont`; over any following run of
polls that also exit with code 2 nothing more is emitted, so the whole trace
is exactly one one-shot fetch. -/
theorem C3_offline_to_online_one_fetch (w : MainWindow) (pi : RaspberryPi) (p : QProcess)
    (ps : List QProcess) (hpi : pi.status = piStatus.offline)
    (hp : p.started = true ∧ p.exitCode = 2)
    (hps : ∀ q ∈ ps, q.started = true ∧ q.exitCode = 2) :
    (RaspberryPi.runPolls w pi [p]).2.1.status = piStatus.online ∧
    (RaspberryPi.runPolls w pi [p]).2.2 = [LaneRequest.SSHreadOutput_once] ∧
    (RaspberryPi.runPolls w pi (p :: ps)).2.1.status = piStatus.online ∧
    (RaspberryPi.runPolls w pi (p :: ps)).2.2 = [LaneRequest.SSHreadOutput_once] := by
  have hq := poll_exit2 w pi p hp
  have hrest := runPolls_online_exit2 ps
      (RaspberryPi.deliverAll w pi (SSHstatus.SSHgetStatus p)).1
      (RaspberryPi.deliverAll w pi (SSHstatus.SSHgetStatus p)).2.1 hq.1 hps
  have hreq : RaspberryPi.outputRequests pi.status piStatus.online =
      [LaneRequest.SSHreadOutput_once] := by
    rw [hpi]; simp [RaspberryPi.outputRequests]
  refine ⟨?_, ?_, ?_, ?_⟩
  · simp only [RaspberryPi.runPolls]; exact hq.1
  · simp only [RaspberryPi.runPolls]; rw [hq.2, hreq]; simp
  · simp only [RaspberryPi.runPolls]; exact hrest.1
  · simp only [RaspberryPi.runPolls]; rw [hrest.2, hq.2, hreq]; simp

/-- C3 at a concrete input: an Offline device and three polls with exit
code 2. -/
theorem C3_offline_to_online_one_fetch_witness :
    (samplePi "1" piStatus.offline false).status = piStatus.offline ∧
    ((sampleProcess 2).started = true ∧ (sampleProcess 2).exitCode = 2) ∧
    (RaspberryPi.runPolls sampleWindow (samplePi "1" piStatus.offline false)
      [sampleProcess 2, sampleProcess 2, sampleProcess 2]).2.1.status = piStatus.online ∧
    (RaspberryPi.runPolls sampleWindow (samplePi "1" piStatus.offline false)
      [sampleProcess 2, sampleProcess 2, sampleProcess 2]).2.2 =
        [LaneRequest.SSHreadOutput_once] :=
  ⟨rfl, ⟨rfl, rfl⟩,
   (C3_offline_to_online_one_fetch sampleWindow (samplePi "1" piStatus.offline false)
    (sampleProcess 2) [sampleProcess 2, sampleProcess 2] rfl ⟨rfl, rfl⟩
    (by decide)).2.2⟩

/-- C6: for every status poll whose process was started,
`SSHstatus::SSHgetStatus` emits exactly one status signal; its status is
AppRunning if and only if the exit code is 1, Online if and only if the exit
code is 2, and for every other exit code it is Offline with the process's
stderr as error text. -/
theorem C6_status_classification (p : QProcess) (hstarted : p.started = true) :
    ∃ s e, SSHstatus.SSHgetStatus p = [LaneSignal.SSHcurrStatus s e] ∧
      (s = piStatus.appRunning ↔ p.exitCode = 1) ∧
      (s = piStatus.online ↔ p.exitCode = 2) ∧
      (p.exitCode ≠ 1 → p.exitCode ≠ 2 → s = piStatus.offline ∧ e = p.standardError) := by
  rw [SSHgetStatus_eq]
  simp only [hstarted, if_true]
  by_cases h1 : p.exitCode = 1
  · exact ⟨piStatus.appRunning, "", by simp [h1]⟩
  · by_cases h2 : p.exitCode = 2
    · exact ⟨piStatus.online, "", by simp [h2]⟩
    · exact ⟨piStatus.offline, p.standardError, by simp [h1, h2]⟩

/-- C6 at a concrete input: a poll that exits with code 0. -/
theorem C6_status_classification_witness :
    (sampleProcess 0).started = true ∧
    ∃ s e, SSHstatus.SSHgetStatus (sampleProcess 0) = [LaneSignal.SSHcurrStatus s e] ∧
      (s = piStatus.appRunning ↔ (sampleProcess 0).exitCode = 1) ∧
      (s = piStatus.online ↔ (sampleProcess 0).exitCode = 2) ∧
      ((sampleProcess 0).exitCode ≠ 1 → (sampleProcess 0).exitCode ≠ 2 →
        s = piStatus.offline ∧ e = (sampleProcess 0).standardError) :=
  ⟨rfl, C6_status_classification (sampleProcess 0) rfl⟩

/-! ## Actions that report a status (C7) -/

/-- The `*_finished` slots of the main window do not touch the status of the
device. -/
theorem SSH_finished_status (op : Operation) (w : MainWindow) (pi : RaspberryPi) (ok : Bool)
    (out : String) : (MainWindow.SSH_finished op w pi ok out).2.status = pi.status := by
  cases op <;>
    simp only [MainWindow.SSH_finished, MainWindow.SSHsave_finished,
      MainWindow.SSHcompile_finished, MainWindow.SSHstart_finished,
      MainWindow.SSHstop_finished] <;>
    split <;> try rfl
  all_goals cases ok <;> simp

/-- Signals of a Start that exits with code 0. -/
theorem SSHstart_ok (p : QProcess) (h : p.started = true ∧ p.exitCode = 0) :
    SSHaction.SSHstart p = [LaneSignal.SSHstart_finished true p.standardOutput,
      LaneSignal.SSHcurrStatus piStatus.appRunning ""] := by
  simp [SSHaction.SSHstart, SSH.execSSHexe, h.1, h.2]

/-- Signals of a Stop that exits with code 0. -/
theorem SSHstop_ok (p : QProcess) (h : p.started = true ∧ p.exitCode = 0) :
    SSHaction.SSHstop p = [LaneSignal.SSHstop_finished true p.standardOutput,
      LaneSignal.SSHcurrStatus piStatus.online ""] := by
  simp [SSHaction.SSHstop, SSH.execSSHexe, h.1, h.2]

/-- A failed Start emits its finished signal only. -/
theorem SSHstart_failed (p : QProcess) (h : ¬ (p.started = true ∧ p.exitCode = 0)) :
    ∃ text, SSHaction.SSHstart p = [LaneSignal.SSHstart_finished false text] := by
  by_cases hs : p.started = true
  · have he : ¬ p.exitCode = 0 := fun he => h ⟨hs, he⟩
    exact ⟨p.standardError, by simp [SSHaction.SSHstart, SSH.execSSHexe, hs, he]⟩
  · exact ⟨"SSH executable couldn't be started.", by
      simp [SSHaction.SSHstart, SSH.execSSHexe, hs]⟩

/-- A failed Stop emits its finished signal only. -/
theorem SSHstop_failed (p : QProcess) (h : ¬ (p.started = true ∧ p.exitCode = 0)) :
    ∃ text, SSHaction.SSHstop p = [LaneSignal.SSHstop_finished false text] := by
  by_cases hs : p.started = true
  · have he : ¬ p.exitCode = 0 := fun he => h ⟨hs, he⟩
    exact ⟨p.standardError, by simp [SSHaction.SSHstop, SSH.execSSHexe, hs, he]⟩
  · exact ⟨"SSH executable couldn't be started.", by
      simp [SSHaction.SSHstop, SSH.execSSHexe, hs]⟩

/-- C7: a Start action that completes with exit code 0 forces the device's
status to AppRunning and a Stop action that completes with exit code 0 forces
it to Online, whatever the status was; a Start or Stop that fails (non-zero
exit code or executable not startable) emits no status signal and leaves the
device's status unchanged. -/
theorem C7_action_forces_status (w : MainWindow) (pi : RaspberryPi) (p : QProcess) :
    (p.started = true ∧ p.exitCode = 0 →
      (RaspberryPi.deliverAll w pi (SSHaction.SSHstart p)).2.1.status = piStatus.appRunning ∧
      (RaspberryPi.deliverAll w pi (SSHaction.SSHstop p)).2.1.status = piStatus.online) ∧
    (¬ (p.started = true ∧ p.exitCode = 0) →
      (∀ s e, LaneSignal.SSHcurrStatus s e ∉ SSHaction.SSHstart p) ∧
      (∀ s e, LaneSignal.SSHcurrStatus s e ∉ SSHaction.SSHstop p) ∧
      (RaspberryPi.deliverAll w pi (SSHaction.SSHstart p)).2.1.status = pi.status ∧
      (RaspberryPi.deliverAll w pi (SSHaction.SSHstop p)).2.1.status = pi.status) := by
  have hstart := SSH_finished_status Operation.start w pi
  have hstop := SSH_finished_status Operation.stop w pi
  simp only [MainWindow.SSH_finished] at hstart hstop
  constructor
  · intro h
    rw [SSHstart_ok p h, SSHstop_ok p h]
    simp only [RaspberryPi.deliverAll, RaspberryPi.deliver, SSHgetStatus_finished_status]
    simp
  · intro h
    obtain ⟨t1, h1⟩ := SSHstart_failed p h
    obtain ⟨t2, h2⟩ := SSHstop_failed p h
    rw [h1, h2]
    simp only [RaspberryPi.deliverAll, RaspberryPi.deliver, hstart, hstop]
    simp

/-- C7 at concrete inputs: a Start and a Stop with exit code 0 on an Offline
device, and a Start with exit code 1 on an Online device. -/
theorem C7_action_forces_status_witness :
    ((sampleProcess 0).started = true ∧ (sampleProcess 0).exitCode = 0) ∧
    ¬ ((sampleProcess 1).started = true ∧ (sampleProcess 1).exitCode = 0) ∧
    ((RaspberryPi.deliverAll sampleWindow (samplePi "1" piStatus.offline true)
        (SSHaction.SSHstart (sampleProcess 0))).2.1.status = piStatus.appRunning ∧
      (RaspberryPi.deliverAll sampleWindow (samplePi "1" piStatus.offline true)
        (SSHaction.SSHstop (sampleProcess 0))).2.1.status = piStatus.online) ∧
    (RaspberryPi.deliverAll sampleWindow (samplePi "1" piStatus.online true)
        (SSHaction.SSHstart (sampleProcess 1))).2.1.status =
      (samplePi "1" piStatus.online true).status :=
  ⟨⟨rfl, rfl⟩, by decide,
   (C7_action_forces_status sampleWindow (samplePi "1" piStatus.offline true)
      (sampleProcess 0)).1 ⟨rfl, rfl⟩,
   ((C7_action_forces_status sampleWindow (samplePi "1" piStatus.online true)
      (sampleProcess 1)).2 (by decide)).2.2.1⟩

/-! ## The poll lane (C4) -/

/-- A completed poll restarts the status timer. -/
theorem poll_restarts_timer (w : MainWindow) (pi : RaspberryPi) (p : QProcess) :
    (RaspberryPi.deliverAll w pi (SSHstatus.SSHgetStatus p)).2.1.statusTimerActive = true := by
  rw [SSHgetStatus_eq]
  split_ifs <;> simp [deliverAll_singleton_status, RaspberryPi.SSHgetStatus_finished]

/-- The poll lane on its own is single-flight: as long as only the timer and
poll completions occur after the constructor, either one poll is outstanding
and the timer is inactive, or none is outstanding and the timer is armed. -/
theorem pollLane_single_flight (events : List LaneEvent) (s s2 : DeviceLanes)
    (hev : ∀ e ∈ events, e.isPollLane = true)
    (hinv : s.pollsOutstanding + (if s.pi.statusTimerActive = true then 1 else 0) = 1)
    (hrun : DeviceLanes.run s events = some s2) :
    s2.pollsOutstanding + (if s2.pi.statusTimerActive = true then 1 else 0) = 1 := by
  induction events generalizing s with
  | nil =>
    simp only [DeviceLanes.run, Option.some.injEq] at hrun
    subst hrun
    exact hinv
  | cons e rest ih =>
    have he := hev e (List.mem_cons_self _ _)
    have hrest : ∀ e2 ∈ rest, e2.isPollLane = true :=
      fun e2 h2 => hev e2 (List.mem_cons_of_mem _ h2)
    cases e with
    | timerFired =>
      by_cases ht : s.pi.statusTimerActive = true
      · simp only [DeviceLanes.run, DeviceLanes.step, ht, if_true] at hrun
        refine ih _ hrest ?_ hrun
        simp only [ht, if_true] at hinv
        simp
        omega
      · simp [DeviceLanes.run, DeviceLanes.step, ht] at hrun
    | pollCompleted p =>
      by_cases hp : s.pollsOutstanding > 0
      · simp only [DeviceLanes.run, DeviceLanes.step, hp, if_true] at hrun
        refine ih _ hrest ?_ hrun
        simp only [DeviceLanes.receive, poll_restarts_timer, if_true]
        split_ifs at hinv <;> omega
      · simp [DeviceLanes.run, DeviceLanes.step, hp] at hrun
    | operationRequested op => simp [LaneEvent.isPollLane] at he
    | actionCompleted p => simp [LaneEvent.isPollLane] at he
    | outputExited c err => simp [LaneEvent.isPollLane] at he

/-- C4 fails on the code: after the constructor's poll has completed and the
timer has issued the next poll, the operator starts the application; the
successful Start reports its status through
`RaspberryPi::SSHgetStatus_finished`, which restarts the status timer while
that poll is still outstanding (one poll outstanding, timer active), and when
the timer fires a further `SSHgetStatus` is issued: two polls are
outstanding. -/
theorem C4_poll_issued_while_outstanding :
    (DeviceLanes.run (DeviceLanes.afterConstructor sampleWindow
        (samplePi "1" piStatus.checking true)) (sampleLaneEvents.take 4)).map
      (fun s => (s.pollsOutstanding, s.pi.statusTimerActive, s.pi.status)) =
        some (1, true, piStatus.appRunning) ∧
    (DeviceLanes.run (DeviceLanes.afterConstructor sampleWindow
        (samplePi "1" piStatus.checking true)) sampleLaneEvents).map
      (fun s => s.pollsOutstanding) = some 2 := by
  decide

/-! ## Switching the mode of the output lane (C5) -/

/-- The invariant for an empty trace. -/
theorem streamInvariant_nil (k : Nat) (hk : k ≤ 1) : streamInvariant k [] := by
  constructor
  · intro pre r post h
    simp at h
  · intro pre post h
    have hpre : pre = [] := by
      cases pre with
      | nil => rfl
      | cons a t => simp at h
    subst hpre
    simpa using hk

/-- The invariant with fewer streams running at the start. -/
theorem streamInvariant_mono (k k2 : Nat) (trace : List LaneRequest) (h : k ≤ k2)
    (hinv : streamInvariant k2 trace) : streamInvariant k trace := by
  constructor
  · intro pre r post ht hr
    have := hinv.1 pre r post ht hr
    omega
  · intro pre post ht
    have := hinv.2 pre post ht
    omega

/-- The invariant after one more request in front. -/
theorem streamInvariant_cons (x : LaneRequest) (trace : List LaneRequest) (k k2 : Nat)
    (hk : k ≤ 1)
    (hstart : (x = LaneRequest.SSHreadOutput_cont ∨ x = LaneRequest.SSHreadOutput_once) → k = 0)
    (hbal : k + [x].count LaneRequest.SSHreadOutput_cont ≤
      k2 + [x].count LaneRequest.SSHreadOutput_stop)
    (hinv : streamInvariant k2 trace) : streamInvariant k (x :: trace) := by
  constructor
  · intro pre r post ht hr
    cases pre with
    | nil =>
      simp at ht
      have := hstart (ht.1 ▸ hr)
      simp [this]
    | cons a t =>
      simp at ht
      obtain ⟨hxa, htr⟩ := ht
      subst hxa
      have := hinv.1 t r post htr hr
      simp only [List.count_cons] at hbal ⊢
      simp only [List.count_nil] at hbal
      omega
  · intro pre post ht
    cases pre with
    | nil => simpa using hk
    | cons a t =>
      simp at ht
      obtain ⟨hxa, htr⟩ := ht
      subst hxa
      have := hinv.2 t post htr
      simp only [List.count_cons] at hbal ⊢
      simp only [List.count_nil] at hbal
      omega

/-- The request trace of a run of observations satisfies the invariant when
no Offline observation meets a running application. -/
theorem observeAll_streamInvariant (obs : List (piStatus × String)) (w : MainWindow)
    (pi : RaspberryPi) (hobs : RaspberryPi.offlineWhileRunning w pi obs = false) :
    streamInvariant (runningStreams pi.status) (RaspberryPi.observeAll w pi obs).2.2 := by
  induction obs generalizing w pi with
  | nil =>
    simp only [RaspberryPi.observeAll]
    apply streamInvariant_nil
    unfold runningStreams; split <;> omega
  | cons o rest ih =>
    simp only [RaspberryPi.offlineWhileRunning, Bool.or_eq_false_iff,
      Bool.and_eq_false_iff] at hobs
    obtain ⟨hnow, hrest⟩ := hobs
    have hih := ih _ _ hrest
    rw [SSHgetStatus_finished_status] at hih
    simp only [RaspberryPi.observeAll]
    rw [SSHgetStatus_finished_requests]
    obtain ⟨os, oe⟩ := o
    simp only at hih hnow ⊢
    cases hs : pi.status <;> cases os <;>
      simp [hs, runningStreams, RaspberryPi.outputRequests] at hih hnow ⊢ <;>
      first
        | exact hih
        | (refine streamInvariant_cons _ _ _ _ (by decide) (by decide) (by decide) hih)

/-- C5, as stated, fails: a fresh device observed AppRunning, then Offline,
then AppRunning again is sent `SSHreadOutput_cont` twice and no
`SSHreadOutput_stop`, so the second stream is started while the first has not
been sent a stop. -/
theorem C5_second_stream_without_stop :
    (RaspberryPi.observeAll sampleWindow (samplePi "1" piStatus.checking false)
      sampleObservations).2.2 =
        [LaneRequest.SSHreadOutput_cont, LaneRequest.SSHreadOutput_cont] ∧
    ¬ (∀ pre r post,
      (RaspberryPi.observeAll sampleWindow (samplePi "1" piStatus.checking false)
        sampleObservations).2.2 = pre ++ r :: post →
      (r = LaneRequest.SSHreadOutput_cont ∨ r = LaneRequest.SSHreadOutput_once) →
      pre.count LaneRequest.SSHreadOutput_cont ≤ pre.count LaneRequest.SSHreadOutput_stop) := by
  have htrace : (RaspberryPi.observeAll sampleWindow (samplePi "1" piStatus.checking false)
      sampleObservations).2.2 =
      [LaneRequest.SSHreadOutput_cont, LaneRequest.SSHreadOutput_cont] := by decide
  refine ⟨htrace, fun h => ?_⟩
  have := h [LaneRequest.SSHreadOutput_cont] LaneRequest.SSHreadOutput_cont [] htrace
    (Or.inl rfl)
  revert this
  decide

/-- C5, amended: for every sequence of status observations applied to a
device in which no Offline observation is applied while the status is
AppRunning, whenever a continuous stream or a one-shot fetch is started every
continuous stream started earlier has already been sent a stop, and at every
point of the trace at most one continuous stream is without a stop. -/
theorem C5_cancel_before_switch (w : MainWindow) (pi : RaspberryPi)
    (obs : List (piStatus × String))
    (hobs : RaspberryPi.offlineWhileRunning w pi obs = false) :
    (∀ pre r post, (RaspberryPi.observeAll w pi obs).2.2 = pre ++ r :: post →
      (r = LaneRequest.SSHreadOutput_cont ∨ r = LaneRequest.SSHreadOutput_once) →
      pre.count LaneRequest.SSHreadOutput_cont ≤ pre.count LaneRequest.SSHreadOutput_stop) ∧
    (∀ pre post, (RaspberryPi.observeAll w pi obs).2.2 = pre ++ post →
      pre.count LaneRequest.SSHreadOutput_cont ≤
        pre.count LaneRequest.SSHreadOutput_stop + 1) := by
  have h := streamInvariant_mono 0 _ _ (Nat.zero_le _) (observeAll_streamInvariant obs w pi hobs)
  simpa [streamInvariant] using h

/-- C5 (amended) at a concrete input: a fresh device run through
`sampleCleanObservations`. -/
theorem C5_cancel_before_switch_witness :
    RaspberryPi.offlineWhileRunning sampleWindow (samplePi "1" piStatus.checking false)
      sampleCleanObservations = false ∧
    ((RaspberryPi.observeAll sampleWindow (samplePi "1" piStatus.checking false)
      sampleCleanObservations).2.2).count LaneRequest.SSHreadOutput_cont ≤
    ((RaspberryPi.observeAll sampleWindow (samplePi "1" piStatus.checking false)
      sampleCleanObservations).2.2).count LaneRequest.SSHreadOutput_stop + 1 :=
  ⟨by decide,
   (C5_cancel_before_switch sampleWindow (samplePi "1" piStatus.checking false)
      sampleCleanObservations (by decide)).2 _ [] (List.append_nil _).symm⟩

/-! ## Bulk dispatch: validation and report (C8, C9) -/

/-- The four loop bodies follow one scheme: a selected device in the valid
status is dispatched to and counted, a selected device in another status adds
its warning line, an unselected device is skipped. -/
theorem btn_body_eq (op : Operation) (w : MainWindow) (acc : ClickLoop) (pi : RaspberryPi) :
    MainWindow.btn_body op w acc pi =
      if pi.item.checked = true then
        if pi.status = op.validPrecondition then
          { acc with
            noPiSelected := false
            emitted := acc.emitted ++ [(pi, op.request w)]
            busyPiCount := incBusy acc.busyPiCount }
        else
          { acc with
            noPiSelected := false
            warnings := acc.warnings ++ op.warningLine pi }
      else acc := by
  cases op <;> cases hs : pi.status <;> cases hc : pi.item.checked <;>
    simp [MainWindow.btn_body, MainWindow.btn_save_body, MainWindow.btn_compile_body,
      MainWindow.btn_start_body, MainWindow.btn_stop_body, Operation.validPrecondition,
      Operation.request, Operation.warningLine, hs, hc]

/-- Concatenation of report lines distributes over append. -/
theorem concatLines_append (a b : List String) :
    concatLines (a ++ b) = concatLines a ++ concatLines b := by
  induction a with
  | nil => simp [concatLines]
  | cons x t ih => simp [concatLines, ih, String.append_assoc]

/-- The loop of a button slot, by the device list. -/
theorem foldl_btn_body (op : Operation) (w : MainWindow) (l : List RaspberryPi)
    (acc : ClickLoop) :
    l.foldl (MainWindow.btn_body op w) acc =
      { noPiSelected := acc.noPiSelected && !(l.any (fun pi => pi.item.checked))
        warnings := acc.warnings ++ concatLines
          ((l.filter (fun pi => pi.item.checked && pi.status != op.validPrecondition)).map
            op.warningLine)
        busyPiCount := Nat.iterate incBusy
          (l.filter (fun pi => pi.item.checked && pi.status == op.validPrecondition)).length
          acc.busyPiCount
        emitted := acc.emitted ++
          (l.filter (fun pi => pi.item.checked && pi.status == op.validPrecondition)).map
            (fun pi => (pi, op.request w)) } := by
  induction l generalizing acc with
  | nil => simp [concatLines]
  | cons pi rest ih =>
    rw [List.foldl_cons, ih, btn_body_eq]
    by_cases hc : pi.item.checked = true
    · by_cases hv : pi.status = op.validPrecondition
      · simp [hc, hv, concatLines]
      · simp [hc, hv, concatLines, String.append_assoc]
    · simp [hc]

/-- A button slot is its loop followed by the part after the loop. -/
theorem btn_clicked_eq (op : Operation) (w : MainWindow) :
    MainWindow.btn_clicked op w =
      match op with
      | Operation.save => MainWindow.afterLoopBanner w
          (w.pis.foldl (MainWindow.btn_body op w) (MainWindow.loopInit w)) "### Save started ###\n"
      | Operation.compile => MainWindow.afterLoopBanner w
          (w.pis.foldl (MainWindow.btn_body op w) (MainWindow.loopInit w)) "### Build started ###\n"
      | Operation.start => MainWindow.afterLoop w
          (w.pis.foldl (MainWindow.btn_body op w) (MainWindow.loopInit w))
      | Operation.stop => MainWindow.afterLoop w
          (w.pis.foldl (MainWindow.btn_body op w) (MainWindow.loopInit w)) := by
  cases op <;> rfl

/-- Every warning line is non-empty. -/
theorem warningLine_length_pos (op : Operation) (pi : RaspberryPi) :
    0 < (op.warningLine pi).length := by
  have h1 : ".\n".length = 2 := by decide
  have h2 : " is not connected.\n".length = 19 := by decide
  cases op <;> cases hs : pi.status <;>
    simp only [Operation.warningLine, hs, String.length_append] <;> omega

/-- A report with at least one line is non-empty. -/
theorem concatLines_length_pos (l : List String) (hl : l ≠ [])
    (hpos : ∀ x ∈ l, 0 < x.length) : 0 < (concatLines l).length := by
  cases l with
  | nil => exact absurd rfl hl
  | cons x t =>
    have := hpos x (List.mem_cons_self _ _)
    simp only [concatLines, String.length_append]
    omega

/-- The report is empty exactly when no device was rejected. -/
theorem report_eq_empty_iff (op : Operation) (l : List RaspberryPi) :
    concatLines (l.map op.warningLine) = "" ↔ l = [] := by
  constructor
  · intro h
    by_contra hne
    have hpos := concatLines_length_pos (l.map op.warningLine) (by simpa using hne)
      (by
        intro x hx
        obtain ⟨pi, _, rfl⟩ := List.mem_map.1 hx
        exact warningLine_length_pos op pi)
    rw [h] at hpos
    simp at hpos
  · intro h
    subst h
    rfl

/-- Outputs of a button slot, by the device list. -/
theorem btn_clicked_output (op : Operation) (w : MainWindow) :
    (MainWindow.btn_clicked op w).2.emitted =
      (w.validSelected op).map (fun pi => (pi, op.request w)) ∧
    (MainWindow.btn_clicked op w).2.messageBox =
      if w.pis.any (fun pi => pi.item.checked) = true then
        if w.invalidSelected op = [] then none
        else some ("Warning(s)", concatLines ((w.invalidSelected op).map op.warningLine))
      else some ("Warning", "No Raspberry Pi selected.") := by
  rw [btn_clicked_eq]
  have hrep := report_eq_empty_iff op (w.invalidSelected op)
  unfold MainWindow.invalidSelected at hrep
  cases op <;>
    simp only [MainWindow.afterLoopBanner, MainWindow.afterLoop, foldl_btn_body,
      MainWindow.loopInit, MainWindow.validSelected, MainWindow.invalidSelected] <;>
    cases hany : w.pis.any (fun pi => pi.item.checked) <;>
    simp [hany] at * <;>
    simp [hrep]

/-- A selected device in an invalid status is rejected with its warning
line. -/
theorem btn_clicked_rejects (op : Operation) (w : MainWindow) (pi : RaspberryPi)
    (hmem : pi ∈ w.pis) (hsel : pi.item.checked = true)
    (hstatus : pi.status ≠ op.validPrecondition) :
    (MainWindow.btn_clicked op w).2.rejects pi (op.warningLine pi) := by
  obtain ⟨hemit, hbox⟩ := btn_clicked_output op w
  have hinv : pi ∈ w.invalidSelected op := by
    simp [MainWindow.invalidSelected, hmem, hsel, hstatus]
  have hany : w.pis.any (fun pi => pi.item.checked) = true :=
    List.any_eq_true.2 ⟨pi, hmem, hsel⟩
  constructor
  · intro req hreq
    rw [hemit] at hreq
    obtain ⟨pi2, hpi2, heq⟩ := List.mem_map.1 hreq
    have hpi : pi2 = pi := congrArg Prod.fst heq
    subst hpi
    simp [MainWindow.validSelected] at hpi2
    exact hstatus hpi2.2.2
  · obtain ⟨s, t, hst⟩ := List.append_of_mem hinv
    refine ⟨concatLines (s.map op.warningLine), concatLines (t.map op.warningLine), ?_⟩
    rw [hbox, if_pos hany, if_neg (List.ne_nil_of_mem hinv), hst]
    simp [concatLines_append, concatLines, String.append_assoc]

/-- C8: for every device list, every selection and every operation, the
signals emitted are exactly one request per selected device whose status is
the valid precondition (Online for Save, Compile and Start; AppRunning for
Stop), in device-list order, whatever the other devices are; and the warning
report consists of exactly one line per selected device that fails
validation, in device-list order, shown in one box when there is such a
device (when no device is selected at all the box shown is the
"No Raspberry Pi selected." notice). -/
theorem C8_dispatch_and_report (op : Operation) (w : MainWindow) :
    (MainWindow.btn_clicked op w).2.emitted =
      (w.pis.filter (fun pi => pi.item.checked && pi.status == op.validPrecondition)).map
        (fun pi => (pi, op.request w)) ∧
    (MainWindow.btn_clicked op w).2.messageBox =
      if w.pis.any (fun pi => pi.item.checked) = true then
        if w.pis.filter (fun pi => pi.item.checked && pi.status != op.validPrecondition) = []
        then none
        else some ("Warning(s)", concatLines
          ((w.pis.filter (fun pi => pi.item.checked && pi.status != op.validPrecondition)).map
            op.warningLine))
      else some ("Warning", "No Raspberry Pi selected.") :=
  btn_clicked_output op w

/-- C9: Start requested for a selected device in AppRunning is rejected with
the "already running" line and causes no dispatch to it; Stop requested for a
selected device in Online is rejected with the "not running" line; Save
requested for a selected device in Checking is rejected with the "still
checking" line (spelled "Still ckecking" in the code). -/
theorem C9_validation_rejections (w : MainWindow) (pi : RaspberryPi) (hmem : pi ∈ w.pis)
    (hsel : pi.item.checked = true) :
    (pi.status = piStatus.appRunning →
      (MainWindow.btn_start_clicked w).2.rejects pi
        ("Application " ++ pi.project ++ " is already running on " ++ pi.name ++ ".\n")) ∧
    (pi.status = piStatus.online →
      (MainWindow.btn_stop_clicked w).2.rejects pi
        ("Application " ++ pi.project ++ " is not running on " ++ pi.name ++ ".\n")) ∧
    (pi.status = piStatus.checking →
      (MainWindow.btn_save_clicked w).2.rejects pi
        ("Still ckecking the status of " ++ pi.name ++ ".\n")) := by
  refine ⟨fun h => ?_, fun h => ?_, fun h => ?_⟩
  · have := btn_clicked_rejects Operation.start w pi hmem hsel
      (by simp [h, Operation.validPrecondition])
    simpa [MainWindow.btn_clicked, Operation.warningLine, h] using this
  · have := btn_clicked_rejects Operation.stop w pi hmem hsel
      (by simp [h, Operation.validPrecondition])
    simpa [MainWindow.btn_clicked, Operation.warningLine, h] using this
  · have := btn_clicked_rejects Operation.save w pi hmem hsel
      (by simp [h, Operation.validPrecondition])
    simpa [MainWindow.btn_clicked, Operation.warningLine, h] using this

/-- C9 at a concrete input: the selected devices "2" (AppRunning) and "4"
(Checking) of `sampleFleet`. -/
theorem C9_validation_rejections_witness :
    (samplePi "2" piStatus.appRunning true ∈ sampleFleet.pis ∧
      (samplePi "2" piStatus.appRunning true).item.checked = true ∧
      (samplePi "2" piStatus.appRunning true).status = piStatus.appRunning) ∧
    (MainWindow.btn_start_clicked sampleFleet).2.rejects (samplePi "2" piStatus.appRunning true)
      ("Application " ++ (samplePi "2" piStatus.appRunning true).project ++
        " is already running on " ++ (samplePi "2" piStatus.appRunning true).name ++ ".\n") ∧
    (MainWindow.btn_save_clicked sampleFleet).2.rejects (samplePi "4" piStatus.checking true)
      ("Still ckecking the status of " ++ (samplePi "4" piStatus.checking true).name ++ ".\n") :=
  ⟨⟨by decide, rfl, rfl⟩,
   (C9_validation_rejections sampleFleet (samplePi "2" piStatus.appRunning true)
      (by decide) rfl).1 rfl,
   (C9_validation_rejections sampleFleet (samplePi "4" piStatus.checking true)
      (by decide) rfl).2.2 rfl⟩

/-! ## Batch settlement (C10) -/

/-- Counting up from zero does not wrap below `UINT_RANGE`. -/
theorem iterate_incBusy_zero (k : Nat) (hk : k < UINT_RANGE) : Nat.iterate incBusy k 0 = k := by
  induction k with
  | zero => rfl
  | succ n ih =>
    rw [Function.iterate_succ_apply', ih (by omega)]
    unfold incBusy
    exact Nat.mod_eq_of_lt hk

/-- The decrement of a positive counter. -/
theorem decBusy_pos (c : Nat) (hc : 0 < c) : decBusy c = c - 1 := by
  unfold decBusy
  rw [if_neg (by omega)]

/-- One result: info entry, decrement, and at zero the banner and the
re-enabling of the buttons. -/
theorem SSH_finished_window (op : Operation) (w : MainWindow) (r : ActionResult) :
    (MainWindow.SSH_finished op w r.pi r.success r.output).1 =
      if decBusy w.busyPiCount = 0 then
        { w with
          busyPiCount := 0
          lw_infoOutput := w.lw_infoOutput ++ [op.infoItem r] ++ op.finishedBanner
          btnsEnabled := true
          btnsCalls := w.btnsCalls ++ [true] }
      else
        { w with
          busyPiCount := decBusy w.busyPiCount
          lw_infoOutput := w.lw_infoOutput ++ [op.infoItem r] } := by
  cases op <;>
    simp only [MainWindow.SSH_finished, MainWindow.SSHsave_finished,
      MainWindow.SSHcompile_finished, MainWindow.SSHstart_finished,
      MainWindow.SSHstop_finished, MainWindow.btns_setEnabled, Operation.infoItem,
      Operation.finishedBanner] <;>
    split <;> simp_all <;> split <;> simp

/-- Fewer results than the counter: entries are added, the counter goes
down, the buttons are not touched. -/
theorem applyResults_before (op : Operation) (rs : List ActionResult) (w : MainWindow)
    (hlt : rs.length < w.busyPiCount) :
    MainWindow.applyResults op w rs =
      { w with
        busyPiCount := w.busyPiCount - rs.length
        lw_infoOutput := w.lw_infoOutput ++ rs.map op.infoItem } := by
  induction rs generalizing w with
  | nil => simp [MainWindow.applyResults]
  | cons r rest ih =>
    simp only [List.length_cons] at hlt
    have hdec : decBusy w.busyPiCount = w.busyPiCount - 1 := decBusy_pos _ (by omega)
    have hne : ¬ decBusy w.busyPiCount = 0 := by omega
    simp only [MainWindow.applyResults]
    rw [SSH_finished_window, if_neg hne, ih _ (by simp only [hdec]; omega)]
    simp [hdec, Nat.sub_sub, Nat.add_comm]

/-- As many results as the counter: the last one adds the banner and
re-enables the buttons. -/
theorem applyResults_all (op : Operation) (rs : List ActionResult) (w : MainWindow)
    (hpos : 0 < rs.length) (hlen : rs.length = w.busyPiCount) :
    MainWindow.applyResults op w rs =
      { w with
        busyPiCount := 0
        lw_infoOutput := w.lw_infoOutput ++ rs.map op.infoItem ++ op.finishedBanner
        btnsEnabled := true
        btnsCalls := w.btnsCalls ++ [true] } := by
  induction rs generalizing w with
  | nil => simp at hpos
  | cons r rest ih =>
    simp only [List.length_cons] at hlen
    have hdec : decBusy w.busyPiCount = w.busyPiCount - 1 := decBusy_pos _ (by omega)
    simp only [MainWindow.applyResults]
    rw [SSH_finished_window]
    by_cases hrest : rest = []
    · subst hrest
      simp only [List.length_nil] at hlen
      have h0 : decBusy w.busyPiCount = 0 := by omega
      rw [if_pos h0]
      simp [MainWindow.applyResults]
    · have hrl : 0 < rest.length := List.length_pos.2 hrest
      have hne : ¬ decBusy w.busyPiCount = 0 := by omega
      rw [if_neg hne, ih _ hrl (by simp only [hdec]; omega)]
      simp

/-- Window after the part after the loop (Save, Compile), from counter 0. -/
theorem afterLoopBanner_window (w : MainWindow) (r : ClickLoop) (banner : String)
    (h0 : w.busyPiCount = 0) (hsel : 0 < r.busyPiCount → r.noPiSelected = false) :
    (MainWindow.afterLoopBanner w r banner).1 =
      if r.busyPiCount = 0 then w
      else
        { w with
          busyPiCount := r.busyPiCount
          btnsEnabled := false
          btnsCalls := w.btnsCalls ++ [false]
          lw_infoOutput := w.lw_infoOutput ++ [banner] } := by
  obtain ⟨pp, pis, cnt, en, calls, info, lbl, pargv, tree, hid⟩ := w
  simp only at h0
  subst h0
  unfold MainWindow.afterLoopBanner MainWindow.btns_setEnabled
  by_cases hz : r.busyPiCount = 0
  · cases hn : r.noPiSelected <;> simp [hz, hn]
  · have hn := hsel (by omega)
    have hp : r.busyPiCount > 0 := by omega
    simp [hz, hn, hp]

/-- Window after the part after the loop (Start, Stop), from counter 0. -/
theorem afterLoop_window (w : MainWindow) (r : ClickLoop)
    (h0 : w.busyPiCount = 0) (hsel : 0 < r.busyPiCount → r.noPiSelected = false) :
    (MainWindow.afterLoop w r).1 =
      if r.busyPiCount = 0 then w
      else
        { w with
          busyPiCount := r.busyPiCount
          btnsEnabled := false
          btnsCalls := w.btnsCalls ++ [false]
          lw_infoOutput := w.lw_infoOutput ++ [] } := by
  obtain ⟨pp, pis, cnt, en, calls, info, lbl, pargv, tree, hid⟩ := w
  simp only at h0
  subst h0
  unfold MainWindow.afterLoop MainWindow.btns_setEnabled
  by_cases hz : r.busyPiCount = 0
  · cases hn : r.noPiSelected <;> simp [hz, hn]
  · have hn := hsel (by omega)
    have hp : r.busyPiCount > 0 := by omega
    simp [hz, hn, hp]

/-- Counter and selection flag after the loop, from counter 0. -/
theorem foldl_btn_body_init (op : Operation) (w : MainWindow) (h0 : w.busyPiCount = 0)
    (hK : (w.validSelected op).length < UINT_RANGE) :
    (w.pis.foldl (MainWindow.btn_body op w) (MainWindow.loopInit w)).busyPiCount =
      (w.validSelected op).length ∧
    (0 < (w.validSelected op).length →
      (w.pis.foldl (MainWindow.btn_body op w) (MainWindow.loopInit w)).noPiSelected = false) := by
  rw [foldl_btn_body]
  simp only [MainWindow.loopInit, h0]
  refine ⟨iterate_incBusy_zero _ hK, fun hpos => ?_⟩
  obtain ⟨pi, hpi⟩ := List.exists_mem_of_length_pos hpos
  simp only [MainWindow.validSelected, List.mem_filter, Bool.and_eq_true] at hpi
  have hany : w.pis.any (fun pi => pi.item.checked) = true :=
    List.any_eq_true.2 ⟨pi, hpi.1, hpi.2.1⟩
  simp [hany]

/-- Window after a button slot, from counter 0. -/
theorem btn_clicked_window (op : Operation) (w : MainWindow) (h0 : w.busyPiCount = 0)
    (hK : (w.validSelected op).length < UINT_RANGE) :
    (MainWindow.btn_clicked op w).1 =
      if (w.validSelected op).length = 0 then w
      else
        { w with
          busyPiCount := (w.validSelected op).length
          btnsEnabled := false
          btnsCalls := w.btnsCalls ++ [false]
          lw_infoOutput := w.lw_infoOutput ++ op.startedBanner } := by
  obtain ⟨hcnt, hsel⟩ := foldl_btn_body_init op w h0 hK
  rw [← hcnt] at hsel ⊢
  rw [btn_clicked_eq]
  cases op
  · exact afterLoopBanner_window w _ _ h0 hsel
  · exact afterLoopBanner_window w _ _ h0 hsel
  · exact afterLoop_window w _ h0 hsel
  · exact afterLoop_window w _ h0 hsel

/-- C10: starting from an outstanding count of 0, an operation dispatched to
the K valid selected devices (K below the range of the unsigned counter), with
the K results arriving in any order: before the K-th result the buttons stay
disabled, no `btns_setEnabled(true)` is called and no finished banner is
added; the K-th result alone calls `btns_setEnabled(true)` once, brings the
count to 0 and adds the '### Save finished ###' / '### Build finished ###'
banner for Save and Compile. When K = 0 the window is unchanged (count 0,
buttons as before, no notification), nothing is dispatched and the only
output is the warning box. -/
theorem C10_batch_settlement (op : Operation) (w : MainWindow) (rs : List ActionResult)
    (h0 : w.busyPiCount = 0)
    (hK : (w.validSelected op).length < UINT_RANGE)
    (hrs : List.Perm (rs.map ActionResult.pi) (w.validSelected op)) :
    (MainWindow.btn_clicked op w).2.emitted.map Prod.fst = w.validSelected op ∧
    (∀ j, j < rs.length →
      (MainWindow.applyResults op (MainWindow.btn_clicked op w).1 (rs.take j)).btnsCalls =
        w.btnsCalls ++ [false] ∧
      (MainWindow.applyResults op (MainWindow.btn_clicked op w).1 (rs.take j)).btnsEnabled =
        false ∧
      (MainWindow.applyResults op (MainWindow.btn_clicked op w).1 (rs.take j)).busyPiCount =
        rs.length - j ∧
      (MainWindow.applyResults op (MainWindow.btn_clicked op w).1 (rs.take j)).lw_infoOutput =
        w.lw_infoOutput ++ op.startedBanner ++ (rs.take j).map op.infoItem) ∧
    (0 < rs.length →
      (MainWindow.applyResults op (MainWindow.btn_clicked op w).1 rs).btnsCalls =
        w.btnsCalls ++ [false, true] ∧
      (MainWindow.applyResults op (MainWindow.btn_clicked op w).1 rs).btnsEnabled = true ∧
      (MainWindow.applyResults op (MainWindow.btn_clicked op w).1 rs).busyPiCount = 0 ∧
      (MainWindow.applyResults op (MainWindow.btn_clicked op w).1 rs).lw_infoOutput =
        w.lw_infoOutput ++ op.startedBanner ++ rs.map op.infoItem ++ op.finishedBanner) ∧
    (rs.length = 0 →
      (MainWindow.btn_clicked op w).1 = w ∧
      (MainWindow.btn_clicked op w).2.emitted = [] ∧
      (MainWindow.btn_clicked op w).2.messageBox.isSome = true) := by
  have hlen : rs.length = (w.validSelected op).length := by
    rw [← hrs.length_eq, List.length_map]
  have hwin := btn_clicked_window op w h0 hK
  obtain ⟨hemit, hbox⟩ := btn_clicked_output op w
  refine ⟨?_, ?_, ?_, ?_⟩
  · rw [hemit, List.map_map]
    exact List.map_id _
  · intro j hj
    have hne : ¬ (w.validSelected op).length = 0 := by omega
    have htake : (rs.take j).length = j := by
      rw [List.length_take]; omega
    rw [hwin, if_neg hne, applyResults_before]
    · simp only [htake, hlen]
      simp
    · simp only [List.length_take]
      omega
  · intro hpos
    have hne : ¬ (w.validSelected op).length = 0 := by omega
    rw [hwin, if_neg hne, applyResults_all op rs _ hpos hlen]
    simp
  · intro hz
    have hzero : (w.validSelected op).length = 0 := by omega
    have hnil : w.validSelected op = [] := List.length_eq_zero.1 hzero
    refine ⟨?_, ?_, ?_⟩
    · rw [hwin, if_pos hzero]
    · rw [hemit, hnil]
      rfl
    · rw [hbox]
      by_cases hany : w.pis.any (fun pi => pi.item.checked) = true
      · rw [if_pos hany]
        obtain ⟨pi, hmem, hsel⟩ := List.any_eq_true.1 hany
        have hinv : pi ∈ w.invalidSelected op := by
          by_cases hv : pi.status = op.validPrecondition
          · have : pi ∈ w.validSelected op := by
              simp [MainWindow.validSelected, hmem, hsel, hv]
            rw [hnil] at this
            simp at this
          · simp [MainWindow.invalidSelected, hmem, hsel, hv]
        rw [if_neg (List.ne_nil_of_mem hinv)]
        rfl
      · rw [if_neg hany]
        rfl

/-- C10 at a concrete input: Start on `sampleFleet` (two valid devices), the
two results arriving in reverse order. -/
theorem C10_batch_settlement_witness :
    sampleFleet.busyPiCount = 0 ∧
    (sampleFleet.validSelected Operation.start).length < UINT_RANGE ∧
    List.Perm (sampleResults.map ActionResult.pi) (sampleFleet.validSelected Operation.start) ∧
    (MainWindow.applyResults Operation.start
        (MainWindow.btn_clicked Operation.start sampleFleet).1 sampleResults).btnsCalls =
      sampleFleet.btnsCalls ++ [false, true] ∧
    (MainWindow.applyResults Operation.start
        (MainWindow.btn_clicked Operation.start sampleFleet).1 sampleResults).btnsEnabled =
      true ∧
    (MainWindow.applyResults Operation.start
        (MainWindow.btn_clicked Operation.start sampleFleet).1 sampleResults).busyPiCount = 0 :=
  ⟨rfl, by decide, List.Perm.swap _ _ _,
   ((C10_batch_settlement Operation.start sampleFleet sampleResults rfl (by decide)
      (List.Perm.swap _ _ _)).2.2.1 (by decide)).1,
   ((C10_batch_settlement Operation.start sampleFleet sampleResults rfl (by decide)
      (List.Perm.swap _ _ _)).2.2.1 (by decide)).2.1,
   ((C10_batch_settlement Operation.start sampleFleet sampleResults rfl (by decide)
      (List.Perm.swap _ _ _)).2.2.1 (by decide)).2.2.1⟩

/-! ## The orchestrator: buttons and counter (C11, C12) -/

/-- No more devices are valid and selected than the list holds. -/
theorem validSelected_length_le (op : Operation) (w : MainWindow) :
    (w.validSelected op).length ≤ w.pis.length := by
  unfold MainWindow.validSelected
  exact List.length_filter_le _ _

/-- A request keeps the invariant; it happens at count 0 and brings the
count to the number of valid selected devices. -/
theorem Orchestrator.step_request_inv (s s2 : Orchestrator) (op : Operation)
    (pis : List RaspberryPi) (hinv : s.Inv)
    (hstep : s.step (OrchEvent.request op pis) = some s2) :
    s2.Inv ∧ s.w.busyPiCount = 0 ∧
      s2.w.busyPiCount = (MainWindow.validSelected op { s.w with pis := pis }).length := by
  obtain ⟨hcount, hlt, hbtn⟩ := hinv
  simp only [Orchestrator.step] at hstep
  split_ifs at hstep with hg
  simp only [Option.some.injEq] at hstep
  obtain ⟨hen, hlen⟩ := hg
  have h0 : s.w.busyPiCount = 0 := by
    by_contra hne
    have := hbtn.2 hne
    rw [hen] at this
    exact Bool.noConfusion this
  have hpend : s.pending = [] := List.length_eq_zero.1 (by omega)
  have hK : (MainWindow.validSelected op { s.w with pis := pis }).length < UINT_RANGE :=
    lt_of_le_of_lt (validSelected_length_le op _) hlen
  have hwin := btn_clicked_window op { s.w with pis := pis } h0 hK
  have hemit := (btn_clicked_output op { s.w with pis := pis }).1
  have hw2 : s2.w = (MainWindow.btn_clicked op { s.w with pis := pis }).1 := by
    rw [← hstep]
  have hp2 : s2.pending.length =
      (MainWindow.validSelected op { s.w with pis := pis }).length := by
    rw [← hstep]
    simp only [hpend, List.nil_append, List.length_map, hemit]
  rw [hwin] at hw2
  by_cases hz : (MainWindow.validSelected op { s.w with pis := pis }).length = 0
  · rw [if_pos hz] at hw2
    have hc2 : s2.w.busyPiCount = 0 := by rw [hw2]; exact h0
    have he2 : s2.w.btnsEnabled = true := by rw [hw2]; exact hen
    refine ⟨⟨by omega, by omega, ?_⟩, h0, by omega⟩
    simp [hc2, he2]
  · rw [if_neg hz] at hw2
    have hc2 : s2.w.busyPiCount =
        (MainWindow.validSelected op { s.w with pis := pis }).length := by rw [hw2]
    have he2 : s2.w.btnsEnabled = false := by rw [hw2]
    refine ⟨⟨by omega, by omega, ?_⟩, h0, hc2⟩
    simp [hc2, he2, hz]

/-- A result keeps the invariant; it happens at a positive count and lowers
it by one. -/
theorem Orchestrator.step_result_inv (s s2 : Orchestrator) (i : Nat) (success : Bool)
    (output : String) (hinv : s.Inv)
    (hstep : s.step (OrchEvent.result i success output) = some s2) :
    s2.Inv ∧ 0 < s.w.busyPiCount ∧ s2.w.busyPiCount = s.w.busyPiCount - 1 := by
  obtain ⟨hcount, hlt, hbtn⟩ := hinv
  simp only [Orchestrator.step] at hstep
  split at hstep
  · exact Option.noConfusion hstep
  · next op pi hget =>
    simp only [Option.some.injEq] at hstep
    have hi : i < s.pending.length := by
      by_contra hge
      rw [List.get?_eq_none.2 (by omega)] at hget
      exact Option.noConfusion hget
    have hpos : 0 < s.w.busyPiCount := by omega
    have hdec : decBusy s.w.busyPiCount = s.w.busyPiCount - 1 := decBusy_pos _ hpos
    have hwin := SSH_finished_window op s.w ⟨pi, success, output⟩
    simp only at hwin
    have hw2 : s2.w = (MainWindow.SSH_finished op s.w pi success output).1 := by rw [← hstep]
    have hp2 : s2.pending.length = s.pending.length - 1 := by
      rw [← hstep]
      simp only [List.length_eraseIdx, hi, if_true]
    rw [hwin] at hw2
    have hdis : s.w.btnsEnabled = false := hbtn.2 (by omega)
    by_cases hz : decBusy s.w.busyPiCount = 0
    · rw [if_pos hz] at hw2
      have hc2 : s2.w.busyPiCount = 0 := by rw [hw2]
      have he2 : s2.w.btnsEnabled = true := by rw [hw2]
      refine ⟨⟨by omega, by omega, ?_⟩, hpos, by omega⟩
      simp [hc2, he2]
    · rw [if_neg hz] at hw2
      have hc2 : s2.w.busyPiCount = decBusy s.w.busyPiCount := by rw [hw2]
      have he2 : s2.w.btnsEnabled = false := by rw [hw2]; exact hdis
      refine ⟨⟨by omega, by omega, ?_⟩, hpos, by omega⟩
      simp only [he2, true_iff]
      omega

/-- Every step keeps the invariant. -/
theorem Orchestrator.step_inv (s s2 : Orchestrator) (e : OrchEvent) (hinv : s.Inv)
    (hstep : s.step e = some s2) : s2.Inv := by
  cases e with
  | request op pis => exact (Orchestrator.step_request_inv s s2 op pis hinv hstep).1
  | result i ok out => exact (Orchestrator.step_result_inv s s2 i ok out hinv hstep).1

/-- Every run keeps the invariant. -/
theorem Orchestrator.run_inv (events : List OrchEvent) (s s2 : Orchestrator) (hinv : s.Inv)
    (hrun : s.run events = some s2) : s2.Inv := by
  induction events generalizing s with
  | nil =>
    simp only [Orchestrator.run, Option.some.injEq] at hrun
    exact hrun ▸ hinv
  | cons e rest ih =>
    simp only [Orchestrator.run] at hrun
    cases hstep : s.step e with
    | none => simp [hstep] at hrun
    | some s1 =>
      simp only [hstep] at hrun
      exact ih s1 (Orchestrator.step_inv s s1 e hinv hstep) hrun

/-- The invariant holds initially. -/
theorem Orchestrator.init_inv (w : MainWindow) (h0 : w.busyPiCount = 0)
    (hen : w.btnsEnabled = true) : Orchestrator.Inv { w := w, pending := [] } := by
  refine ⟨by simpa using h0, by simp [UINT_RANGE], ?_⟩
  simp [h0, hen]

/-- C11: in every state the orchestrator reaches from count 0 and enabled
buttons by operation requests (possible only while the buttons are enabled)
and arrivals of results of dispatched operations, the buttons are disabled if
and only if `busyPiCount` is non-zero; the same holds after every further
step, and a step re-enables the buttons exactly when it brings the count from
non-zero to zero. -/
theorem C11_buttons_disabled_iff_busy (w : MainWindow) (events : List OrchEvent)
    (s : Orchestrator) (h0 : w.busyPiCount = 0) (hen : w.btnsEnabled = true)
    (hrun : Orchestrator.run { w := w, pending := [] } events = some s) :
    (s.w.btnsEnabled = false ↔ s.w.busyPiCount ≠ 0) ∧
    (∀ e s2, s.step e = some s2 →
      (s2.w.btnsEnabled = false ↔ s2.w.busyPiCount ≠ 0) ∧
      ((s.w.btnsEnabled = false ∧ s2.w.btnsEnabled = true) ↔
        (s.w.busyPiCount ≠ 0 ∧ s2.w.busyPiCount = 0))) := by
  have hinv := Orchestrator.run_inv events _ s (Orchestrator.init_inv w h0 hen) hrun
  refine ⟨hinv.2.2, fun e s2 hstep => ?_⟩
  have hinv2 := Orchestrator.step_inv s s2 e hinv hstep
  refine ⟨hinv2.2.2, ?_⟩
  have h1 := hinv.2.2
  have h2 := hinv2.2.2
  constructor
  · rintro ⟨ha, hb⟩
    refine ⟨h1.1 ha, ?_⟩
    by_contra hne
    have := h2.2 hne
    rw [hb] at this
    exact Bool.noConfusion this
  · rintro ⟨ha, hb⟩
    refine ⟨h1.2 ha, ?_⟩
    cases hbe : s2.w.btnsEnabled with
    | true => rfl
    | false => exact absurd hb (h2.1 hbe)

/-- C11 at a concrete input: Start on `sampleFleet` and one of its two
results. -/
theorem C11_buttons_disabled_iff_busy_witness :
    sampleWindow.busyPiCount = 0 ∧ sampleWindow.btnsEnabled = true ∧
    Orchestrator.run { w := sampleWindow, pending := [] } (sampleOrchEvents.take 2) =
      some sampleOrchState ∧
    (sampleOrchState.w.btnsEnabled = false ↔ sampleOrchState.w.busyPiCount ≠ 0) :=
  ⟨rfl, rfl, by decide,
   (C11_buttons_disabled_iff_busy sampleWindow (sampleOrchEvents.take 2) sampleOrchState rfl rfl
      (by decide)).1⟩

/-- C12: in every reachable state of the orchestrator `busyPiCount` equals the
number of dispatched operations whose result has not yet been applied; a
request adds one per dispatched device, a result is applied only at a positive
count and lowers it by exactly one, so the decrement never runs at 0 and the
unsigned counter never wraps. -/
theorem C12_counter_is_pending (w : MainWindow) (events : List OrchEvent)
    (s : Orchestrator) (h0 : w.busyPiCount = 0) (hen : w.btnsEnabled = true)
    (hrun : Orchestrator.run { w := w, pending := [] } events = some s) :
    s.w.busyPiCount = s.pending.length ∧
    (∀ op pis s2, s.step (OrchEvent.request op pis) = some s2 →
      s2.w.busyPiCount = s.w.busyPiCount +
        (MainWindow.btn_clicked op { s.w with pis := pis }).2.emitted.length ∧
      s2.w.busyPiCount = s2.pending.length) ∧
    (∀ i success output s2, s.step (OrchEvent.result i success output) = some s2 →
      0 < s.w.busyPiCount ∧ s2.w.busyPiCount = s.w.busyPiCount - 1 ∧
      s2.w.busyPiCount = s2.pending.length) := by
  have hinv := Orchestrator.run_inv events _ s (Orchestrator.init_inv w h0 hen) hrun
  refine ⟨hinv.1, fun op pis s2 hstep => ?_, fun i ok out s2 hstep => ?_⟩
  · obtain ⟨hinv2, hz, hc⟩ := Orchestrator.step_request_inv s s2 op pis hinv hstep
    refine ⟨?_, hinv2.1⟩
    rw [hc, hz, (btn_clicked_output op { s.w with pis := pis }).1, List.length_map]
    simp
  · obtain ⟨hinv2, hpos, hc⟩ := Orchestrator.step_result_inv s s2 i ok out hinv hstep
    exact ⟨hpos, hc, hinv2.1⟩

/-- C12 at a concrete input: Start on `sampleFleet` and one of its two
results. -/
theorem C12_counter_is_pending_witness :
    sampleWindow.busyPiCount = 0 ∧ sampleWindow.btnsEnabled = true ∧
    Orchestrator.run { w := sampleWindow, pending := [] } (sampleOrchEvents.take 2) =
      some sampleOrchState ∧
    sampleOrchState.w.busyPiCount = sampleOrchState.pending.length :=
  ⟨rfl, rfl, by decide,
   (C12_counter_is_pending sampleWindow (sampleOrchEvents.take 2) sampleOrchState rfl rfl
      (by decide)).1⟩


/-! ## Results of the action lane (C13) -/

/-- C13: for every outcome of the underlying process (not startable, exit
code 0, any other exit code) each of the four action slots emits exactly one
`*_finished` signal; its success flag is true if and only if the process
started and exited with code 0, its text is the captured stdout on success,
the captured stderr on a non-zero exit code and the fixed message when the
executable could not be started; the flag is the same whatever stdout
holds. -/
theorem C13_action_result (op : Operation) (w : MainWindow) (p : QProcess) :
    (SSHaction.slot (op.request w) p).filter LaneSignal.isActionFinished =
      [op.finishedSignal (p.started && decide (p.exitCode = 0))
        (if p.started = true then
          if p.exitCode = 0 then p.standardOutput else p.standardError
         else "SSH executable couldn't be started.")] ∧
    (∀ out2 : String,
      ((SSHaction.slot (op.request w) { p with standardOutput := out2 }).filter
          LaneSignal.isActionFinished).map LaneSignal.success? =
      ((SSHaction.slot (op.request w) p).filter LaneSignal.isActionFinished).map
        LaneSignal.success?) := by
  constructor
  · cases op <;> cases hs : p.started <;> by_cases he : p.exitCode = 0 <;>
      simp [SSHaction.slot, Operation.request, SSHaction.SSHsave, SSHaction.SSHcompile,
        SSHaction.SSHstart, SSHaction.SSHstop, SSH.execSSHexe, hs, he, Operation.finishedSignal,
        LaneSignal.isActionFinished]
  · intro out2
    cases op <;> cases hs : p.started <;> by_cases he : p.exitCode = 0 <;>
      simp [SSHaction.slot, Operation.request, SSHaction.SSHsave, SSHaction.SSHcompile,
        SSHaction.SSHstart, SSHaction.SSHstop, SSH.execSSHexe, hs, he,
        LaneSignal.isActionFinished, LaneSignal.success?]

/-! ## Argument templates (C14, C15) -/

theorem isWordChar_percent : isWordChar '%' = false := by decide

/-- A match at the start of a text is a percent sign, a non-empty run of word characters and a percent sign. -/
theorem matchPlaceholder_some (text tok : List Char) (h : matchPlaceholder text = some tok) :
    ∃ post, text = '%' :: tok ++ '%' :: post ∧ tok ≠ [] ∧ ∀ c ∈ tok, isWordChar c = true := by
  cases text with
  | nil => simp [matchPlaceholder] at h
  | cons c rest =>
    simp only [matchPlaceholder] at h
    split_ifs at h with hc
    obtain ⟨hc1, hc2, hc3⟩ := hc
    simp only [Option.some.injEq] at h
    subst hc1
    have hsplit := List.takeWhile_append_dropWhile isWordChar rest
    cases hd : rest.dropWhile isWordChar with
    | nil => simp [hd] at hc3
    | cons d post =>
      simp only [hd, List.head?_cons, Option.some.injEq] at hc3
      subst hc3
      refine ⟨post, ?_, h ▸ hc2, ?_⟩
      · rw [← h]
        rw [hd] at hsplit
        simp only [List.cons_append, List.cons.injEq, true_and]
        exact hsplit.symm
      · intro c hcmem
        rw [← h] at hcmem
        exact List.mem_takeWhile_imp hcmem

/-- The run of word characters before a percent sign ends at that sign. -/
theorem takeWhile_word_token (tok rest : List Char) (hw : ∀ c ∈ tok, isWordChar c = true) :
    (tok ++ '%' :: rest).takeWhile isWordChar = tok ∧
    (tok ++ '%' :: rest).dropWhile isWordChar = '%' :: rest := by
  induction tok with
  | nil => simp [List.takeWhile, List.dropWhile, isWordChar_percent]
  | cons c t ih =>
    have hc := hw c (List.mem_cons_self _ _)
    have ht := ih (fun d hd => hw d (List.mem_cons_of_mem _ hd))
    simp [List.takeWhile, List.dropWhile, hc, ht.1, ht.2]

/-- A token between two percent signs matches at its start. -/
theorem matchPlaceholder_token (tok rest : List Char) (hne : tok ≠ [])
    (hw : ∀ c ∈ tok, isWordChar c = true) :
    matchPlaceholder ('%' :: tok ++ '%' :: rest) = some tok := by
  have h := takeWhile_word_token tok rest hw
  simp only [matchPlaceholder, List.cons_append, h.1, h.2]
  simp [hne]

/-- Nothing matches at a character that is not a percent sign. -/
theorem matchPlaceholder_none (c : Char) (rest : List Char) (hc : c ≠ '%') :
    matchPlaceholder (c :: rest) = none := by
  simp [matchPlaceholder, hc]

/-- Skipped characters yield no match. -/
theorem globalMatchFrom_skip (xs rest : List Char) :
    globalMatchFrom xs.length (xs ++ rest) = globalMatchFrom 0 rest := by
  induction xs with
  | nil => rfl
  | cons x t ih => simpa [globalMatchFrom] using ih

/-- Text without a percent sign yields no match. -/
theorem globalMatchFrom_noPercent (xs rest : List Char) (h : '%' ∉ xs) :
    globalMatchFrom 0 (xs ++ rest) = globalMatchFrom 0 rest := by
  induction xs with
  | nil => rfl
  | cons x t ih =>
    have hx : x ≠ '%' := fun e => h (e ▸ List.mem_cons_self _ _)
    have ht : '%' ∉ t := fun e => h (List.mem_cons_of_mem _ e)
    simp only [List.cons_append, globalMatchFrom, matchPlaceholder_none x _ hx]
    exact ih ht

/-- A placeholder at the start of the text is the first match, and the search continues after it. -/
theorem globalMatchFrom_token (tok rest : List Char) (hne : tok ≠ [])
    (hw : ∀ c ∈ tok, isWordChar c = true) :
    globalMatchFrom 0 ('%' :: tok ++ '%' :: rest) =
      ('%' :: tok ++ ['%']) :: globalMatchFrom 0 rest := by
  have hm := matchPlaceholder_token tok rest hne hw
  have hskip := globalMatchFrom_skip (tok ++ ['%']) rest
  simp only [List.cons_append, List.append_assoc, List.nil_append, List.length_append,
    List.length_singleton] at hm hskip ⊢
  rw [globalMatchFrom, hm]
  simp only [hskip]
  rfl

/-- The matches of a template given by its segments are the placeholders of the segments, in order. -/
theorem globalMatch_templateText (lead : List Char) (segs : List (List Char × List Char))
    (hlead : '%' ∉ lead) (hclean : segmentsClean segs) :
    globalMatch (lead ++ templateText segs) = segs.map (fun seg => '%' :: seg.1 ++ ['%']) := by
  unfold globalMatch
  rw [globalMatchFrom_noPercent _ _ hlead]
  induction segs with
  | nil => rfl
  | cons seg rest ih =>
    obtain ⟨hne, hw, hsep⟩ := hclean seg (List.mem_cons_self _ _)
    have hrest : segmentsClean rest := fun s hs => hclean s (List.mem_cons_of_mem _ hs)
    simp only [templateText, List.map_cons]
    have := globalMatchFrom_token seg.1 (seg.2 ++ templateText rest) hne hw
    simp only [List.cons_append, List.append_assoc] at this ⊢
    rw [this, globalMatchFrom_noPercent _ _ hsep, ih hrest]
    rfl

/-- A text with a match contains a placeholder. -/
theorem globalMatchFrom_ne_nil (text : List Char) (k : Nat) (h : globalMatchFrom k text ≠ []) :
    containsPlaceholder text := by
  induction text generalizing k with
  | nil => simp [globalMatchFrom] at h
  | cons c rest ih =>
    have lift : containsPlaceholder rest → containsPlaceholder (c :: rest) := by
      rintro ⟨pre, tok, post, ht, hne, hw⟩
      exact ⟨c :: pre, tok, post, by simp [ht], hne, hw⟩
    cases k with
    | succ k =>
      simp only [globalMatchFrom] at h
      exact lift (ih k h)
    | zero =>
      cases hm : matchPlaceholder (c :: rest) with
      | none =>
        simp only [globalMatchFrom, hm] at h
        exact lift (ih 0 h)
      | some tok =>
        obtain ⟨post, ht, hne, hw⟩ := matchPlaceholder_some _ _ hm
        exact ⟨[], tok, post, by simpa using ht, hne, hw⟩

/-- C15: on a template that contains no placeholder (no percent sign, a
non-empty run of letters, digits and underscores, and a percent sign),
`calc_argv` leaves the template as the argument string, whatever the argument
map of the device is: resolving a resolved string without placeholders gives
the same string. -/
theorem C15_no_placeholder_unchanged (pi : RaspberryPi) (template : String)
    (h : ¬ containsPlaceholder template.data) :
    (pi.calc_argv template).argv = template := by
  have hnil : globalMatch template.data = [] := by
    by_contra hne
    exact h (globalMatchFrom_ne_nil _ 0 hne)
  simp [RaspberryPi.calc_argv, calcArgvText, hnil]

/-- A text without a percent sign contains no placeholder. -/
theorem not_containsPlaceholder_of_noPercent (text : List Char) (h : '%' ∉ text) :
    ¬ containsPlaceholder text := by
  rintro ⟨pre, tok, post, ht, _, _⟩
  apply h
  rw [ht]
  simp

/-- C15 at the resolved string of the example of the description. -/
theorem C15_no_placeholder_unchanged_witness :
    ¬ containsPlaceholder "--p1 5 --p2 ".data ∧
    ((samplePi "1" piStatus.online true).calc_argv "--p1 5 --p2 ").argv = "--p1 5 --p2 " :=
  ⟨not_containsPlaceholder_of_noPercent _ (by decide),
   C15_no_placeholder_unchanged (samplePi "1" piStatus.online true) "--p1 5 --p2 "
     (not_containsPlaceholder_of_noPercent _ (by decide))⟩

/-- Skipped characters of a replaced occurrence are dropped. -/
theorem replaceFrom_skip (b a xs rest : List Char) :
    replaceFrom b a xs.length (xs ++ rest) = replaceFrom b a 0 rest := by
  induction xs with
  | nil => rfl
  | cons x t ih => simpa [replaceFrom] using ih

/-- An occurrence at the start of the text is replaced, and the scan continues after it. -/
theorem replaceFrom_occurrence (b0 : Char) (bs a rest : List Char) :
    replaceFrom (b0 :: bs) a 0 (b0 :: (bs ++ rest)) = a ++ replaceFrom (b0 :: bs) a 0 rest := by
  have hp : (b0 :: bs).isPrefixOf (b0 :: (bs ++ rest)) = true :=
    List.isPrefixOf_iff_prefix.2 ⟨rest, by simp⟩
  have hskip := replaceFrom_skip (b0 :: bs) a bs rest
  rw [replaceFrom, if_pos hp]
  simp only [List.length_cons, Nat.add_sub_cancel, hskip]

/-- A character at which the searched text does not start is kept. -/
theorem replaceFrom_other (b a : List Char) (c : Char) (rest : List Char)
    (h : ¬ b <+: c :: rest) :
    replaceFrom b a 0 (c :: rest) = c :: replaceFrom b a 0 rest := by
  have hp : b.isPrefixOf (c :: rest) = false := by
    cases hb : b.isPrefixOf (c :: rest) with
    | false => rfl
    | true => exact absurd (List.isPrefixOf_iff_prefix.1 hb) h
  simp only [replaceFrom, hp, Bool.false_eq_true, if_false]

/-- Text without a percent sign is kept when a text starting with a percent sign is replaced. -/
theorem replaceFrom_noPercent (bs a xs rest : List Char) (h : '%' ∉ xs) :
    replaceFrom ('%' :: bs) a 0 (xs ++ rest) = xs ++ replaceFrom ('%' :: bs) a 0 rest := by
  induction xs with
  | nil => rfl
  | cons x t ih =>
    have hx : x ≠ '%' := fun e => h (e ▸ List.mem_cons_self _ _)
    have ht : '%' ∉ t := fun e => h (List.mem_cons_of_mem _ e)
    have hnp : ¬ ('%' :: bs) <+: x :: (t ++ rest) := by
      rintro ⟨z, hz⟩
      simp only [List.cons_append, List.cons.injEq] at hz
      exact hx hz.1.symm
    simp only [List.cons_append]
    rw [replaceFrom_other _ _ _ _ hnp, ih ht]

/-- A token of word characters holds no percent sign. -/
theorem noPercent_of_word (tok : List Char) (hw : ∀ c ∈ tok, isWordChar c = true) :
    '%' ∉ tok := by
  intro h
  have := hw _ h
  rw [isWordChar_percent] at this
  exact Bool.noConfusion this

/-- Two tokens that are followed by `%` at the front of the same text are
equal. -/
theorem prefixed_token_eq (tok tok2 a b : List Char)
    (hw : ∀ c ∈ tok, isWordChar c = true) (hw2 : ∀ c ∈ tok2, isWordChar c = true)
    (h : tok ++ '%' :: a = tok2 ++ '%' :: b) : tok = tok2 := by
  have h1 := (takeWhile_word_token tok a hw).1
  have h2 := (takeWhile_word_token tok2 b hw2).1
  rw [h] at h1
  exact h1.symm.trans h2

/-- The word-character run of a text with a non-word character before its first percent sign does not end at a percent sign. -/
theorem dropWhile_word_of_nonword (s rest : List Char)
    (h : ∃ c ∈ s, isWordChar c = false) :
    ∃ d tail, (s ++ rest).dropWhile isWordChar = d :: tail ∧ d ∈ s := by
  induction s with
  | nil => obtain ⟨c, hc, _⟩ := h; simp at hc
  | cons x t ih =>
    cases hx : isWordChar x with
    | false =>
      exact ⟨x, t ++ rest, by simp [List.dropWhile, hx], List.mem_cons_self _ _⟩
    | true =>
      obtain ⟨c, hc, hcw⟩ := h
      have hct : c ∈ t := by
        rcases List.mem_cons.1 hc with e | e
        · rw [e, hx] at hcw; exact Bool.noConfusion hcw
        · exact e
      obtain ⟨d, tail, hd, hdm⟩ := ih ⟨c, hct, hcw⟩
      exact ⟨d, tail, by simp [List.dropWhile, hx, hd], List.mem_cons_of_mem _ hdm⟩

/-- A token followed by `%` is not at the front of a text that holds a
character that is not a word character before its first `%`. -/
theorem token_not_prefix_of_separator (tok s rest : List Char)
    (hw : ∀ c ∈ tok, isWordChar c = true) (hs : '%' ∉ s)
    (hsep : ∃ c ∈ s, isWordChar c = false) :
    ¬ (tok ++ ['%']) <+: s ++ rest := by
  rintro ⟨z, hz⟩
  have h1 := (takeWhile_word_token tok z hw).2
  simp only [List.append_assoc, List.singleton_append] at hz
  rw [hz] at h1
  obtain ⟨d, tail, hd, hdm⟩ := dropWhile_word_of_nonword s rest hsep
  rw [hd] at h1
  simp only [List.cons.injEq] at h1
  exact hs (h1.1 ▸ hdm)

/-- A value found in the argument map is the value of one of its entries. -/
theorem lookup_mem (args : List (String × String)) (k v : String)
    (h : args.lookup k = some v) : ∃ k2, (k2, v) ∈ args := by
  induction args with
  | nil => simp at h
  | cons kv rest ih =>
    obtain ⟨k1, v1⟩ := kv
    simp only [List.lookup] at h
    split at h
    · simp only [Option.some.injEq] at h
      exact ⟨k1, by simp [h]⟩
    · obtain ⟨k2, hk2⟩ := ih h
      exact ⟨k2, List.mem_cons_of_mem _ hk2⟩

/-- The value taken for a token holds no percent sign when no value of the map does. -/
theorem value_noPercent (args : List (String × String)) (k : String)
    (hvals : ∀ kv ∈ args, '%' ∉ kv.2.data) : '%' ∉ (QMap.value args k "").data := by
  unfold QMap.value
  cases h : args.lookup k with
  | none => simp
  | some v =>
    obtain ⟨k2, hk2⟩ := lookup_mem args k v h
    simpa using hvals _ hk2

/-- One iteration of the loop of `calc_argv` on a separated template:
replacing every occurrence of a placeholder string resolves exactly the
placeholders with that token. -/
theorem replaceFrom_partialText (args : List (String × String)) (tok b v : List Char)
    (done : List (List Char)) (segs : List (List Char × List Char))
    (hb : b = tok ++ ['%']) (hv : v = (QMap.value args (String.mk tok) "").data)
    (hw : ∀ c ∈ tok, isWordChar c = true)
    (hclean : segmentsClean segs) (hsep : segmentsSeparated segs)
    (hvals : ∀ kv ∈ args, '%' ∉ kv.2.data) :
    replaceFrom ('%' :: b) v 0 (partialText args done segs) =
      partialText args (tok :: done) segs := by
  induction segs with
  | nil => rfl
  | cons seg rest ih =>
    obtain ⟨hne, hsw, hsp⟩ := hclean seg (List.mem_cons_self _ _)
    have hrest : segmentsClean rest := fun s hs => hclean s (List.mem_cons_of_mem _ hs)
    obtain ⟨hsepNow, hsepRest⟩ := hsep
    have hih := ih hrest hsepRest
    simp only [partialText]
    by_cases hd : seg.1 ∈ done
    · have hd2 : seg.1 ∈ tok :: done := List.mem_cons_of_mem _ hd
      rw [if_pos hd, if_pos hd2, List.append_assoc, List.append_assoc,
        replaceFrom_noPercent _ _ _ _ (value_noPercent args _ hvals),
        replaceFrom_noPercent _ _ _ _ hsp, hih]
    · by_cases ht : seg.1 = tok
      · have hd2 : seg.1 ∈ tok :: done := by rw [ht]; exact List.mem_cons_self _ _
        have e0 : ('%' :: seg.1 ++ ['%']) ++ seg.2 ++ partialText args done rest =
            '%' :: (b ++ (seg.2 ++ partialText args done rest)) := by
          rw [ht, hb]; simp
        rw [if_neg hd, if_pos hd2, e0, replaceFrom_occurrence,
          replaceFrom_noPercent _ _ _ _ hsp, hih, ht, hv, List.append_assoc]
      · have hd2 : seg.1 ∉ tok :: done := by
          intro h
          rcases List.mem_cons.1 h with e | e
          · exact ht e
          · exact hd e
        rw [if_neg hd, if_neg hd2]
        have hnp1 : ¬ ('%' :: b) <+:
            '%' :: (seg.1 ++ ('%' :: (seg.2 ++ partialText args done rest))) := by
          rintro ⟨z, hz⟩
          rw [hb] at hz
          simp only [List.cons_append, List.append_assoc, List.singleton_append,
            List.cons.injEq, true_and] at hz
          exact ht (prefixed_token_eq tok seg.1 _ _ hw hsw hz).symm
        have hnp2 : ¬ ('%' :: b) <+: '%' :: (seg.2 ++ partialText args done rest) := by
          rintro ⟨z, hz⟩
          simp only [List.cons_append, List.cons.injEq, true_and] at hz
          rcases hsepNow with hnil | hnw
          · subst hnil
            simp only [partialText, List.append_nil] at hz
            apply hsp
            rw [← hz, hb]
            simp
          · exact token_not_prefix_of_separator tok seg.2 _ hw hsp hnw ⟨z, hb ▸ hz⟩
        have e1 : ('%' :: seg.1 ++ ['%']) ++ seg.2 ++ partialText args done rest =
            '%' :: (seg.1 ++ ('%' :: (seg.2 ++ partialText args done rest))) := by simp
        have e2 : ('%' :: seg.1 ++ ['%']) ++ seg.2 ++ partialText args (tok :: done) rest =
            '%' :: (seg.1 ++ ('%' :: (seg.2 ++ partialText args (tok :: done) rest))) := by
          simp
        rw [e1, e2, replaceFrom_other _ _ _ _ hnp1,
          replaceFrom_noPercent _ _ _ _ (noPercent_of_word _ hsw),
          replaceFrom_other _ _ _ _ hnp2, replaceFrom_noPercent _ _ _ _ hsp, hih]

/-- With no token resolved the partially resolved text is the template. -/
theorem partialText_nil (args : List (String × String)) (segs : List (List Char × List Char)) :
    partialText args [] segs = templateText segs := by
  induction segs with
  | nil => rfl
  | cons seg rest ih => simp [partialText, templateText, ih]

/-- With all tokens resolved the partially resolved text is the resolved text. -/
theorem partialText_all (args : List (String × String)) (done : List (List Char))
    (segs : List (List Char × List Char)) (h : ∀ seg ∈ segs, seg.1 ∈ done) :
    partialText args done segs = resolvedText args segs := by
  induction segs with
  | nil => rfl
  | cons seg rest ih =>
    have h1 := h seg (List.mem_cons_self _ _)
    have h2 := ih (fun s hs => h s (List.mem_cons_of_mem _ hs))
    simp only [partialText, resolvedText, h1, if_true, h2]

/-- The token of a match is the match without its first and last character. -/
theorem token_of_match (tok : List Char) :
    (('%' :: tok ++ ['%']).drop 1).take (('%' :: tok ++ ['%']).length - 2) = tok := by
  simp

/-- The loop of `calc_argv` over the matches of a separated template. -/
theorem foldl_replace_partialText (args : List (String × String)) (lead : List Char)
    (segs : List (List Char × List Char)) (toks : List (List Char)) (done : List (List Char))
    (hlead : '%' ∉ lead) (htoks : ∀ t ∈ toks, ∀ c ∈ t, isWordChar c = true)
    (hclean : segmentsClean segs) (hsep : segmentsSeparated segs)
    (hvals : ∀ kv ∈ args, '%' ∉ kv.2.data) :
    (toks.map (fun t => '%' :: t ++ ['%'])).foldl
        (fun argv m =>
          QString.replace argv (String.mk m)
            (QMap.value args (String.mk ((m.drop 1).take (m.length - 2))) ""))
        (String.mk (lead ++ partialText args done segs)) =
      String.mk (lead ++ partialText args (toks.reverse ++ done) segs) := by
  induction toks generalizing done with
  | nil => rfl
  | cons t rest ih =>
    have hstep : QString.replace (String.mk (lead ++ partialText args done segs))
        (String.mk ('%' :: t ++ ['%']))
        (QMap.value args
          (String.mk ((('%' :: t ++ ['%']).drop 1).take (('%' :: t ++ ['%']).length - 2))) "") =
        String.mk (lead ++ partialText args (t :: done) segs) := by
      rw [token_of_match]
      unfold QString.replace
      rw [if_neg (by simp)]
      congr 1
      show replaceFrom ('%' :: (t ++ ['%'])) _ 0 _ = _
      rw [replaceFrom_noPercent _ _ _ _ hlead,
        replaceFrom_partialText args t (t ++ ['%']) _ done segs rfl rfl
          (htoks t (List.mem_cons_self _ _)) hclean hsep hvals]
    simp only [List.map_cons, List.foldl_cons]
    rw [hstep, ih (t :: done) (fun t2 h2 => htoks t2 (List.mem_cons_of_mem _ h2))]
    simp

/-- Skipped characters of a resolved placeholder are dropped by the single pass. -/
theorem singlePassFrom_skip (args : List (String × String)) (xs rest : List Char) :
    singlePassFrom args xs.length (xs ++ rest) = singlePassFrom args 0 rest := by
  induction xs with
  | nil => rfl
  | cons x t ih => simpa [singlePassFrom] using ih

/-- The single pass keeps text without a percent sign. -/
theorem singlePassFrom_noPercent (args : List (String × String)) (xs rest : List Char)
    (h : '%' ∉ xs) :
    singlePassFrom args 0 (xs ++ rest) = xs ++ singlePassFrom args 0 rest := by
  induction xs with
  | nil => rfl
  | cons x t ih =>
    have hx : x ≠ '%' := fun e => h (e ▸ List.mem_cons_self _ _)
    have ht : '%' ∉ t := fun e => h (List.mem_cons_of_mem _ e)
    show singlePassFrom args 0 (x :: (t ++ rest)) = x :: (t ++ singlePassFrom args 0 rest)
    rw [singlePassFrom, matchPlaceholder_none x _ hx, ih ht]

/-- The single pass resolves a placeholder at the start of the text and continues after it. -/
theorem singlePassFrom_token (args : List (String × String)) (tok rest : List Char)
    (hne : tok ≠ []) (hw : ∀ c ∈ tok, isWordChar c = true) :
    singlePassFrom args 0 ('%' :: (tok ++ '%' :: rest)) =
      (QMap.value args (String.mk tok) "").data ++ singlePassFrom args 0 rest := by
  have hm := matchPlaceholder_token tok rest hne hw
  have hskip := singlePassFrom_skip args (tok ++ ['%']) rest
  simp only [List.cons_append, List.append_assoc, List.nil_append, List.length_append,
    List.length_singleton] at hm hskip ⊢
  rw [singlePassFrom, hm]
  simp only [hskip]

/-- The single pass over a template given by its segments resolves every placeholder once. -/
theorem singlePass_templateText (args : List (String × String)) (lead : List Char)
    (segs : List (List Char × List Char)) (hlead : '%' ∉ lead) (hclean : segmentsClean segs) :
    singlePass args (String.mk (lead ++ templateText segs)) =
      String.mk (lead ++ resolvedText args segs) := by
  unfold singlePass
  congr 1
  show singlePassFrom args 0 (lead ++ templateText segs) = _
  rw [singlePassFrom_noPercent _ _ _ hlead]
  congr 1
  induction segs with
  | nil => rfl
  | cons seg rest ih =>
    obtain ⟨hne, hw, hsep⟩ := hclean seg (List.mem_cons_self _ _)
    have hrest : segmentsClean rest := fun s hs => hclean s (List.mem_cons_of_mem _ hs)
    have := singlePassFrom_token args seg.1 (seg.2 ++ templateText rest) hne hw
    simp only [templateText, resolvedText, List.cons_append, List.append_assoc] at this ⊢
    rw [this, singlePassFrom_noPercent _ _ _ hsep, ih hrest]

/-- The loop of calc_argv on a separated template with values free of percent signs resolves every placeholder once. -/
theorem calcArgvText_templateText (args : List (String × String)) (lead : List Char)
    (segs : List (List Char × List Char)) (hlead : '%' ∉ lead) (hclean : segmentsClean segs)
    (hsep : segmentsSeparated segs) (hvals : ∀ kv ∈ args, '%' ∉ kv.2.data) :
    calcArgvText args (String.mk (lead ++ templateText segs)) =
      String.mk (lead ++ resolvedText args segs) := by
  unfold calcArgvText
  have hm := globalMatch_templateText lead segs hlead hclean
  simp only at hm ⊢
  rw [hm]
  have hfold := foldl_replace_partialText args lead segs (segs.map Prod.fst) [] hlead
    (by
      intro t ht c hc
      obtain ⟨seg, hseg, rfl⟩ := List.mem_map.1 ht
      exact (hclean seg hseg).2.1 c hc)
    hclean hsep hvals
  rw [partialText_nil, List.map_map] at hfold
  rw [show (fun seg : List Char × List Char => '%' :: seg.1 ++ ['%']) =
    ((fun t => '%' :: t ++ ['%']) ∘ Prod.fst) from rfl, hfold]
  congr 2
  apply partialText_all
  intro seg hseg
  simp only [List.append_nil, List.mem_reverse, List.mem_map]
  exact ⟨seg, hseg, rfl⟩

/-- C14, amended: on a template in which every percent sign belongs to a
placeholder (a lead without percent sign, then placeholders, each followed
by text without percent sign), whose placeholders other than the last are
each followed, before the next placeholder, by a character that is not a
letter, digit or underscore, and with an argument map whose values hold no
percent sign, the matches of `calc_argv` are the placeholders from left to
right, each is replaced by the value of its token (the empty string for a
missing token), the rest is kept, and the argument string is the single-pass
resolution. -/
theorem C14_single_pass_when_separated (pi : RaspberryPi) (lead : List Char)
    (segs : List (List Char × List Char)) (hlead : '%' ∉ lead) (hclean : segmentsClean segs)
    (hsep : segmentsSeparated segs) (hvals : ∀ kv ∈ pi.args, '%' ∉ kv.2.data) :
    globalMatch (lead ++ templateText segs) = segs.map (fun seg => '%' :: seg.1 ++ ['%']) ∧
    (pi.calc_argv (String.mk (lead ++ templateText segs))).argv =
      String.mk (lead ++ resolvedText pi.args segs) ∧
    (pi.calc_argv (String.mk (lead ++ templateText segs))).argv =
      singlePass pi.args (String.mk (lead ++ templateText segs)) := by
  refine ⟨globalMatch_templateText lead segs hlead hclean, ?_, ?_⟩
  · exact calcArgvText_templateText pi.args lead segs hlead hclean hsep hvals
  · rw [singlePass_templateText pi.args lead segs hlead hclean]
    exact calcArgvText_templateText pi.args lead segs hlead hclean hsep hvals

/-- C14, counterexample: with the map a ↦ `%b%`, b ↦ X the template
`%a% %b%` has the two matches `%a%` and `%b%`; replacing the first inserts
`%b%`, which the replacement of the second match resolves as well: the
argument string is `X X`, the single-pass resolution is `%b% X`. -/
theorem C14_inserted_text_resolved_again :
    globalMatch "%a% %b%".data = ["%a%".data, "%b%".data] ∧
    (sampleNestedPi.calc_argv "%a% %b%").argv = "X X" ∧
    singlePass sampleNestedPi.args "%a% %b%" = "%b% X" := by
  decide

/-- C14, amended, at the example of the description: the template
`--p1 %x% --p2 %y%` with the map x ↦ 5. -/
theorem C14_single_pass_when_separated_witness :
    ('%' ∉ "--p1 ".data ∧ segmentsClean sampleSegments ∧ segmentsSeparated sampleSegments ∧
      ∀ kv ∈ sampleArgsPi.args, '%' ∉ kv.2.data) ∧
    (globalMatch ("--p1 ".data ++ templateText sampleSegments) =
        sampleSegments.map (fun seg => '%' :: seg.1 ++ ['%']) ∧
      (sampleArgsPi.calc_argv (String.mk ("--p1 ".data ++ templateText sampleSegments))).argv =
        String.mk ("--p1 ".data ++ resolvedText sampleArgsPi.args sampleSegments) ∧
      (sampleArgsPi.calc_argv (String.mk ("--p1 ".data ++ templateText sampleSegments))).argv =
        singlePass sampleArgsPi.args (String.mk ("--p1 ".data ++ templateText sampleSegments))) :=
  ⟨⟨by decide, by unfold segmentsClean; decide, by simp only [segmentsSeparated, sampleSegments]; decide,
      by decide⟩,
    C14_single_pass_when_separated sampleArgsPi "--p1 ".data sampleSegments (by decide)
      (by unfold segmentsClean; decide) (by simp only [segmentsSeparated, sampleSegments]; decide)
      (by decide)⟩

/-! ## Text files and the configuration file: lemmas -/

theorem splitChars_ne_nil (sep : Char) (l : List Char) : splitChars sep l ≠ [] := by
  cases l with
  | nil => simp [splitChars]
  | cons c rest =>
    simp only [splitChars]
    split_ifs
    · simp
    · split <;> simp

/-- A text without the separator is the only part of its split. -/
theorem splitChars_of_not_mem (sep : Char) (l : List Char) (h : sep ∉ l) :
    splitChars sep l = [l] := by
  induction l with
  | nil => rfl
  | cons c rest ih =>
    have hc : c ≠ sep := fun e => h (e ▸ List.mem_cons_self _ _)
    have hr := ih (fun e => h (List.mem_cons_of_mem _ e))
    simp [splitChars, hc, hr]

/-- The first part of a split ends at the first separator. -/
theorem splitChars_append (sep : Char) (a b : List Char) (h : sep ∉ a) :
    splitChars sep (a ++ sep :: b) = a :: splitChars sep b := by
  induction a with
  | nil => simp [splitChars]
  | cons c rest ih =>
    have hc : c ≠ sep := fun e => h (e ▸ List.mem_cons_self _ _)
    have hr := ih (fun e => h (List.mem_cons_of_mem _ e))
    simp [splitChars, hc, hr]

/-- Splitting is inverse to joining: the parts hold no separator and joined
they give the text back. -/
theorem joinWith_splitChars (sep : Char) (l : List Char) :
    joinWith sep (splitChars sep l) = l ∧ ∀ part ∈ splitChars sep l, sep ∉ part := by
  induction l with
  | nil => simp [splitChars, joinWith]
  | cons c rest ih =>
    obtain ⟨hj, hp⟩ := ih
    cases hs : splitChars sep rest with
    | nil => exact absurd hs (splitChars_ne_nil sep rest)
    | cons p ps =>
      rw [hs] at hj hp
      by_cases hc : c = sep
      · subst hc
        simp only [splitChars, if_true, hs]
        constructor
        · simp only [joinWith, List.nil_append, hj]
        · intro part hpart
          rcases List.mem_cons.1 hpart with e | e
          · subst e; simp
          · exact hp part e
      · simp only [splitChars, hc, if_false, hs]
        constructor
        · cases ps with
          | nil => simpa [joinWith] using hj
          | cons q qs => simpa [joinWith] using hj
        · intro part hpart
          rcases List.mem_cons.1 hpart with e | e
          · subst e
            intro hmem
            rcases List.mem_cons.1 hmem with e2 | e2
            · exact hc e2.symm
            · exact hp p (List.mem_cons_self _ _) e2
          · exact hp part (List.mem_cons_of_mem _ e)

/-- A text split into exactly two parts is the first part, the separator and the second part. -/
theorem splitChars_pair (sep : Char) (l a b : List Char) (h : splitChars sep l = [a, b]) :
    l = a ++ sep :: b ∧ sep ∉ a ∧ sep ∉ b := by
  obtain ⟨hj, hp⟩ := joinWith_splitChars sep l
  rw [h] at hj hp
  exact ⟨by simpa [joinWith] using hj.symm, hp a (by simp), hp b (by simp)⟩

/-- Parts without the separator, joined with it, split into the same parts. -/
theorem splitChars_joinWith (sep : Char) (parts : List (List Char)) (hne : parts ≠ [])
    (hp : ∀ part ∈ parts, sep ∉ part) : splitChars sep (joinWith sep parts) = parts := by
  induction parts with
  | nil => exact absurd rfl hne
  | cons p ps ih =>
    cases ps with
    | nil => simpa [joinWith] using splitChars_of_not_mem sep p (hp p (by simp))
    | cons q qs =>
      have := ih (by simp) (fun part h => hp part (List.mem_cons_of_mem _ h))
      simp only [joinWith] at this ⊢
      rw [splitChars_append sep p _ (hp p (by simp)), this]

/-- A string split into exactly two parts is the two parts around one separator. -/
theorem QString_split_pair (s a b : String) (sep : Char)
    (h : QString.split s sep = [a, b]) :
    s = a ++ String.mk [sep] ++ b ∧ sep ∉ a.data ∧ sep ∉ b.data := by
  unfold QString.split at h
  cases hs : splitChars sep s.data with
  | nil => exact absurd hs (splitChars_ne_nil _ _)
  | cons x xs =>
    rw [hs] at h
    cases xs with
    | nil => simp at h
    | cons y ys =>
      cases ys with
      | cons z zs => simp at h
      | nil =>
        simp only [List.map_cons, List.map_nil, List.cons.injEq, and_true] at h
        obtain ⟨hx, hy⟩ := h
        obtain ⟨hl, ha, hb⟩ := splitChars_pair sep s.data x y hs
        subst hx
        subst hy
        refine ⟨?_, ha, hb⟩
        apply String.ext
        simp [hl]

/-- Two strings without the separator joined by it split into the two strings. -/
theorem QString_split_of_parts (a b : String) (sep : Char) (ha : sep ∉ a.data)
    (hb : sep ∉ b.data) : QString.split (a ++ String.mk [sep] ++ b) sep = [a, b] := by
  unfold QString.split
  have : (a ++ String.mk [sep] ++ b).data = a.data ++ sep :: b.data := by simp
  rw [this, splitChars_append sep _ _ ha, splitChars_of_not_mem sep _ hb]
  rfl

/-- Lookup in a list of entries tests the first entry by equality of the keys. -/
theorem lookup_cons_eq (k v k2 : String) (rest : List (String × String)) :
    ((k, v) :: rest).lookup k2 = if k2 = k then some v else rest.lookup k2 := by
  by_cases h : k2 = k
  · subst h; simp [List.lookup]
  · have hb : (k2 == k) = false := by simpa using h
    simp [List.lookup, hb, h]

/-- After an insertion the inserted key has the inserted value and the other keys keep theirs. -/
theorem lookup_insert (m : List (String × String)) (k v k2 : String) :
    (QMap.insert m k v).lookup k2 = if k2 = k then some v else m.lookup k2 := by
  induction m with
  | nil => simp [QMap.insert, lookup_cons_eq]
  | cons kv rest ih =>
    obtain ⟨k1, v1⟩ := kv
    by_cases h1 : k.data < k1.data
    · simp only [QMap.insert, if_pos h1, lookup_cons_eq]
    · by_cases h2 : k = k1
      · subst h2
        simp only [QMap.insert, if_neg h1, if_true, lookup_cons_eq]
        by_cases e : k2 = k <;> simp [e]
      · simp only [QMap.insert, if_neg h1, if_neg h2, lookup_cons_eq, ih]
        by_cases e1 : k2 = k1
        · have e2 : k2 ≠ k := fun e => h2 (e.symm.trans e1)
          have e3 : ¬ k1 = k := fun e => h2 e.symm
          simp [e1, e3]
        · simp [e1]

/-- After an insertion the value of the inserted key is the inserted value and the other values are kept. -/
theorem value_insert (m : List (String × String)) (k v k2 d : String) :
    QMap.value (QMap.insert m k v) k2 d = if k2 = k then v else QMap.value m k2 d := by
  unfold QMap.value
  rw [lookup_insert]
  split_ifs <;> rfl

/-- A pair written as token, colon and value splits at the colon into
token and value. -/
theorem splitArg (k v : String) (hk : ':' ∉ k.data) (hv : ':' ∉ v.data) :
    QString.split (String.mk (k.data ++ ':' :: v.data)) ':' = [k, v] := by
  unfold QString.split
  simp only
  rw [splitChars_append ':' _ _ hk, splitChars_of_not_mem ':' _ hv]
  rfl

/-- The loop over the arguments of an `args=` value written as `token:value`
pairs joined with commas inserts the pairs in order. -/
theorem readConfig_args_argsText (pairs : List (String × String)) (m : List (String × String))
    (h : ∀ kv ∈ pairs, freeOf [',', ':'] kv.1 ∧ freeOf [',', ':'] kv.2) :
    readConfig.args (argsText pairs) m = pairs.foldl (fun acc kv => QMap.insert acc kv.1 kv.2) m := by
  unfold readConfig.args argsText QString.split
  cases pairs with
  | nil => rfl
  | cons p ps =>
    simp only
    rw [splitChars_joinWith ',' _ (by simp)]
    · rw [List.map_map, List.foldl_map]
      have hstep : ∀ (l : List (String × String)) (acc : List (String × String)),
          (∀ kv ∈ l, freeOf [',', ':'] kv.1 ∧ freeOf [',', ':'] kv.2) →
          l.foldl (fun a kv =>
            match QString.split ((String.mk ∘ fun kv : String × String =>
                kv.1.data ++ ':' :: kv.2.data) kv) ':' with
            | [key, v] => QMap.insert a key v
            | _ => a) acc = l.foldl (fun a kv => QMap.insert a kv.1 kv.2) acc := by
        intro l
        induction l with
        | nil => intro _ _; rfl
        | cons q qs ih =>
          intro acc hq
          have hq1 := hq q (List.mem_cons_self _ _)
          simp only [List.foldl_cons, Function.comp]
          rw [splitArg q.1 q.2 (hq1.1 ':' (by simp)) (hq1.2 ':' (by simp))]
          exact ih _ (fun kv hkv => hq kv (List.mem_cons_of_mem _ hkv))
      exact hstep (p :: ps) m h
    · intro part hpart
      obtain ⟨kv, hkv, rfl⟩ := List.mem_map.1 hpart
      have := h kv hkv
      intro hmem
      rcases List.mem_append.1 hmem with e | e
      · exact this.1 ',' (by simp) e
      · rcases List.mem_cons.1 e with e2 | e2
        · exact absurd e2 (by decide)
        · exact this.2 ',' (by simp) e2

/-- A character other than comma and colon that is in no token and no value
is not in the text of the `args=` value. -/
theorem argsText_free (c : Char) (hc1 : c ≠ ',') (hc2 : c ≠ ':')
    (pairs : List (String × String))
    (h : ∀ kv ∈ pairs, c ∉ kv.1.data ∧ c ∉ kv.2.data) : c ∉ (argsText pairs).data := by
  unfold argsText
  simp only
  induction pairs with
  | nil => simp [joinWith]
  | cons p ps ih =>
    have hp := h p (List.mem_cons_self _ _)
    have hps := ih (fun kv hkv => h kv (List.mem_cons_of_mem _ hkv))
    cases ps with
    | nil =>
      simp only [List.map_cons, List.map_nil, joinWith]
      intro hmem
      rcases List.mem_append.1 hmem with e | e
      · exact hp.1 e
      · rcases List.mem_cons.1 e with e2 | e2
        · exact hc2 e2
        · exact hp.2 e2
    | cons q qs =>
      simp only [List.map_cons, joinWith] at hps ⊢
      intro hmem
      rcases List.mem_append.1 hmem with e | e
      · rcases List.mem_append.1 e with e1 | e1
        · exact hp.1 e1
        · rcases List.mem_cons.1 e1 with e2 | e2
          · exact hc2 e2
          · exact hp.2 e2
      · rcases List.mem_cons.1 e with e2 | e2
        · exact hc1 e2
        · exact hps e2

/-- The text of an `args=` value holds no equal sign when no token and no
value does. -/
theorem argsText_noEqual (pairs : List (String × String))
    (h : ∀ kv ∈ pairs, '=' ∉ kv.1.data ∧ '=' ∉ kv.2.data) : '=' ∉ (argsText pairs).data :=
  argsText_free '=' (by decide) (by decide) pairs h

/-- A property line `prop=value` with no equal sign in the value splits into
the property and the value. -/
theorem split_property (prop value : String) (hp : '=' ∉ prop.data) (hv : '=' ∉ value.data) :
    QString.split (prop ++ "=" ++ value) '=' = [prop, value] :=
  QString_split_of_parts prop value '=' hp hv

/-- An `address=` line sets the address. -/
theorem property_address (pi : piConfig) (value : String) (hv : '=' ∉ value.data) :
    readConfig.property pi ("address=" ++ value) = { pi with addr := value } := by
  have hs : QString.split ("address=" ++ value) '=' = ["address", value] :=
    split_property "address" value (by decide) hv
  unfold readConfig.property
  rw [hs]
  simp

/-- A `project=` line sets the project. -/
theorem property_project (pi : piConfig) (value : String) (hv : '=' ∉ value.data) :
    readConfig.property pi ("project=" ++ value) = { pi with project := value } := by
  have hs : QString.split ("project=" ++ value) '=' = ["project", value] :=
    split_property "project" value (by decide) hv
  unfold readConfig.property
  rw [hs]
  simp

/-- An `args=` line runs the loop over the arguments. -/
theorem property_args (pi : piConfig) (value : String) (hv : '=' ∉ value.data) :
    readConfig.property pi ("args=" ++ value) =
      { pi with args := readConfig.args value pi.args } := by
  have hs : QString.split ("args=" ++ value) '=' = ["args", value] :=
    split_property "args" value (by decide) hv
  unfold readConfig.property
  rw [hs]
  simp

/-- A line that starts with a letter is not empty and not a comment. -/
theorem line_not_comment (c : Char) (rest : List Char) (hc : c ≠ '#') :
    (String.mk (c :: rest)).data ≠ [] ∧ QString.startsWith (String.mk (c :: rest)) '#' = false := by
  constructor
  · simp
  · simp [QString.startsWith, hc]

/-- One iteration of the inner loop of `readConfig` on a property line. -/
theorem section_step (fuel : Nat) (pi : piConfig) (line : String) (rest : List String)
    (hne : line.data ≠ []) (hc : QString.startsWith line '#' = false) :
    readConfig.section (fuel + 1) pi line rest =
      readConfig.section fuel (readConfig.property pi line) (QTextStream.readLine rest).1
        (QTextStream.readLine rest).2 := by
  rw [readConfig.section, if_neg hne, hc]
  simp

/-- The inner loop of `readConfig` ends at an empty line. -/
theorem section_end (fuel : Nat) (pi : piConfig) (rest : List String) :
    readConfig.section (fuel + 1) pi "" rest = some (pi, rest) := by
  rw [readConfig.section]
  simp

/-- The inner loop of `readConfig` on the three property lines of a section
that ends at an empty line or at the end of the file. -/
theorem section_plain (fuel : Nat) (pi : piConfig) (addr project : String)
    (pairs : List (String × String)) (post : List String)
    (ha : '=' ∉ addr.data) (hp : '=' ∉ project.data)
    (hpairs : ∀ kv ∈ pairs, freeOf ['=', ',', ':'] kv.1 ∧ freeOf ['=', ',', ':'] kv.2)
    (hpost : post.head? = none ∨ post.head? = some "") :
    readConfig.section (fuel + 4) pi ("address=" ++ addr)
        (("project=" ++ project) :: ("args=" ++ argsText pairs) :: post) =
      some
        ({ pi with
            addr := addr
            project := project
            args := pairs.foldl (fun acc kv => QMap.insert acc kv.1 kv.2) pi.args },
          post.tail) := by
  have h1 := line_not_comment 'a' ("ddress=".data ++ addr.data) (by decide)
  have h2 := line_not_comment 'p' ("roject=".data ++ project.data) (by decide)
  have h3 := line_not_comment 'a' ("rgs=".data ++ (argsText pairs).data) (by decide)
  have e1 : String.mk ('a' :: ("ddress=".data ++ addr.data)) = "address=" ++ addr := rfl
  have e2 : String.mk ('p' :: ("roject=".data ++ project.data)) = "project=" ++ project := rfl
  have e3 : String.mk ('a' :: ("rgs=".data ++ (argsText pairs).data)) =
      "args=" ++ argsText pairs := rfl
  rw [e1] at h1
  rw [e2] at h2
  rw [e3] at h3
  have hargs : '=' ∉ (argsText pairs).data :=
    argsText_noEqual pairs (fun kv hkv =>
      ⟨(hpairs kv hkv).1 '=' (by simp), (hpairs kv hkv).2 '=' (by simp)⟩)
  have hclean : ∀ kv ∈ pairs, freeOf [',', ':'] kv.1 ∧ freeOf [',', ':'] kv.2 :=
    fun kv hkv => ⟨fun c hc => (hpairs kv hkv).1 c (by simp at hc ⊢; tauto),
      fun c hc => (hpairs kv hkv).2 c (by simp at hc ⊢; tauto)⟩
  rw [section_step (fuel + 3) pi _ _ h1.1 h1.2]
  simp only [QTextStream.readLine]
  rw [section_step (fuel + 2) _ _ _ h2.1 h2.2]
  simp only [QTextStream.readLine]
  rw [section_step (fuel + 1) _ _ _ h3.1 h3.2]
  rw [property_address _ _ ha, property_project _ _ hp, property_args _ _ hargs,
    readConfig_args_argsText pairs _ hclean]
  cases post with
  | nil => simp only [QTextStream.readLine, section_end, List.tail_nil]
  | cons l ls =>
    have hl : l = "" := by simpa using hpost
    subst hl
    simp only [QTextStream.readLine, section_end, List.tail_cons]

/-- A section header `[name]` is no comment, starts and ends with the
brackets, and the text between them is the name. -/
theorem header_line (name : String) :
    QString.startsWith ("[" ++ name ++ "]") '#' = false ∧
    (QString.startsWith ("[" ++ name ++ "]") '[' && QString.endsWith ("[" ++ name ++ "]") ']')
      = true ∧
    QString.mid ("[" ++ name ++ "]") 1 (("[" ++ name ++ "]").length - 2) = name := by
  have hd : ("[" ++ name ++ "]").data = '[' :: (name.data ++ [']']) := by simp
  refine ⟨?_, ?_, ?_⟩
  · simp [QString.startsWith, hd]
  · have hlast : ('[' :: (name.data ++ [']'])).getLast? = some ']' := by
      rw [← List.cons_append]
      exact List.getLast?_concat _
    simp [QString.startsWith, QString.endsWith, hd, hlast]
  · have hl : ("[" ++ name ++ "]").length = name.data.length + 2 := by
      show ("[" ++ name ++ "]").data.length = name.data.length + 2
      rw [hd]
      simp
    apply String.ext
    rw [QString.mid, hl, hd]
    simp

/-- The outer loop of `readConfig` on a device section with un-indented
property lines that ends at an empty line or at the end of the file: the
configuration of the section is appended and the loop continues behind the
empty line. -/
theorem loop_section (fuel : Nat) (projectsPath : String) (acc : List piConfig)
    (name addr project : String) (pairs : List (String × String)) (post : List String)
    (ha : '=' ∉ addr.data) (hp : '=' ∉ project.data)
    (hpairs : ∀ kv ∈ pairs, freeOf ['=', ',', ':'] kv.1 ∧ freeOf ['=', ',', ':'] kv.2)
    (hpost : post.head? = none ∨ post.head? = some "") :
    readConfig.loop (fuel + 5) projectsPath acc (sectionLines name addr project pairs ++ post) =
      readConfig.loop (fuel + 4) projectsPath
        (acc ++ [{ name := name, addr := addr, project := project, args := argsMap pairs,
                   projectValid := false }])
        post.tail := by
  obtain ⟨h1, h2, h3⟩ := header_line name
  simp only [sectionLines, List.cons_append, List.nil_append]
  rw [readConfig.loop]
  simp only [h1, h2, h3, Bool.false_eq_true, if_false, if_true, QTextStream.readLine]
  rw [section_plain fuel _ addr project pairs post ha hp hpairs hpost]
  rfl

/-- The outer loop of `readConfig` on lines that start no section: every
line takes one iteration, and only the project path can change. -/
theorem loop_top_level (pre : List String) (hpre : ∀ l ∈ pre, QString.startsWith l '[' = false)
    (projectsPath : String) :
    ∃ path, ∀ fuel acc rest,
      readConfig.loop (fuel + pre.length) projectsPath acc (pre ++ rest) =
        readConfig.loop fuel path acc rest := by
  induction pre generalizing projectsPath with
  | nil => exact ⟨projectsPath, fun _ _ _ => rfl⟩
  | cons l ls ih =>
    have hl := hpre l (List.mem_cons_self _ _)
    have hls : ∀ x ∈ ls, QString.startsWith x '[' = false :=
      fun x hx => hpre x (List.mem_cons_of_mem _ hx)
    have key : ∃ p1, ∀ fuel acc (rest : List String),
        readConfig.loop (fuel + 1) projectsPath acc (l :: rest) =
          readConfig.loop fuel p1 acc rest := by
      by_cases hc : QString.startsWith l '#' = true
      · exact ⟨projectsPath, fun fuel acc rest => by rw [readConfig.loop, if_pos hc]⟩
      · cases hs : QString.split l '=' with
        | nil =>
          exact ⟨projectsPath, fun fuel acc rest => by
            rw [readConfig.loop, if_neg hc]; simp [hl, hs]⟩
        | cons a as =>
          cases as with
          | nil =>
            exact ⟨projectsPath, fun fuel acc rest => by
              rw [readConfig.loop, if_neg hc]; simp [hl, hs]⟩
          | cons b bs =>
            cases bs with
            | cons c cs =>
              exact ⟨projectsPath, fun fuel acc rest => by
                rw [readConfig.loop, if_neg hc]; simp [hl, hs]⟩
            | nil =>
              by_cases hprop : a = "projectsPath"
              · exact ⟨b, fun fuel acc rest => by
                  rw [readConfig.loop, if_neg hc]; simp [hl, hs, hprop]⟩
              · exact ⟨projectsPath, fun fuel acc rest => by
                  rw [readConfig.loop, if_neg hc]; simp [hl, hs, hprop]⟩
    obtain ⟨p1, hp1⟩ := key
    obtain ⟨p2, hp2⟩ := ih hls p1
    refine ⟨p2, fun fuel acc rest => ?_⟩
    have : fuel + (l :: ls).length = (fuel + ls.length) + 1 := by simp; omega
    rw [this, List.cons_append, hp1, hp2]

/-- No string is below itself in the order of the keys. -/
theorem string_lt_irrefl (a : String) : ¬ a.data < a.data := lt_irrefl a.data

/-- The order of the keys is asymmetric. -/
theorem string_lt_asymm (a b : String) (h : a.data < b.data) : ¬ b.data < a.data :=
  lt_asymm h

/-- In a map with strictly ascending keys every entry is found under its
key. -/
theorem value_of_mem (m : List (String × String)) (h : QMap.wellFormed m)
    (kv : String × String) (hkv : kv ∈ m) : QMap.value m kv.1 "" = kv.2 := by
  induction m with
  | nil => simp at hkv
  | cons e rest ih =>
    obtain ⟨k1, v1⟩ := e
    unfold QMap.wellFormed at h
    rw [List.map_cons, List.pairwise_cons] at h
    unfold QMap.value
    rw [lookup_cons_eq]
    rcases List.mem_cons.1 hkv with e1 | e1
    · subst e1
      simp
    · have hlt : k1.data < kv.1.data := h.1 kv.1 (List.mem_map_of_mem _ e1)
      have hne : kv.1 ≠ k1 := by
        intro e2
        rw [e2] at hlt
        exact string_lt_irrefl k1 hlt
      rw [if_neg hne]
      exact ih h.2 e1

/-- Inserting a key above all keys of the map appends the entry. -/
theorem insert_above (m : List (String × String)) (k v : String)
    (h : ∀ kv ∈ m, kv.1.data < k.data) : QMap.insert m k v = m ++ [(k, v)] := by
  induction m with
  | nil => rfl
  | cons e rest ih =>
    obtain ⟨k1, v1⟩ := e
    have h1 : k1.data < k.data := h (k1, v1) (List.mem_cons_self _ _)
    have h2 : ¬ k.data < k1.data := string_lt_asymm k1 k h1
    have h4 : ¬ k = k1 := by
      intro e2
      rw [e2] at h1
      exact string_lt_irrefl k1 h1
    rw [QMap.insert, if_neg h2, if_neg h4,
      ih (fun kv hkv => h kv (List.mem_cons_of_mem _ hkv))]
    rfl

/-- Inserting entries with strictly ascending keys, all above the keys of
the map, appends them. -/
theorem foldl_insert_ascending (pairs m : List (String × String))
    (h : QMap.wellFormed (m ++ pairs)) :
    pairs.foldl (fun acc kv => QMap.insert acc kv.1 kv.2) m = m ++ pairs := by
  induction pairs generalizing m with
  | nil => simp
  | cons p ps ih =>
    have hp : ∀ kv ∈ m, kv.1.data < p.1.data := by
      intro kv hkv
      unfold QMap.wellFormed at h
      rw [List.map_append, List.pairwise_append] at h
      exact h.2.2 kv.1 (List.mem_map_of_mem _ hkv) p.1 (by simp)
    rw [List.foldl_cons, insert_above m p.1 p.2 hp, ih]
    · simp
    · simpa using h

/-- The argument map of a list of pairs with strictly ascending tokens is the
list itself. -/
theorem argsMap_wellFormed (pairs : List (String × String)) (h : QMap.wellFormed pairs) :
    argsMap pairs = pairs := by
  unfold argsMap
  rw [foldl_insert_ascending pairs [] (by simpa using h)]
  rfl

/-- The characters of the text that the loop of `writeConfig` over the
remaining arguments appends. -/
theorem writeConfig_args_foldl (val : String → String) (keys : List String) (init : String) :
    (keys.foldl (fun out k => out ++ "," ++ k ++ ":" ++ val k) init).data =
      init.data ++ (keys.map (fun k => ',' :: (k.data ++ ':' :: (val k).data))).flatten := by
  induction keys generalizing init with
  | nil => simp
  | cons k ks ih =>
    rw [List.foldl_cons, ih]
    simp [String.data_append, List.append_assoc]

/-- Parts joined with a separator: the first part, and each further part
after a separator. -/
theorem joinWith_cons (sep : Char) (part : List Char) (parts : List (List Char)) :
    joinWith sep (part :: parts) = part ++ (parts.map (fun q => sep :: q)).flatten := by
  induction parts generalizing part with
  | nil => simp [joinWith]
  | cons q qs ih =>
    rw [joinWith, ih]
    · simp
    · simp

/-- For a map with strictly ascending keys `writeConfig` writes its entries
as `token:value` pairs joined with commas. -/
theorem writeConfig_args_eq (args : List (String × String)) (h : QMap.wellFormed args) :
    writeConfig.args args = argsText args := by
  cases args with
  | nil => rfl
  | cons e rest =>
    apply String.ext
    unfold writeConfig.args argsText
    simp only [List.map_cons]
    rw [writeConfig_args_foldl, joinWith_cons]
    have h0 := value_of_mem (e :: rest) h e (List.mem_cons_self _ _)
    rw [h0]
    simp only [String.data_append, List.map_map]
    congr 1
    · simp
    · congr 1
      apply List.map_congr_left
      intro kv hkv
      simp only [Function.comp]
      rw [value_of_mem (e :: rest) h kv (List.mem_cons_of_mem _ hkv)]

/-- The first line of a text ends at its first line feed. -/
theorem textLines_line (l rest : List Char) (h : '\n' ∉ l) :
    textLines (l ++ '\n' :: rest) = l :: textLines rest := by
  induction l with
  | nil => simp [textLines]
  | cons c cs ih =>
    have hc : c ≠ '\n' := fun e => h (e ▸ List.mem_cons_self _ _)
    have hcs := ih (fun e => h (List.mem_cons_of_mem _ e))
    show textLines (c :: (cs ++ '\n' :: rest)) = (c :: cs) :: textLines rest
    rw [textLines, if_neg hc, hcs]

/-- Lines without line feed, each written with a line feed after it, are the
lines of the text. -/
theorem textLines_unlines (ls : List String) (h : ∀ l ∈ ls, '\n' ∉ l.data) :
    textLines (unlines ls) = ls.map String.data := by
  induction ls with
  | nil => rfl
  | cons l rest ih =>
    have hl := h l (List.mem_cons_self _ _)
    have hrest := ih (fun x hx => h x (List.mem_cons_of_mem _ hx))
    unfold unlines at hrest ⊢
    simp only [List.map_cons, List.flatten_cons, List.append_assoc, List.singleton_append]
    rw [textLines_line _ _ hl, hrest]

/-- A text without carriage return is read in text mode as it is. -/
theorem unlines_no_cr (ls : List String) (h : ∀ l ∈ ls, '\r' ∉ l.data) :
    (unlines ls).filter (fun c => c != '\r') = unlines ls := by
  rw [List.filter_eq_self]
  intro c hc
  unfold unlines at hc
  rw [List.mem_flatten] at hc
  obtain ⟨part, hpart, hcp⟩ := hc
  obtain ⟨l, hl, rfl⟩ := List.mem_map.1 hpart
  rcases List.mem_append.1 hcp with e | e
  · have : c ≠ '\r' := fun e2 => h l hl (e2 ▸ e)
    simpa using this
  · have : c = '\n' := by simpa using e
    subst this
    decide

/-- The lines read from a text written line by line are the lines
written. -/
theorem lines_unlines (text : String) (ls : List String) (ht : text.data = unlines ls)
    (h : ∀ l ∈ ls, freeOf ['\n', '\r'] l) : QTextStream.lines text = ls := by
  unfold QTextStream.lines
  rw [ht, unlines_no_cr ls (fun l hl => h l hl '\r' (by simp)),
    textLines_unlines ls (fun l hl => h l hl '\n' (by simp)), List.map_map]
  have : (String.mk ∘ String.data) = id := by
    funext s
    rfl
  rw [this, List.map_id]

/-- Lines written after other lines. -/
theorem unlines_append (xs ys : List String) : unlines (xs ++ ys) = unlines xs ++ unlines ys := by
  simp [unlines]

/-- The text `writeConfig` writes for a device with a well-formed argument
map: an empty line and the four lines of the section. -/
theorem writeConfig_device_data (pi : RaspberryPi) (h : QMap.wellFormed pi.args) :
    (writeConfig.device pi).data =
      unlines ("" :: sectionLines pi.name pi.addr pi.project pi.args) := by
  unfold writeConfig.device
  rw [writeConfig_args_eq pi.args h]
  simp [unlines, sectionLines, String.data_append]

/-- The text `writeConfig` writes, device after device. -/
theorem writeConfig_foldl_data (pis : List RaspberryPi) (init : String)
    (h : ∀ pi ∈ pis, QMap.wellFormed pi.args) :
    (pis.foldl (fun out pi => out ++ writeConfig.device pi) init).data =
      init.data ++ unlines (sectionsLines pis) := by
  induction pis generalizing init with
  | nil => simp [sectionsLines, unlines]
  | cons p ps ih =>
    rw [List.foldl_cons, ih _ (fun pi hpi => h pi (List.mem_cons_of_mem _ hpi)),
      String.data_append, writeConfig_device_data p (h p (List.mem_cons_self _ _))]
    have : sectionsLines (p :: ps) =
        ("" :: sectionLines p.name p.addr p.project p.args) ++ sectionsLines ps := by
      simp [sectionsLines]
    rw [this, unlines_append, List.append_assoc]

/-- The text `writeConfig` writes is the line of the project path and the
lines of the sections. -/
theorem writeConfig_data (w : MainWindow) (h : ∀ pi ∈ w.pis, QMap.wellFormed pi.args) :
    (MainWindow.writeConfig w).data =
      unlines (("projectsPath=" ++ w.projectsPath) :: sectionsLines w.pis) := by
  unfold MainWindow.writeConfig
  rw [writeConfig_foldl_data w.pis _ h]
  simp [unlines, String.data_append]

/-- The outer loop of `readConfig` on the line of the project path. -/
theorem loop_path_line (fuel : Nat) (projectsPath : String) (acc : List piConfig)
    (path : String) (rest : List String) (h : '=' ∉ path.data) :
    readConfig.loop (fuel + 1) projectsPath acc (("projectsPath=" ++ path) :: rest) =
      readConfig.loop fuel path acc rest := by
  have hs : QString.split ("projectsPath=" ++ path) '=' = ["projectsPath", path] :=
    split_property "projectsPath" path (by decide) h
  have h1 : QString.startsWith ("projectsPath=" ++ path) '#' = false := by
    simp [QString.startsWith]
  have h2 : QString.startsWith ("projectsPath=" ++ path) '[' = false := by
    simp [QString.startsWith]
  rw [readConfig.loop]
  simp [h1, h2, hs]

/-- The outer loop of `readConfig` on an empty line. -/
theorem loop_blank (fuel : Nat) (projectsPath : String) (acc : List piConfig)
    (rest : List String) :
    readConfig.loop (fuel + 1) projectsPath acc ("" :: rest) =
      readConfig.loop fuel projectsPath acc rest := by
  have h1 : QString.startsWith "" '#' = false := by decide
  have h2 : QString.startsWith "" '[' = false := by decide
  have hs : QString.split "" '=' = [""] := by decide
  rw [readConfig.loop]
  simp [h1, h2, hs]

/-- The lines of the sections start with an empty line. -/
theorem sectionsLines_cons (pi : RaspberryPi) (pis : List RaspberryPi) :
    sectionsLines (pi :: pis) =
      "" :: (sectionLines pi.name pi.addr pi.project pi.args ++ sectionsLines pis) := by
  simp [sectionsLines]

/-- The lines of the sections are empty or start with an empty line. -/
theorem sectionsLines_head (pis : List RaspberryPi) :
    (sectionsLines pis).head? = none ∨ (sectionsLines pis).head? = some "" := by
  cases pis with
  | nil => exact Or.inl rfl
  | cons p ps => exact Or.inr (by rw [sectionsLines_cons]; rfl)

/-- The outer loop of `readConfig` on the sections written for writable
devices yields their configurations in order. -/
theorem loop_sections (pis : List RaspberryPi) (h : ∀ pi ∈ pis, pi.writable) (fuel : Nat)
    (projectsPath : String) (acc : List piConfig) :
    readConfig.loop (fuel + 4 + pis.length) projectsPath acc (sectionsLines pis).tail =
      some (projectsPath, acc ++ pis.map RaspberryPi.toConfig) := by
  induction pis generalizing acc with
  | nil =>
    show readConfig.loop (fuel + 3 + 1) projectsPath acc [] = _
    rw [readConfig.loop]
    simp
  | cons p ps ih =>
    have hp := h p (List.mem_cons_self _ _)
    obtain ⟨_, ha, hpr, hargs, hwf⟩ := hp
    have hfuel : fuel + 4 + (p :: ps).length = (fuel + ps.length) + 5 := by
      simp only [List.length_cons]; omega
    have hfuel2 : (fuel + ps.length) + 4 = fuel + 4 + ps.length := by omega
    rw [sectionsLines_cons, List.tail_cons, hfuel,
      loop_section (fuel + ps.length) projectsPath acc p.name p.addr p.project p.args
        (sectionsLines ps) (ha '=' (by simp)) (hpr '=' (by simp))
        (fun kv hkv => ⟨fun c hc => (hargs kv hkv).1 c (by simp at hc ⊢; tauto),
          fun c hc => (hargs kv hkv).2 c (by simp at hc ⊢; tauto)⟩)
        (sectionsLines_head ps),
      hfuel2, ih (fun pi hpi => h pi (List.mem_cons_of_mem _ hpi)), argsMap_wellFormed _ hwf]
    simp [RaspberryPi.toConfig]

/-- A string put after a text free of line breaks is free of line breaks when
it is itself. -/
theorem freeOf_append (chars : List Char) (a b : String) (ha : freeOf chars a)
    (hb : freeOf chars b) : freeOf chars (a ++ b) := by
  intro c hc hmem
  rw [String.data_append] at hmem
  rcases List.mem_append.1 hmem with e | e
  · exact ha c hc e
  · exact hb c hc e

/-- Fewer characters are excluded. -/
theorem freeOf_mono (small large : List Char) (s : String) (hsub : ∀ c ∈ small, c ∈ large)
    (h : freeOf large s) : freeOf small s :=
  fun c hc => h c (hsub c hc)

/-- The lines of the section of a writable device hold no line break. -/
theorem sectionLines_free (pi : RaspberryPi) (h : pi.writable) :
    ∀ l ∈ sectionLines pi.name pi.addr pi.project pi.args, freeOf ['\n', '\r'] l := by
  obtain ⟨hn, ha, hp, hargs, _⟩ := h
  have hsub : ∀ c ∈ ['\n', '\r'], c ∈ ['=', '\n', '\r'] := by decide
  have hargsText : freeOf ['\n', '\r'] (argsText pi.args) := by
    intro c hc
    have hc2 : c = '\n' ∨ c = '\r' := by simpa using hc
    apply argsText_free c (by rcases hc2 with e | e <;> subst e <;> decide)
      (by rcases hc2 with e | e <;> subst e <;> decide)
    intro kv hkv
    have hmem : c ∈ ['=', ',', ':', '\n', '\r'] := by
      rcases hc2 with e | e <;> subst e <;> decide
    exact ⟨(hargs kv hkv).1 c hmem, (hargs kv hkv).2 c hmem⟩
  intro l hl
  simp only [sectionLines, List.mem_cons, List.mem_nil_iff, or_false] at hl
  rcases hl with e | e | e | e
  · subst e
    exact freeOf_append _ _ _ (freeOf_append _ _ _ (by decide) hn) (by decide)
  · subst e
    exact freeOf_append _ _ _ (by decide) (freeOf_mono _ _ _ hsub ha)
  · subst e
    exact freeOf_append _ _ _ (by decide) (freeOf_mono _ _ _ hsub hp)
  · subst e
    exact freeOf_append _ _ _ (by decide) hargsText

/-- The lines written for a writable window hold no line break. -/
theorem configLines_free (w : MainWindow) (h : w.writable) :
    ∀ l ∈ ("projectsPath=" ++ w.projectsPath) :: sectionsLines w.pis,
      freeOf ['\n', '\r'] l := by
  obtain ⟨_, hpath, hpis⟩ := h
  have hsub : ∀ c ∈ ['\n', '\r'], c ∈ ['=', '\n', '\r'] := by decide
  intro l hl
  rcases List.mem_cons.1 hl with e | e
  · subst e
    exact freeOf_append _ _ _ (by decide) (freeOf_mono _ _ _ hsub hpath)
  · unfold sectionsLines at e
    rw [List.mem_flatten] at e
    obtain ⟨part, hpart, hlp⟩ := e
    obtain ⟨pi, hpi, rfl⟩ := List.mem_map.1 hpart
    rcases List.mem_cons.1 hlp with e2 | e2
    · subst e2
      decide
    · exact sectionLines_free pi (hpis pi hpi) l e2

/-- Round trip of the configuration file: what `writeConfig` writes for a
writable window is read by `readConfig`, with enough fuel for the lines, to
the project path and the configurations of the devices in order. -/
theorem readConfig_writeConfig (reader w : MainWindow) (h : w.writable) (fuel : Nat) :
    MainWindow.readConfig (fuel + 6 + w.pis.length) reader
        (some (MainWindow.writeConfig w)) =
      some (ReadOutcome.returned { reader with projectsPath := w.projectsPath }
        (w.pis.map RaspberryPi.toConfig)) := by
  have hwf : ∀ pi ∈ w.pis, QMap.wellFormed pi.args := fun pi hpi => (h.2.2 pi hpi).2.2.2.2
  have hlines := lines_unlines (MainWindow.writeConfig w) _ (writeConfig_data w hwf)
    (configLines_free w h)
  have hfuel : fuel + 6 + w.pis.length = (fuel + 5 + w.pis.length) + 1 := by omega
  have hloop : readConfig.loop (fuel + 6 + w.pis.length) reader.projectsPath []
      (("projectsPath=" ++ w.projectsPath) :: sectionsLines w.pis) =
      some (w.projectsPath, w.pis.map RaspberryPi.toConfig) := by
    rw [hfuel, loop_path_line _ _ _ _ _ (h.2.1 '=' (by simp))]
    cases hp : w.pis with
    | nil =>
      show readConfig.loop (fuel + 4 + 1) w.projectsPath [] [] = _
      rw [readConfig.loop]
      rfl
    | cons p ps =>
      have h2 : fuel + 5 + (p :: ps).length = (fuel + 4 + (p :: ps).length) + 1 := by omega
      have hs : sectionsLines (p :: ps) = "" :: (sectionsLines (p :: ps)).tail := by
        rw [sectionsLines_cons]; rfl
      rw [h2, hs, loop_blank, loop_sections (p :: ps) (fun pi hpi => h.2.2 pi (hp ▸ hpi))]
      simp
  unfold MainWindow.readConfig
  simp only [hlines, hloop]
  rw [if_neg h.1]

/-! ## The configuration file (C17, C18, C19) and the project file (C20) -/

/-- The configuration of a device is the configuration read for its
section. -/
theorem toConfig_config (pis : List RaspberryPi) :
    (pis.map RaspberryPi.toConfig).map piConfig.config = pis.map RaspberryPi.config := by
  rw [List.map_map]
  rfl

/-- C17, counterexample: a device is moved by a drop to the project whose
directory is named `Release=1`.  The drop sets the project of the device and
writes the configuration with the line `project=Release=1`; `readConfig`
splits that line at the equal signs into three parts and skips it, so the
configuration read back has an empty project. -/
theorem C17_project_with_equal_sign_lost :
    sampleEqualDropWindow.tw_pis_itemDropped.1.pis.map RaspberryPi.config =
      [("pi1", "10.0.0.1", "Release=1", [("x", "5")])] ∧
    sampleEqualDropWindow.tw_pis_itemDropped.2 =
      "projectsPath=pi_workspace\n\n[pi1]\naddress=10.0.0.1\nproject=Release=1\nargs=x:5\n" ∧
    MainWindow.readConfig 8 sampleWindow (some sampleEqualDropWindow.tw_pis_itemDropped.2) =
      some (ReadOutcome.returned sampleWindow
        [{ name := "pi1", addr := "10.0.0.1", project := "", args := [("x", "5")],
           projectValid := false }]) := by
  decide

/-- C17, amended: for a window with a non-empty project path without equal
sign and line break, and devices whose names hold no line break, whose
addresses and projects hold no equal sign and no line break, and whose
argument maps hold no equal sign, comma, colon or line break in tokens and
values, `readConfig` applied to the text written by `writeConfig` returns
(with fuel for the lines) the same project path and a configuration list
with the same names, addresses, projects and argument maps in the same
order. -/
theorem C17_round_trip_writable (reader w : MainWindow) (h : w.writable) (fuel : Nat)
    (hfuel : w.pis.length + 6 ≤ fuel) :
    ∃ configs,
      MainWindow.readConfig fuel reader (some (MainWindow.writeConfig w)) =
        some (ReadOutcome.returned { reader with projectsPath := w.projectsPath } configs) ∧
      configs.map piConfig.config = w.pis.map RaspberryPi.config := by
  refine ⟨w.pis.map RaspberryPi.toConfig, ?_, toConfig_config w.pis⟩
  have hf : fuel = (fuel - 6 - w.pis.length) + 6 + w.pis.length := by omega
  rw [hf]
  exact readConfig_writeConfig reader w h _

/-- C17, amended, at a window with two devices, one with two arguments and
one without project and arguments. -/
theorem C17_round_trip_writable_witness :
    (sampleArgsWindow.writable ∧ sampleArgsWindow.pis.length + 6 ≤ 8) ∧
    ∃ configs,
      MainWindow.readConfig 8 sampleWindow (some (MainWindow.writeConfig sampleArgsWindow)) =
        some (ReadOutcome.returned
          { sampleWindow with projectsPath := sampleArgsWindow.projectsPath } configs) ∧
      configs.map piConfig.config = sampleArgsWindow.pis.map RaspberryPi.config :=
  ⟨⟨by decide, by decide⟩,
    C17_round_trip_writable sampleWindow sampleArgsWindow (by decide) 8 (by decide)⟩

/-- Inside a device section a comment line is tested again and again: no fuel gives a result. -/
theorem section_comment_no_return (fuel : Nat) (pi : piConfig) (line : String)
    (rest : List String) (hne : line.data ≠ []) (hc : QString.startsWith line '#' = true) :
    readConfig.section fuel pi line rest = none := by
  induction fuel with
  | zero => rfl
  | succ n ih =>
    rw [readConfig.section, if_neg hne, if_pos hc, ih]

/-- The outer loop of readConfig gives no result once a section meets a comment line. -/
theorem loop_comment_in_section (fuel : Nat) (projectsPath : String) (pis : List piConfig)
    (header line : String) (rest : List String)
    (hh : QString.startsWith header '#' = false)
    (hs : (QString.startsWith header '[' && QString.endsWith header ']') = true)
    (hne : line.data ≠ []) (hc : QString.startsWith line '#' = true) :
    readConfig.loop fuel projectsPath pis (header :: line :: rest) = none := by
  cases fuel with
  | zero => rfl
  | succ n =>
    rw [readConfig.loop]
    simp only [hh, Bool.false_eq_true, if_false, hs, if_true, QTextStream.readLine,
      section_comment_no_return n _ line rest hne hc]

/-- C18: on a file with a comment line inside a device section `readConfig`
does not terminate: the `continue` of the inner loop goes back to the loop
test without reading the next line, so the same comment line is tested again
and again and no amount of fuel gives a result; the same file without the
comment line is read to the configuration of the device. -/
theorem C18_comment_in_section_never_returns (fuel : Nat) (w : MainWindow) :
    MainWindow.readConfig fuel w (some sampleCommentInSection) = none ∧
    MainWindow.readConfig 7 sampleWindow (some sampleCommentRemoved) =
      some (ReadOutcome.returned sampleWindow
        [{ name := "pi1", addr := "10.0.0.1", project := "Project1", args := [],
           projectValid := false }]) := by
  refine ⟨?_, by decide⟩
  have hlines : QTextStream.lines sampleCommentInSection =
      ["projectsPath=pi_workspace", "", "[pi1]", "# the first device", "address=10.0.0.1",
        "project=Project1", "args="] := by decide
  have hsec : ∀ n pp, readConfig.loop n pp []
      ["[pi1]", "# the first device", "address=10.0.0.1", "project=Project1", "args="] = none :=
    fun n pp => loop_comment_in_section n pp [] _ _ _ (by decide) (by decide) (by decide)
      (by decide)
  have hloop : readConfig.loop fuel w.projectsPath [] (QTextStream.lines sampleCommentInSection)
      = none := by
    rw [hlines]
    cases fuel with
    | zero => rfl
    | succ n =>
      rw [readConfig.loop]
      have h1 : QString.startsWith "projectsPath=pi_workspace" '#' = false := by decide
      have h2 : (QString.startsWith "projectsPath=pi_workspace" '[' &&
          QString.endsWith "projectsPath=pi_workspace" ']') = false := by decide
      have h3 : QString.split "projectsPath=pi_workspace" '=' =
          ["projectsPath", "pi_workspace"] := by decide
      simp only [h1, h2, h3, Bool.false_eq_true, if_false, if_true]
      cases n with
      | zero => rfl
      | succ m =>
        rw [readConfig.loop]
        have h4 : QString.startsWith "" '#' = false := by decide
        have h5 : (QString.startsWith "" '[' && QString.endsWith "" ']') = false := by decide
        have h6 : QString.split "" '=' = [""] := by decide
        simp only [h4, h5, h6, Bool.false_eq_true, if_false]
        exact hsec m _
  simp only [MainWindow.readConfig, hloop]

/-- The outer loop of `readConfig` on a line that starts no section. -/
theorem loop_top_line (fuel : Nat) (projectsPath : String) (acc : List piConfig)
    (line : String) (rest : List String) (h : QString.startsWith line '[' = false) :
    readConfig.loop (fuel + 1) projectsPath acc (line :: rest) =
      readConfig.loop fuel (topLevelLine projectsPath line) acc rest := by
  unfold topLevelLine
  by_cases hc : QString.startsWith line '#' = true
  · rw [readConfig.loop, if_pos hc, if_pos hc]
  · rw [readConfig.loop, if_neg hc, if_neg hc]
    simp only [h, Bool.false_and, Bool.false_eq_true, if_false]
    cases hs : QString.split line '=' with
    | nil => rfl
    | cons a as =>
      cases as with
      | nil => rfl
      | cons b bs =>
        cases bs with
        | nil => simp only; split_ifs <;> rfl
        | cons c cs => rfl

/-- The outer loop of `readConfig` on lines that start no section. -/
theorem loop_top_lines (pre : List String) (hpre : ∀ l ∈ pre, QString.startsWith l '[' = false)
    (fuel : Nat) (projectsPath : String) (acc : List piConfig) (rest : List String) :
    readConfig.loop (fuel + pre.length) projectsPath acc (pre ++ rest) =
      readConfig.loop fuel (topLevelPath projectsPath pre) acc rest := by
  induction pre generalizing projectsPath with
  | nil => rfl
  | cons l ls ih =>
    have hl := hpre l (List.mem_cons_self _ _)
    have hfuel : fuel + (l :: ls).length = (fuel + ls.length) + 1 := by
      simp only [List.length_cons]; omega
    rw [hfuel, List.cons_append, loop_top_line _ _ _ _ _ hl,
      ih (fun x hx => hpre x (List.mem_cons_of_mem _ hx))]
    rfl

/-- The outer loop of `readConfig` on device sections with un-indented
property lines, one empty line between two sections: the configurations of
the sections in order. -/
theorem loop_plainSections (secs : List PlainSection) (hclean : ∀ s ∈ secs, s.clean)
    (fuel : Nat) (projectsPath : String) (acc : List piConfig) :
    readConfig.loop (fuel + 4 + secs.length) projectsPath acc (plainSections secs) =
      some (projectsPath, acc ++ secs.map PlainSection.config) := by
  induction secs generalizing acc with
  | nil =>
    show readConfig.loop (fuel + 3 + 1) projectsPath acc [] = _
    rw [readConfig.loop]
    simp
  | cons s rest ih =>
    obtain ⟨ha, hp, hpairs⟩ := hclean s (List.mem_cons_self _ _)
    have hrest : ∀ x ∈ rest, x.clean := fun x hx => hclean x (List.mem_cons_of_mem _ hx)
    have hfuel : fuel + 4 + (s :: rest).length = (fuel + rest.length) + 5 := by
      simp only [List.length_cons]; omega
    have hfuel2 : (fuel + rest.length) + 4 = fuel + 4 + rest.length := by omega
    cases rest with
    | nil =>
      have h1 := loop_section (fuel + 0) projectsPath acc s.name s.addr s.project s.pairs []
        ha hp hpairs (Or.inl rfl)
      simp only [List.append_nil, List.tail_nil, Nat.add_zero] at h1
      show readConfig.loop (fuel + 5) projectsPath acc
        (sectionLines s.name s.addr s.project s.pairs) = _
      rw [h1, readConfig.loop]
      simp [PlainSection.config]
    | cons t ts =>
      have h1 := loop_section (fuel + (t :: ts).length) projectsPath acc s.name s.addr
        s.project s.pairs ("" :: plainSections (t :: ts)) ha hp hpairs (Or.inr rfl)
      rw [List.tail_cons] at h1
      show readConfig.loop (fuel + 4 + (s :: t :: ts).length) projectsPath acc
        (sectionLines s.name s.addr s.project s.pairs ++ "" :: plainSections (t :: ts)) = _
      rw [hfuel, h1, hfuel2, ih hrest]
      simp [PlainSection.config]

/-- A header that follows the header of a section at once is read as a
property line of that section: the file yields the first section with the
values of the second and no configuration for the second. -/
theorem header_inside_section :
    MainWindow.readConfig 9 sampleWindow (some sampleHeaderInSection) =
      some (ReadOutcome.returned sampleWindow
        [{ name := "a", addr := "10.0.0.2", project := "Project1", args := [],
           projectValid := false }]) := by
  decide

/-- A line of `config.txt` leaves the templates of the other projects as they
are. -/
theorem read_argv_line_other (projectName other : String) (m : List (String × String))
    (line : String) (h : other ≠ projectName) :
    QMap.value (read_argv.line projectName m line) other "" = QMap.value m other "" := by
  unfold read_argv.line
  split_ifs
  · rfl
  · split
    · split_ifs
      · rw [value_insert, if_neg h]
      · rfl
    · rfl

/-- A line of `config.txt` that does not start with `argv=` registers
nothing. -/
theorem read_argv_line_not_argv (projectName : String) (m : List (String × String))
    (line : String) (h : ¬ "argv=".data.isPrefixOf line.data = true) :
    read_argv.line projectName m line = m := by
  unfold read_argv.line
  split_ifs
  · rfl
  · split
    · next prop value hs =>
      split_ifs with hp
      · exfalso
        apply h
        obtain ⟨hl, _, _⟩ := QString_split_pair line prop value '=' hs
        rw [hl, hp]
        simp
      · rfl
    · rfl

/-- A line `argv=T` with no equal sign in T registers T. -/
theorem read_argv_line_argv (projectName : String) (m : List (String × String))
    (T : String) (h : '=' ∉ T.data) :
    read_argv.line projectName m ("argv=" ++ T) = QMap.insert m projectName T := by
  have hs : QString.split ("argv=" ++ T) '=' = ["argv", T] :=
    QString_split_of_parts "argv" T '=' (by decide) h
  have hc : QString.startsWith ("argv=" ++ T) '#' = false := by
    simp [QString.startsWith]
  unfold read_argv.line
  rw [hc, hs]
  simp

/-- Lines of `config.txt` that do not start with `argv=` register nothing. -/
theorem read_argv_lines_not_argv (projectName : String) (lines : List String)
    (m : List (String × String))
    (h : ∀ l ∈ lines, ¬ "argv=".data.isPrefixOf l.data = true) :
    lines.foldl (read_argv.line projectName) m = m := by
  induction lines generalizing m with
  | nil => rfl
  | cons l rest ih =>
    rw [List.foldl_cons, read_argv_line_not_argv projectName m l (h l (List.mem_cons_self _ _))]
    exact ih m (fun x hx => h x (List.mem_cons_of_mem _ hx))

/-- The lines of `config.txt` leave the templates of the other projects as
they are. -/
theorem read_argv_lines_other (projectName other : String) (lines : List String)
    (m : List (String × String)) (h : other ≠ projectName) :
    QMap.value (lines.foldl (read_argv.line projectName) m) other "" = QMap.value m other "" := by
  induction lines generalizing m with
  | nil => rfl
  | cons l rest ih =>
    rw [List.foldl_cons, ih, read_argv_line_other projectName other m l h]

/-- C20, counterexample: the only line of the file is `argv=--mode=%m%`; it
splits at the equal signs into three parts, so nothing is registered for the
project, whose template stays empty. -/
theorem C20_template_with_equal_sign_dropped :
    QString.split "argv=--mode=%m%" '=' = ["argv", "--mode", "%m%"] ∧
    MainWindow.read_argv sampleWindow "Project1" (some sampleArgvWithEqual) =
      (true, sampleWindow) ∧
    QMap.value (MainWindow.read_argv sampleWindow "Project1"
      (some sampleArgvWithEqual)).2.projects_argv "Project1" "" = "" := by
  decide

/-- C20, amended: if the last line of the project's `config.txt` that starts
with `argv=` is `argv=T` and T holds no equal sign, `read_argv` returns true
and registers T as the template of the project, whatever the lines before
it are, and leaves the templates of the other projects as they are. -/
theorem C20_argv_line_registered (w : MainWindow) (projectName text T : String)
    (pre post : List String) (hlines : QTextStream.lines text = pre ++ ("argv=" ++ T) :: post)
    (hT : '=' ∉ T.data) (hpost : ∀ l ∈ post, ¬ "argv=".data.isPrefixOf l.data = true) :
    (MainWindow.read_argv w projectName (some text)).1 = true ∧
    QMap.value (MainWindow.read_argv w projectName (some text)).2.projects_argv
      projectName "" = T ∧
    ∀ other, other ≠ projectName →
      QMap.value (MainWindow.read_argv w projectName (some text)).2.projects_argv other "" =
        QMap.value w.projects_argv other "" := by
  refine ⟨rfl, ?_, ?_⟩
  · simp only [MainWindow.read_argv, hlines, List.foldl_append, List.foldl_cons]
    rw [read_argv_lines_not_argv projectName post _ hpost, read_argv_line_argv _ _ _ hT,
      value_insert, if_pos rfl]
  · intro other ho
    simp only [MainWindow.read_argv]
    exact read_argv_lines_other projectName other _ _ ho

/-- C20, amended, at a file with a comment line and the template of the
example. -/
theorem C20_argv_line_registered_witness :
    (QTextStream.lines sampleArgvConfig =
        ["# arguments of the project"] ++ ("argv=" ++ "--p1 %x% --p2 %y%") :: [] ∧
      '=' ∉ "--p1 %x% --p2 %y%".data) ∧
    QMap.value (MainWindow.read_argv sampleWindow "Project1"
      (some sampleArgvConfig)).2.projects_argv "Project1" "" = "--p1 %x% --p2 %y%" :=
  ⟨⟨by decide, by decide⟩,
    (C20_argv_line_registered sampleWindow "Project1" sampleArgvConfig "--p1 %x% --p2 %y%"
      ["# arguments of the project"] [] (by decide) (by decide) (by simp)).2.1⟩

/-! ## Argument strings at creation and after a drop (C16) -/

/-- The value that `operator[]` returns is the value of the key, empty for a
missing key. -/
theorem index_value (m : List (String × String)) (key : String) :
    (QMap.index m key).1 = QMap.value m key "" := by
  unfold QMap.index QMap.value
  cases m.lookup key <;> rfl

/-- The entry that `operator[]` inserts for a missing key changes no
value. -/
theorem value_index (m : List (String × String)) (key k2 : String) :
    QMap.value (QMap.index m key).2 k2 "" = QMap.value m k2 "" := by
  unfold QMap.index
  cases h : m.lookup key with
  | some v => rfl
  | none =>
    simp only
    rw [value_insert]
    split_ifs with e
    · subst e
      simp [QMap.value, h]
    · rfl

/-- The constructor takes name, project and argument map from the
configuration and calculates the argument string from the template. -/
theorem create_members (config : piConfig) (template : String) (item : QTreeWidgetItem) :
    (RaspberryPi.create config template item).project = config.project ∧
    (RaspberryPi.create config template item).args = config.args ∧
    (RaspberryPi.create config template item).argv = calcArgvText config.args template :=
  ⟨rfl, rfl, rfl⟩

/-- The check of a configuration changes neither its project nor its
argument map. -/
theorem check_piConfig_members (w : MainWindow) (c : piConfig) (projects : List String)
    (warnings : String) :
    (w.check_piConfig c projects warnings).2.1.project = c.project ∧
    (w.check_piConfig c projects warnings).2.1.args = c.args := by
  unfold MainWindow.check_piConfig
  cases check_piConfig.loop c w.pis <;> simp only <;> split_ifs <;> exact ⟨rfl, rfl⟩

/-- One iteration of the loop of `create_piNodes` keeps the argument strings
resolved. -/
theorem create_step_argvResolved (project2item : List (String × Nat))
    (state : MainWindow × String) (c : piConfig) (h : state.1.argvResolved) :
    (create_piNodes.step project2item state c).1.argvResolved := by
  unfold create_piNodes.step
  simp only
  split_ifs with hc hv
  · exact h
  · intro pi hpi
    simp only [List.mem_append, List.mem_singleton] at hpi
    simp only [value_index]
    rcases hpi with e | e
    · exact h pi e
    · subst e
      obtain ⟨h1, h2, h3⟩ := create_members
        (state.1.check_piConfig c (project2item.map Prod.fst) state.2).2.1
        (QMap.index state.1.projects_argv
          (state.1.check_piConfig c (project2item.map Prod.fst) state.2).2.1.project).1
        { icon := ":/icons/StatusNotStarted.png", dragEnabled := true, checked := false,
          selected := false }
      rw [h3, h2, h1, index_value]
  · intro pi hpi
    simp only [List.mem_append, List.mem_singleton] at hpi
    simp only [value_index]
    rcases hpi with e | e
    · exact h pi e
    · subst e
      obtain ⟨h1, h2, h3⟩ := create_members
        (state.1.check_piConfig c (project2item.map Prod.fst) state.2).2.1
        (QMap.index state.1.projects_argv
          (state.1.check_piConfig c (project2item.map Prod.fst) state.2).2.1.project).1
        { icon := ":/icons/StatusNotStarted.png", dragEnabled := true, checked := false,
          selected := false }
      rw [h3, h2, h1, index_value]

/-- The loop of `create_piNodes` keeps the argument strings resolved. -/
theorem create_foldl_argvResolved (project2item : List (String × Nat))
    (configs : List piConfig) (state : MainWindow × String) (h : state.1.argvResolved) :
    (configs.foldl (create_piNodes.step project2item) state).1.argvResolved := by
  induction configs generalizing state with
  | nil => exact h
  | cons c cs ih => exact ih _ (create_step_argvResolved project2item state c h)

/-- What the drop does to a device under a project item that is not its
project: the project is set and the argument string is recalculated from the
template of that project. -/
theorem dropped_child_reassigned (project : String) (w : MainWindow) (child : Nat)
    (pi : RaspberryPi) (hget : w.pis.get? child = some pi) (hne : pi.project ≠ project) :
    ∃ pi2, (tw_pis_itemDropped.child project w child).pis.get? child = some pi2 ∧
      pi2.project = project ∧ pi2.args = pi.args ∧
      pi2.argv = calcArgvText pi.args (QMap.value w.projects_argv project "") := by
  have hlt : child < w.pis.length := by
    rw [List.get?_eq_some] at hget
    exact hget.1
  unfold tw_pis_itemDropped.child
  simp only [hget, hne, ne_eq, not_false_eq_true, if_true]
  rw [List.get?_eq_getElem?, List.getElem?_set_self hlt]
  refine ⟨_, rfl, ?_, ?_, ?_⟩
  · split_ifs <;> rfl
  · split_ifs <;> rfl
  · rw [← index_value]
    split_ifs <;> rfl

/-- The body of the loops of the drop keeps the argument strings resolved. -/
theorem dropped_child_argvResolved (project : String) (w : MainWindow) (child : Nat)
    (h : w.argvResolved) : (tw_pis_itemDropped.child project w child).argvResolved := by
  unfold tw_pis_itemDropped.child
  cases hget : w.pis.get? child with
  | none => exact h
  | some pi =>
    simp only
    split_ifs with hne hv
    · intro x hx
      simp only [value_index]
      rcases List.mem_or_eq_of_mem_set hx with e | e
      · exact h x e
      · subst e
        simp only [RaspberryPi.calc_argv, index_value]
    · intro x hx
      simp only [value_index]
      rcases List.mem_or_eq_of_mem_set hx with e | e
      · exact h x e
      · subst e
        simp only [RaspberryPi.calc_argv, index_value]
    · exact h

/-- The loops of the drop keep the argument strings resolved. -/
theorem dropped_loops_argvResolved (tops : List (String × List Nat)) (w : MainWindow)
    (h : w.argvResolved) :
    (tops.foldl (fun acc top => top.2.foldl (tw_pis_itemDropped.child top.1) acc)
      w).argvResolved := by
  induction tops generalizing w with
  | nil => exact h
  | cons top rest ih =>
    apply ih
    have inner : ∀ (children : List Nat) (v : MainWindow), v.argvResolved →
        (children.foldl (tw_pis_itemDropped.child top.1) v).argvResolved := by
      intro children
      induction children with
      | nil => intro v hv; exact hv
      | cons c cs ihc => intro v hv; exact ihc _ (dropped_child_argvResolved top.1 v c hv)
    exact inner top.2 w h

/-- C16: the argument string of every device is `calc_argv` of the template
registered for the device's project (the empty template when none is
registered) and the device's argument map: the constructor calculates it so,
`create_piNodes` keeps it so for the devices it creates and those it finds,
the drop handler `tw_pis_itemDropped` keeps it so for all devices, and a
device that the drop finds under another project gets that project and the
argument string calculated from that project's template. -/
theorem C16_argv_resolved (w : MainWindow) (h : w.argvResolved) (pi_configs : List piConfig)
    (project2item : List (String × Nat)) :
    (∀ config template item,
      (RaspberryPi.create config template item).argv = calcArgvText config.args template) ∧
    (w.create_piNodes pi_configs project2item).1.argvResolved ∧
    w.tw_pis_itemDropped.1.argvResolved ∧
    ∀ project child pi, w.pis.get? child = some pi → pi.project ≠ project →
      ∃ pi2, (tw_pis_itemDropped.child project w child).pis.get? child = some pi2 ∧
        pi2.project = project ∧ pi2.args = pi.args ∧
        pi2.argv = calcArgvText pi.args (QMap.value w.projects_argv project "") := by
  refine ⟨fun _ _ _ => rfl, create_foldl_argvResolved project2item pi_configs (w, "") h, ?_,
    fun project child pi hget hne => dropped_child_reassigned project w child pi hget hne⟩
  unfold MainWindow.tw_pis_itemDropped
  simp only
  have h2 := dropped_loops_argvResolved (w.tw_pis.drop 1) { w with lbl_error := "" } h
  split_ifs <;> exact h2

/-- C16 at the sample window after the second device was moved to the first
project: before the drop the argument strings are resolved; after it the
moved device has the project and the argument string of the template of that
project. -/
theorem C16_argv_resolved_witness :
    sampleDroppedWindow.argvResolved ∧
    sampleDroppedWindow.tw_pis_itemDropped.1.argvResolved ∧
    sampleDroppedWindow.tw_pis_itemDropped.1.pis.map (fun pi => (pi.name, pi.project, pi.argv)) =
      [("pi1", "Project1", "--p1 5 --p2 "), ("pi2", "Project1", "--p1 7 --p2 ")] :=
  ⟨by unfold MainWindow.argvResolved; decide,
    (C16_argv_resolved sampleDroppedWindow (by unfold MainWindow.argvResolved; decide)
      sampleConfigs sampleProject2item).2.2.1,
    by decide⟩

/-! ## Uniqueness of names and addresses (C21) -/

/-- The loop of `check_piConfig` finds no warning only if no device has the
name or the address of the configuration. -/
theorem check_loop_none (c : piConfig) (pis : List RaspberryPi)
    (h : check_piConfig.loop c pis = none) :
    ∀ pi ∈ pis, c.name ≠ pi.name ∧ c.addr ≠ pi.addr := by
  induction pis with
  | nil => intro pi hpi; simp at hpi
  | cons p ps ih =>
    unfold check_piConfig.loop at h
    split_ifs at h with h1 h2
    intro pi hpi
    rcases List.mem_cons.1 hpi with e | e
    · subst e
      exact ⟨h1, h2⟩
    · exact ih h pi e

/-- The loop of `check_piConfig` finds a warning if a device has the name or
the address of the configuration. -/
theorem check_loop_some (c : piConfig) (pis : List RaspberryPi)
    (h : ∃ pi ∈ pis, pi.name = c.name ∨ pi.addr = c.addr) :
    check_piConfig.loop c pis ≠ none := by
  intro hnone
  obtain ⟨pi, hpi, hor⟩ := h
  have := check_loop_none c pis hnone pi hpi
  rcases hor with e | e
  · exact this.1 e.symm
  · exact this.2 e.symm

/-- A configuration that `check_piConfig` accepts has a name and an address,
and no device has its name or its address; the checked configuration keeps
name and address. -/
theorem check_piConfig_accepted (w : MainWindow) (c : piConfig) (projects : List String)
    (warnings : String) (h : (w.check_piConfig c projects warnings).1 = true) :
    c.name ≠ "" ∧ c.addr ≠ "" ∧ (∀ pi ∈ w.pis, c.name ≠ pi.name ∧ c.addr ≠ pi.addr) ∧
    (w.check_piConfig c projects warnings).2.1.name = c.name ∧
    (w.check_piConfig c projects warnings).2.1.addr = c.addr := by
  unfold MainWindow.check_piConfig at h ⊢
  by_cases h1 : c.name = ""
  · simp [h1] at h
  · by_cases h2 : c.addr = ""
    · simp [h1, h2] at h
    · cases h3 : check_piConfig.loop c w.pis with
      | some warning => simp [h1, h2, h3] at h
      | none =>
        refine ⟨h1, h2, check_loop_none c w.pis h3, ?_, ?_⟩
        · simp only [h1, h2, if_false]
          split_ifs <;> rfl
        · simp only [h1, h2, if_false]
          split_ifs <;> rfl

/-- A configuration without name or address, or with the name or the address
of a device, is not accepted by `check_piConfig`. -/
theorem check_piConfig_rejected (w : MainWindow) (c : piConfig) (projects : List String)
    (warnings : String)
    (h : c.name = "" ∨ c.addr = "" ∨ ∃ pi ∈ w.pis, pi.name = c.name ∨ pi.addr = c.addr) :
    (w.check_piConfig c projects warnings).1 = false := by
  by_contra hacc
  have hacc2 : (w.check_piConfig c projects warnings).1 = true := by
    simpa using hacc
  obtain ⟨h1, h2, h3, _, _⟩ := check_piConfig_accepted w c projects warnings hacc2
  rcases h with e | e | ⟨pi, hpi, e⟩
  · exact h1 e
  · exact h2 e
  · rcases e with e2 | e2
    · exact (h3 pi hpi).1 e2.symm
    · exact (h3 pi hpi).2 e2.symm

/-- One iteration of the loop of `create_piNodes` leaves the device list as
it is or appends a device with the name and the address of an accepted
configuration. -/
theorem create_step_pis (project2item : List (String × Nat)) (state : MainWindow × String)
    (c : piConfig) :
    (create_piNodes.step project2item state c).1.pis = state.1.pis ∨
    ∃ pi, (create_piNodes.step project2item state c).1.pis = state.1.pis ++ [pi] ∧
      pi.name = c.name ∧ pi.addr = c.addr ∧
      (state.1.check_piConfig c (project2item.map Prod.fst) state.2).1 = true := by
  unfold create_piNodes.step
  simp only
  by_cases hc : (state.1.check_piConfig c (project2item.map Prod.fst) state.2).1 = false
  · left
    simp [hc]
  · right
    have hacc : (state.1.check_piConfig c (project2item.map Prod.fst) state.2).1 = true := by
      simpa using hc
    obtain ⟨_, _, _, hn, ha⟩ := check_piConfig_accepted _ _ _ _ hacc
    split_ifs
    · exact ⟨_, rfl, hn, ha, hacc⟩
    · exact ⟨_, rfl, hn, ha, hacc⟩

/-- One iteration of the loop of `create_piNodes` keeps names and addresses
pairwise distinct and not empty. -/
theorem create_step_unique (project2item : List (String × Nat)) (state : MainWindow × String)
    (c : piConfig) (h : state.1.uniqueDevices)
    (hne : ∀ pi ∈ state.1.pis, pi.name ≠ "" ∧ pi.addr ≠ "") :
    (create_piNodes.step project2item state c).1.uniqueDevices ∧
    ∀ pi ∈ (create_piNodes.step project2item state c).1.pis, pi.name ≠ "" ∧ pi.addr ≠ "" := by
  rcases create_step_pis project2item state c with e | ⟨pi, e, hn, ha, hacc⟩
  · unfold MainWindow.uniqueDevices
    rw [e]
    exact ⟨h, hne⟩
  · obtain ⟨h1, h2, h3, _, _⟩ := check_piConfig_accepted _ _ _ _ hacc
    unfold MainWindow.uniqueDevices at h ⊢
    rw [e]
    refine ⟨⟨?_, ?_⟩, ?_⟩
    · rw [List.map_append, List.nodup_append]
      refine ⟨h.1, by simp, ?_⟩
      intro x hx hx2
      simp only [List.map_cons, List.map_nil, List.mem_singleton] at hx2
      obtain ⟨q, hq, rfl⟩ := List.mem_map.1 hx
      exact (h3 q hq).1 (by rw [← hn, hx2])
    · rw [List.map_append, List.nodup_append]
      refine ⟨h.2, by simp, ?_⟩
      intro x hx hx2
      simp only [List.map_cons, List.map_nil, List.mem_singleton] at hx2
      obtain ⟨q, hq, rfl⟩ := List.mem_map.1 hx
      exact (h3 q hq).2 (by rw [← ha, hx2])
    · intro q hq
      rcases List.mem_append.1 hq with e2 | e2
      · exact hne q e2
      · have : q = pi := by simpa using e2
        subst this
        exact ⟨by rw [hn]; exact h1, by rw [ha]; exact h2⟩

/-- The loop of `create_piNodes` keeps names and addresses pairwise distinct
and not empty. -/
theorem create_foldl_unique (project2item : List (String × Nat)) (configs : List piConfig)
    (state : MainWindow × String) (h : state.1.uniqueDevices)
    (hne : ∀ pi ∈ state.1.pis, pi.name ≠ "" ∧ pi.addr ≠ "") :
    (configs.foldl (create_piNodes.step project2item) state).1.uniqueDevices ∧
    ∀ pi ∈ (configs.foldl (create_piNodes.step project2item) state).1.pis,
      pi.name ≠ "" ∧ pi.addr ≠ "" := by
  induction configs generalizing state with
  | nil => exact ⟨h, hne⟩
  | cons c cs ih =>
    obtain ⟨h2, hne2⟩ := create_step_unique project2item state c h hne
    exact ih _ h2 hne2

/-- Replacing an entry of a list by one with the same image keeps the list of
images. -/
theorem map_set_same {α β : Type} (f : α → β) (l : List α) (i : Nat) (a x : α)
    (hget : l.get? i = some x) (hf : f a = f x) : (l.set i a).map f = l.map f := by
  induction l generalizing i with
  | nil => simp at hget
  | cons y ys ih =>
    cases i with
    | zero =>
      simp only [List.get?_cons_zero, Option.some.injEq] at hget
      subst hget
      simp [hf]
    | succ n =>
      simp only [List.get?_cons_succ] at hget
      simp [ih n hget]

/-- The body of the loops of the drop changes neither names nor addresses. -/
theorem dropped_child_names (project : String) (w : MainWindow) (child : Nat) :
    (tw_pis_itemDropped.child project w child).pis.map RaspberryPi.name =
      w.pis.map RaspberryPi.name ∧
    (tw_pis_itemDropped.child project w child).pis.map RaspberryPi.addr =
      w.pis.map RaspberryPi.addr := by
  unfold tw_pis_itemDropped.child
  cases hget : w.pis.get? child with
  | none => exact ⟨rfl, rfl⟩
  | some pi =>
    simp only
    split_ifs
    · exact ⟨map_set_same _ _ _ _ pi hget rfl, map_set_same _ _ _ _ pi hget rfl⟩
    · exact ⟨map_set_same _ _ _ _ pi hget rfl, map_set_same _ _ _ _ pi hget rfl⟩
    · exact ⟨rfl, rfl⟩

/-- The drop changes neither names nor addresses. -/
theorem dropped_names (w : MainWindow) :
    w.tw_pis_itemDropped.1.pis.map RaspberryPi.name = w.pis.map RaspberryPi.name ∧
    w.tw_pis_itemDropped.1.pis.map RaspberryPi.addr = w.pis.map RaspberryPi.addr := by
  have loops : ∀ (tops : List (String × List Nat)) (v : MainWindow),
      (tops.foldl (fun acc top => top.2.foldl (tw_pis_itemDropped.child top.1) acc)
        v).pis.map RaspberryPi.name = v.pis.map RaspberryPi.name ∧
      (tops.foldl (fun acc top => top.2.foldl (tw_pis_itemDropped.child top.1) acc)
        v).pis.map RaspberryPi.addr = v.pis.map RaspberryPi.addr := by
    intro tops
    induction tops with
    | nil => intro v; exact ⟨rfl, rfl⟩
    | cons top rest ih =>
      intro v
      have inner : ∀ (children : List Nat) (u : MainWindow),
          (children.foldl (tw_pis_itemDropped.child top.1) u).pis.map RaspberryPi.name =
            u.pis.map RaspberryPi.name ∧
          (children.foldl (tw_pis_itemDropped.child top.1) u).pis.map RaspberryPi.addr =
            u.pis.map RaspberryPi.addr := by
        intro children
        induction children with
        | nil => intro u; exact ⟨rfl, rfl⟩
        | cons c cs ihc =>
          intro u
          have h1 := ihc (tw_pis_itemDropped.child top.1 u c)
          have h2 := dropped_child_names top.1 u c
          exact ⟨h1.1.trans h2.1, h1.2.trans h2.2⟩
      have h1 := ih (top.2.foldl (tw_pis_itemDropped.child top.1) v)
      have h2 := inner top.2 v
      exact ⟨h1.1.trans h2.1, h1.2.trans h2.2⟩
  unfold MainWindow.tw_pis_itemDropped
  simp only
  have h := loops (w.tw_pis.drop 1) { w with lbl_error := "" }
  split_ifs <;> exact h

/-- C21: `create_piNodes` on an empty device list yields devices with
pairwise distinct names, pairwise distinct addresses and no empty name or
address, whatever the list of configurations is; a configuration without
name or address, or with the name or the address of a device created before
it, adds no device; and a drop (project reassignment) keeps names and
addresses, so they stay pairwise distinct. -/
theorem C21_names_and_addresses_unique (w : MainWindow) (h : w.pis = [])
    (pi_configs : List piConfig) (project2item : List (String × Nat)) :
    (w.create_piNodes pi_configs project2item).1.uniqueDevices ∧
    (∀ pi ∈ (w.create_piNodes pi_configs project2item).1.pis, pi.name ≠ "" ∧ pi.addr ≠ "") ∧
    (∀ (state : MainWindow × String) (c : piConfig),
      (c.name = "" ∨ c.addr = "" ∨ ∃ pi ∈ state.1.pis, pi.name = c.name ∨ pi.addr = c.addr) →
      (create_piNodes.step project2item state c).1.pis = state.1.pis) ∧
    ∀ v : MainWindow, v.uniqueDevices → v.tw_pis_itemDropped.1.uniqueDevices := by
  have hcreate := create_foldl_unique project2item pi_configs (w, "")
    (by unfold MainWindow.uniqueDevices; simp [h]) (by simp [h])
  refine ⟨hcreate.1, hcreate.2, ?_, ?_⟩
  · intro state c hrej
    rcases create_step_pis project2item state c with e | ⟨pi, _, _, _, hacc⟩
    · exact e
    · rw [check_piConfig_rejected state.1 c _ state.2 hrej] at hacc
      exact absurd hacc (by decide)
  · intro v hv
    unfold MainWindow.uniqueDevices at hv ⊢
    rw [(dropped_names v).1, (dropped_names v).2]
    exact hv

/-- C21 at six configurations of which the second repeats a name, the third
an address, the fourth has no name and the fifth no address: the first and
the sixth become devices. -/
theorem C21_names_and_addresses_unique_witness :
    sampleProjectWindow.pis = [] ∧
    (sampleProjectWindow.create_piNodes sampleClashingConfigs
      sampleProject2item).1.uniqueDevices ∧
    (sampleProjectWindow.create_piNodes sampleClashingConfigs sampleProject2item).1.pis.map
      (fun pi => (pi.name, pi.addr)) = [("pi1", "10.0.0.1"), ("pi6", "10.0.0.6")] :=
  ⟨rfl,
    (C21_names_and_addresses_unique sampleProjectWindow rfl sampleClashingConfigs
      sampleProject2item).1,
    by decide⟩

/-! ## Resolved templates and the written configuration (C28, C29) -/

/-- C28: for a template that is a lead without percent sign followed by
placeholders, each with the text after it (no percent sign in these texts, so
every percent sign belongs to a placeholder; between two placeholders a
character that is no word character), and an argument map whose values hold
no percent sign, `calc_argv` yields the template with each placeholder
replaced by the value of its token, or by the empty string when the token is
not in the map. -/
theorem C28_separated_template_resolved (pi : RaspberryPi) (lead : List Char)
    (segs : List (List Char × List Char)) (hlead : '%' ∉ lead) (hclean : segmentsClean segs)
    (hsep : segmentsSeparated segs) (hvals : ∀ kv ∈ pi.args, '%' ∉ kv.2.data) :
    (pi.calc_argv (String.mk (lead ++ templateText segs))).argv =
      String.mk (lead ++ resolvedText pi.args segs) :=
  calcArgvText_templateText pi.args lead segs hlead hclean hsep hvals

/-- C28 at the example: the template `--p1 %x% --p2 %y%` with the map
x ↦ 5 gives `--p1 5 --p2 `. -/
theorem C28_separated_template_resolved_witness :
    ('%' ∉ "--p1 ".data ∧ segmentsClean sampleSegments ∧ segmentsSeparated sampleSegments ∧
      ∀ kv ∈ sampleArgsPi.args, '%' ∉ kv.2.data) ∧
    String.mk ("--p1 ".data ++ templateText sampleSegments) = "--p1 %x% --p2 %y%" ∧
    (sampleArgsPi.calc_argv (String.mk ("--p1 ".data ++ templateText sampleSegments))).argv =
      "--p1 5 --p2 " :=
  ⟨⟨by decide, by unfold segmentsClean; decide,
      by simp only [segmentsSeparated, sampleSegments]; decide, by decide⟩,
    by decide,
    (C28_separated_template_resolved sampleArgsPi "--p1 ".data sampleSegments (by decide)
      (by unfold segmentsClean; decide)
      (by simp only [segmentsSeparated, sampleSegments]; decide) (by decide)).trans
      (by decide)⟩

/-- C29: for a window with a non-empty project path and devices whose
strings hold none of the characters the file format uses (no equal sign or
line break in project path, addresses and projects; no line break in names;
no equal sign, comma, colon or line break in argument tokens and values),
`readConfig` applied to the text written by `writeConfig` returns, with fuel
for the lines, the same project path and the list of name, address, project
and argument map of the devices in the same order. -/
theorem C29_written_config_read_back (reader w : MainWindow) (h : w.writable) (fuel : Nat)
    (hfuel : w.pis.length + 6 ≤ fuel) :
    MainWindow.readConfig fuel reader (some (MainWindow.writeConfig w)) =
      some (ReadOutcome.returned { reader with projectsPath := w.projectsPath }
        (w.pis.map RaspberryPi.toConfig)) ∧
    (w.pis.map RaspberryPi.toConfig).map piConfig.config = w.pis.map RaspberryPi.config := by
  refine ⟨?_, toConfig_config w.pis⟩
  have hf : fuel = (fuel - 6 - w.pis.length) + 6 + w.pis.length := by omega
  rw [hf]
  exact readConfig_writeConfig reader w h _

/-- C29 at the fleet of five devices, read into a window without project
path. -/
theorem C29_written_config_read_back_witness :
    (sampleFleet.writable ∧ sampleFleet.pis.length + 6 ≤ 11) ∧
    MainWindow.readConfig 11 { sampleWindow with projectsPath := "" }
        (some (MainWindow.writeConfig sampleFleet)) =
      some (ReadOutcome.returned sampleWindow (sampleFleet.pis.map RaspberryPi.toConfig)) :=
  ⟨⟨by decide, by decide⟩,
    (C29_written_config_read_back { sampleWindow with projectsPath := "" } sampleFleet
      (by decide) 11 (by decide)).1⟩

/-! ## Error text and status over status events (C30) -/

/-- One status event keeps the error text empty outside `offline`. -/
theorem SSHcurrStatus_errorOnlyOffline (w : MainWindow) (pi : RaspberryPi)
    (currStatus : piStatus) (error : String) (h : pi.errorOnlyOffline) :
    (MainWindow.SSHcurrStatus w pi currStatus error).2.errorOnlyOffline := by
  unfold RaspberryPi.errorOnlyOffline at h ⊢
  unfold MainWindow.SSHcurrStatus
  simp only
  split_ifs <;> simp_all

/-- One status event does not bring the status back to `checking`. -/
theorem SSHcurrStatus_not_checking (w : MainWindow) (pi : RaspberryPi)
    (currStatus : piStatus) (error : String) (h : pi.status ≠ piStatus.checking) :
    (MainWindow.SSHcurrStatus w pi currStatus error).2.status ≠ piStatus.checking := by
  unfold MainWindow.SSHcurrStatus
  simp only
  split_ifs <;> simp_all

/-- A sequence of status events keeps the error text empty outside
`offline`. -/
theorem applyStatus_errorOnlyOffline (events : List (piStatus × String)) (w : MainWindow)
    (pi : RaspberryPi) (h : pi.errorOnlyOffline) :
    (MainWindow.applyStatus w pi events).2.errorOnlyOffline := by
  induction events generalizing w pi with
  | nil => exact h
  | cons e rest ih =>
    exact ih _ _ (SSHcurrStatus_errorOnlyOffline w pi e.1 e.2 h)

/-- A sequence of status events does not bring the status back to
`checking`. -/
theorem applyStatus_not_checking (events : List (piStatus × String)) (w : MainWindow)
    (pi : RaspberryPi) (h : pi.status ≠ piStatus.checking) :
    (MainWindow.applyStatus w pi events).2.status ≠ piStatus.checking := by
  induction events generalizing w pi with
  | nil => exact h
  | cons e rest ih =>
    exact ih _ _ (SSHcurrStatus_not_checking w pi e.1 e.2 h)

/-- Events applied after other events. -/
theorem applyStatus_append (before after : List (piStatus × String)) (w : MainWindow)
    (pi : RaspberryPi) :
    MainWindow.applyStatus w pi (before ++ after) =
      MainWindow.applyStatus (MainWindow.applyStatus w pi before).1
        (MainWindow.applyStatus w pi before).2 after := by
  induction before generalizing w pi with
  | nil => rfl
  | cons e rest ih => exact ih _ _

/-- C30: from a state with empty error text, such as the initial state of a
device (status `checking`, empty error text), after any sequence of status
events applied by `MainWindow::SSHcurrStatus` the stored error text is empty
unless the status is `offline`, and once the status has left `checking`
(after some first part of the sequence) it is not `checking` after the whole
sequence. -/
theorem C30_error_only_offline (w : MainWindow) (pi : RaspberryPi)
    (events : List (piStatus × String)) (he : pi.error = "") :
    ((MainWindow.applyStatus w pi events).2.status ≠ piStatus.offline →
      (MainWindow.applyStatus w pi events).2.error = "") ∧
    ∀ before after, events = before ++ after →
      (MainWindow.applyStatus w pi before).2.status ≠ piStatus.checking →
      (MainWindow.applyStatus w pi events).2.status ≠ piStatus.checking := by
  constructor
  · exact applyStatus_errorOnlyOffline events w pi (fun _ => he)
  · intro before after hsplit hleft
    rw [hsplit, applyStatus_append]
    exact applyStatus_not_checking after _ _ hleft

/-- C30 at a device after its constructor and a sequence of five events: the
device ends `offline` with the last error text, and after the first event
the status is never `checking` again, also not after the late `checking`
event. -/
theorem C30_error_only_offline_witness :
    ((samplePi "1" piStatus.checking true).status = piStatus.checking ∧
      (samplePi "1" piStatus.checking true).error = "") ∧
    ((MainWindow.applyStatus sampleWindow (samplePi "1" piStatus.checking true)
        sampleStatusEvents).2.status ≠ piStatus.offline →
      (MainWindow.applyStatus sampleWindow (samplePi "1" piStatus.checking true)
        sampleStatusEvents).2.error = "") ∧
    (MainWindow.applyStatus sampleWindow (samplePi "1" piStatus.checking true)
        (sampleStatusEvents.take 4)).2.status = piStatus.appRunning ∧
    (MainWindow.applyStatus sampleWindow (samplePi "1" piStatus.checking true)
        sampleStatusEvents).2.error = "lost" :=
  ⟨⟨rfl, rfl⟩,
    (C30_error_only_offline sampleWindow (samplePi "1" piStatus.checking true)
      sampleStatusEvents rfl).1,
    by decide, by decide⟩

/-! ## The SSH executable (C22, C23, C25) and the one-shot output (C24) -/

/-- The return code of `execute` is one of `SSH_OK`, `SSH_CMD_ERROR` and
`SSH_ERROR`. -/
theorem execute_rc (channel : Channel) :
    (SSH.execute channel).rc = SSH_OK ∨ (SSH.execute channel).rc = SSH_CMD_ERROR ∨
      (SSH.execute channel).rc = SSH_ERROR := by
  unfold SSH.execute
  simp only
  split_ifs <;> simp

/-- Without a channel that is allocated, opened and accepts the command,
`execute` returns `SSH_ERROR`. -/
theorem execute_connection_error (channel : Channel)
    (h : channel.allocated = false ∨ channel.opened = false ∨ channel.execAccepted = false) :
    (SSH.execute channel).rc = SSH_ERROR := by
  unfold SSH.execute
  simp only
  split_ifs <;> simp_all

/-- The function of a command is found in `str2func` exactly for the commands
of the command line. -/
theorem str2func_lookup_none (command : String) :
    str2func.lookup command = none ↔ command ∉ knownCommands := by
  unfold str2func knownCommands
  simp only [List.lookup, List.mem_cons, List.mem_nil_iff, or_false, not_or]
  constructor
  · intro h
    repeat' constructor
    all_goals (intro e; subst e; simp at h)
  · rintro ⟨h1, h2, h3, h4, h5, h6, h7, h8⟩
    have b1 : (command == "status") = false := by simpa using h1
    have b2 : (command == "execute") = false := by simpa using h2
    have b3 : (command == "save") = false := by simpa using h3
    have b4 : (command == "compile") = false := by simpa using h4
    have b5 : (command == "start") = false := by simpa using h5
    have b6 : (command == "stop") = false := by simpa using h6
    have b7 : (command == "readOutput_once") = false := by simpa using h7
    have b8 : (command == "readOutput_cont") = false := by simpa using h8
    simp only [b1, b2, b3, b4, b5, b6, b7, b8]

/-- C22: `SSH::isAppRunning` returns `SSH_APP_RUNNING` (1) when the command
ran without output on stderr and `SSH_APP_NOT_RUNNING` (2) when it wrote to
stderr, but on a connection error it returns the return code of `execute`,
`SSH_ERROR` (-1), and never 0 as the comment in SSH.h says; on a device with
a lost connection the result is -1. -/
theorem C22_connection_error_returns_minus_one (host : Host) (project : String) :
    (SSH.isAppRunning host project).rc =
      (if (SSH.execute (host.session (SSH.isAppRunning.command project))).rc = SSH_OK then
        SSH_APP_RUNNING
      else if (SSH.execute (host.session (SSH.isAppRunning.command project))).rc =
          SSH_CMD_ERROR then SSH_APP_NOT_RUNNING
      else SSH_ERROR) ∧
    (SSH.isAppRunning host project).rc ≠ 0 ∧
    (SSH.isAppRunning sampleLostHost "Project1").rc = -1 ∧
    (main sampleLostHost ["SSH", "10.0.0.1", "status", "Project1"]).rc = -1 := by
  have hrc := execute_rc (host.session (SSH.isAppRunning.command project))
  have key : (SSH.isAppRunning host project).rc =
      (if (SSH.execute (host.session (SSH.isAppRunning.command project))).rc = SSH_OK then
        SSH_APP_RUNNING
      else if (SSH.execute (host.session (SSH.isAppRunning.command project))).rc =
          SSH_CMD_ERROR then SSH_APP_NOT_RUNNING
      else SSH_ERROR) := by
    unfold SSH.isAppRunning
    simp only
    rcases hrc with e | e | e
    · simp [e]
    · rw [if_neg (by rw [e]; decide), if_pos e, if_neg (by rw [e]; decide), if_pos e]
    · rw [if_neg (by rw [e]; decide), if_neg (by rw [e]; decide),
        if_neg (by rw [e]; decide), if_neg (by rw [e]; decide), e]
  refine ⟨key, ?_, by decide, by decide⟩
  rw [key]
  split_ifs <;> decide

/-- C23, counterexample: on a device where the project has no output file
`tail` writes only its error message to stderr; `execute` reads bytes from
stderr and returns `SSH_CMD_ERROR`, so `readOutput_once` returns -2 and the
executable exits with that code, not with 0; nothing is written to stdout. -/
theorem C23_absent_file_command_error :
    (SSH.readOutput_once sampleNoOutputHost "Project1").rc = -2 ∧
    (main sampleNoOutputHost ["SSH", "10.0.0.1", "readOutput_once", "Project1"]).rc = -2 ∧
    (main sampleNoOutputHost ["SSH", "10.0.0.1", "readOutput_once", "Project1"]).stdout =
      "" := by
  decide

/-- Reading a stream yields `SSH_NO_BYTES_READ` exactly if its first read
returns no bytes. -/
theorem redirect_no_bytes (reads : List ChannelRead) :
    (SSH.channel_redirect_output reads).1 = SSH_NO_BYTES_READ ↔
      (reads.head?.getD { nbytes := 0, data := "" }).nbytes = 0 := by
  unfold SSH.channel_redirect_output
  simp only
  by_cases h1 : (reads.head?.getD { nbytes := 0, data := "" }).nbytes > 0
  · rw [if_pos h1]
    constructor
    · intro h
      split_ifs at h
      · exact absurd (show SSH_ERROR = SSH_NO_BYTES_READ from h) (by decide)
      · exact absurd (show SSH_BYTES_READ = SSH_NO_BYTES_READ from h) (by decide)
    · intro h
      omega
  · rw [if_neg h1]
    by_cases h2 : (reads.head?.getD { nbytes := 0, data := "" }).nbytes < 0
    · rw [if_pos h2]
      constructor
      · intro h
        exact absurd h (by decide)
      · intro h
        omega
    · rw [if_neg h2]
      constructor
      · intro _
        omega
      · intro _
        rfl

/-- Reading a stream whose first read returns no bytes redirects nothing. -/
theorem redirect_nothing (reads : List ChannelRead)
    (h : (reads.head?.getD { nbytes := 0, data := "" }).nbytes = 0) :
    SSH.channel_redirect_output reads = (SSH_NO_BYTES_READ, "") := by
  unfold SSH.channel_redirect_output
  simp only
  rw [if_neg (by omega), if_neg (by omega)]

/-- The return code of a stream is `SSH_ERROR`, `SSH_NO_BYTES_READ` or
`SSH_BYTES_READ`. -/
theorem redirect_rc (reads : List ChannelRead) :
    (SSH.channel_redirect_output reads).1 = SSH_ERROR ∨
    (SSH.channel_redirect_output reads).1 = SSH_NO_BYTES_READ ∨
    (SSH.channel_redirect_output reads).1 = SSH_BYTES_READ := by
  unfold SSH.channel_redirect_output
  simp only
  split_ifs <;> simp

/-- `execute` returns `SSH_OK` exactly if the command ran on the channel, no
read failed and nothing was read from stderr. -/
theorem execute_ok_iff (channel : Channel) :
    (SSH.execute channel).rc = SSH_OK ↔
      (channel.allocated = true ∧ channel.opened = true ∧ channel.execAccepted = true ∧
        (SSH.channel_redirect_output channel.stdoutReads).1 ≠ SSH_ERROR ∧
        (channel.stderrReads.head?.getD { nbytes := 0, data := "" }).nbytes = 0) := by
  rw [← redirect_no_bytes]
  unfold SSH.execute
  simp only
  have hne : SSH_ERROR ≠ SSH_OK := by decide
  have hne2 : SSH_CMD_ERROR ≠ SSH_OK := by decide
  rcases redirect_rc channel.stderrReads with e | e | e
  · split_ifs <;> simp_all [SSH_ERROR, SSH_OK, SSH_NO_BYTES_READ, SSH_BYTES_READ, SSH_CMD_ERROR]
  · split_ifs <;> simp_all [SSH_ERROR, SSH_OK, SSH_NO_BYTES_READ, SSH_BYTES_READ, SSH_CMD_ERROR]
  · split_ifs <;> simp_all [SSH_ERROR, SSH_OK, SSH_NO_BYTES_READ, SSH_BYTES_READ, SSH_CMD_ERROR]

/-- `execute` returns `SSH_CMD_ERROR`, with the text read from stderr, if the
command ran on the channel, reading stdout did not fail and bytes were read
from stderr without a failure. -/
theorem execute_cmd_error (channel : Channel)
    (hrun : channel.allocated = true ∧ channel.opened = true ∧ channel.execAccepted = true)
    (hout : (SSH.channel_redirect_output channel.stdoutReads).1 ≠ SSH_ERROR)
    (herr : (SSH.channel_redirect_output channel.stderrReads).1 = SSH_BYTES_READ) :
    SSH.execute channel =
      { rc := SSH_CMD_ERROR, stdout := (SSH.channel_redirect_output channel.stdoutReads).2,
        stderr := (SSH.channel_redirect_output channel.stderrReads).2 } := by
  obtain ⟨h1, h2, h3⟩ := hrun
  unfold SSH.execute
  simp only [h1, h2, h3, Bool.true_eq_false, if_false, if_neg hout, herr]
  rw [if_neg (by decide)]
  simp

/-- C23, amended: when the remote `tail` writes nothing to stdout and bytes
are read from its stderr (the error message for the missing output file),
`readOutput_once` returns `SSH_CMD_ERROR` (-2, not 0) with an empty stdout
and the message on stderr, and the executable called with the command
`readOutput_once` returns that code after connecting; `readOutput_once`
returns `SSH_OK` exactly if the command ran on the channel, no read failed and
the first read of stderr returned no bytes, so only when nothing is read from
stderr. -/
theorem C23_absent_file_returns_cmd_error (host : Host) (program addr project : String)
    (hconnect : host.connect addr = none)
    (hrun : (host.session (SSH.readOutput_once.command project)).allocated = true ∧
      (host.session (SSH.readOutput_once.command project)).opened = true ∧
      (host.session (SSH.readOutput_once.command project)).execAccepted = true)
    (hout : ((host.session (SSH.readOutput_once.command project)).stdoutReads.head?.getD
      { nbytes := 0, data := "" }).nbytes = 0)
    (herr : (SSH.channel_redirect_output
      (host.session (SSH.readOutput_once.command project)).stderrReads).1 = SSH_BYTES_READ) :
    SSH.readOutput_once host project =
      { rc := SSH_CMD_ERROR, stdout := "",
        stderr := (SSH.channel_redirect_output
          (host.session (SSH.readOutput_once.command project)).stderrReads).2 } ∧
    SSH_CMD_ERROR ≠ SSH_OK ∧
    main host [program, addr, "readOutput_once", project] =
      { rc := SSH_CMD_ERROR, stdout := "",
        stderr := (SSH.channel_redirect_output
          (host.session (SSH.readOutput_once.command project)).stderrReads).2,
        calls := [SshCall.connect addr "pi" "raspberry",
          SshCall.run "readOutput_once" project none, SshCall.disconnect] } ∧
    ∀ (host2 : Host) (project2 : String),
      (SSH.readOutput_once host2 project2).rc = SSH_OK ↔
        ((host2.session (SSH.readOutput_once.command project2)).allocated = true ∧
          (host2.session (SSH.readOutput_once.command project2)).opened = true ∧
          (host2.session (SSH.readOutput_once.command project2)).execAccepted = true ∧
          (SSH.channel_redirect_output
            (host2.session (SSH.readOutput_once.command project2)).stdoutReads).1 ≠ SSH_ERROR ∧
          ((host2.session (SSH.readOutput_once.command project2)).stderrReads.head?.getD
            { nbytes := 0, data := "" }).nbytes = 0) := by
  have hnothing := redirect_nothing _ hout
  have hread : SSH.readOutput_once host project =
      { rc := SSH_CMD_ERROR, stdout := "",
        stderr := (SSH.channel_redirect_output
          (host.session (SSH.readOutput_once.command project)).stderrReads).2 } := by
    unfold SSH.readOutput_once
    rw [execute_cmd_error _ hrun (by rw [hnothing]; decide) herr, hnothing]
  refine ⟨hread, by decide, ?_, fun host2 project2 => execute_ok_iff _⟩
  have hl : str2func.lookup "readOutput_once" =
      some (fun host project _ => SSH.readOutput_once host project) := by
    simp [str2func, List.lookup]
  simp [main, hl, hconnect, hread]

/-- C23, amended, at the device without output file. -/
theorem C23_absent_file_returns_cmd_error_witness :
    (sampleNoOutputHost.connect "10.0.0.1" = none ∧
      (SSH.channel_redirect_output
        (sampleNoOutputHost.session (SSH.readOutput_once.command "Project1")).stderrReads).1 =
        SSH_BYTES_READ) ∧
    SSH.readOutput_once sampleNoOutputHost "Project1" =
      { rc := SSH_CMD_ERROR, stdout := "", stderr := sampleTailError } :=
  ⟨⟨rfl, by decide⟩,
    (C23_absent_file_returns_cmd_error sampleNoOutputHost "SSH" "10.0.0.1" "Project1" rfl
      (by decide) (by decide) (by decide)).1.trans (by decide)⟩

/-- C25: for every argument vector that lacks the host address, the command
or the project, or whose command is none of the eight commands, `main`
returns `SSH_ERROR` (-1, not zero) after writing the message for the missing
argument or the unknown command to stderr, with nothing on stdout and no call
on the session: neither a connection nor a command. -/
theorem C25_invalid_arguments_rejected (host : Host) (argv : List String)
    (h : argv.length < 4 ∨ (argv.get? 2).getD "" ∉ knownCommands) :
    (main host argv).rc = SSH_ERROR ∧ SSH_ERROR ≠ 0 ∧
    (main host argv).stderr = usageMessage argv ∧ usageMessage argv ≠ "" ∧
    (main host argv).stdout = "" ∧ (main host argv).calls = [] := by
  have hmsg : usageMessage argv ≠ "" := by
    unfold usageMessage
    split_ifs
    · decide
    · decide
    · decide
    · intro e
      have := congrArg String.length e
      simp only [String.length_append] at this
      have h2 : "\n".length = 1 := by decide
      have h3 : "".length = 0 := by decide
      omega
  refine ⟨?_, by decide, ?_, hmsg, ?_, ?_⟩
  all_goals
    match argv, h with
    | [], _ => rfl
    | [_], _ => rfl
    | [_, _], _ => rfl
    | [_, _, _], _ => rfl
    | _ :: _ :: c :: _ :: rest, h =>
      have hc : c ∉ knownCommands := by
        rcases h with h1 | h1
        · simp at h1
          omega
        · simpa using h1
      have hl := (str2func_lookup_none c).2 hc
      simp [main, hl, usageMessage]

/-- C25 at a vector without project and at a vector with a misspelled
command, on a device that would accept the connection. -/
theorem C25_invalid_arguments_rejected_witness :
    (["SSH", "10.0.0.1", "status"].length < 4 ∨
      (["SSH", "10.0.0.1", "status"].get? 2).getD "" ∉ knownCommands) ∧
    main sampleNoOutputHost ["SSH", "10.0.0.1", "status"] =
      { rc := -1, stdout := "", stderr := "Error: No project given\n", calls := [] } ∧
    main sampleNoOutputHost ["SSH", "10.0.0.1", "readOutput", "Project1"] =
      { rc := -1, stdout := "", stderr := "Unknown command: readOutput\n", calls := [] } ∧
    (main sampleNoOutputHost ["SSH", "10.0.0.1", "status"]).calls = [] :=
  ⟨Or.inl (by decide), by decide, by decide,
    (C25_invalid_arguments_rejected sampleNoOutputHost ["SSH", "10.0.0.1", "status"]
      (Or.inl (by decide))).2.2.2.2.2⟩

/-- C24, counterexample: the one-shot read of a device without output file
ends with exit code -2; `SSHreadOutput_once` emits no signal for it, so no
`SSHreadOutput_finished` event is delivered. -/
theorem C24_no_event_on_nonzero_exit :
    SSHoutput.SSHreadOutput_once
      { started := true, exitCode := -2, standardOutput := "",
        standardError := sampleTailError } = [] := by
  decide

/-- C24, amended: for a one-shot read request exactly one
`SSHreadOutput_finished` event is emitted when the process exits with code 0
(carrying the captured stdout) or cannot be started (carrying the fixed
message), and none when it exits with another code; delivered to the window,
the event appends its text once to the output tab of the device. -/
theorem C24_one_shot_delivered_once (w : MainWindow) (pi : RaspberryPi) (p : QProcess) :
    SSHoutput.SSHreadOutput_once p =
      (if p.started = true then
        if p.exitCode = 0 then [LaneSignal.SSHreadOutput_finished p.standardOutput] else []
       else [LaneSignal.SSHreadOutput_finished "SSH executable couldn't be started."]) ∧
    (SSHoutput.SSHreadOutput_once p).length =
      (if p.started = true ∧ p.exitCode ≠ 0 then 0 else 1) ∧
    (RaspberryPi.deliverAll w pi (SSHoutput.SSHreadOutput_once p)).2.1.te_output =
      pi.te_output ++
        (if p.started = true then if p.exitCode = 0 then p.standardOutput else ""
         else "SSH executable couldn't be started.") := by
  cases hs : p.started <;> by_cases he : p.exitCode = 0 <;>
    simp [SSHoutput.SSHreadOutput_once, SSH.execSSHexe, hs, he, RaspberryPi.deliverAll,
      RaspberryPi.deliver, MainWindow.SSHnewOutput]

/-! ## Stopping the continuous output (C26) and teardown (C27) -/

/-- C26: while the member `process` points to an existing object,
`SSHreadOutput_stop` writes the byte `q` to the running process, blocks for
the time the process takes to exit but for 2000 ms at most, and terminates
the process with `kill()` exactly if it was running and did not exit within
the 2000 ms.  But when the process of the continuous output has exited by
itself with a code other than -1 (here -2, after `tail` failed),
`process_finished` emits no signal and hands the object to `deleteLater`
without resetting the member; the device stays in `appRunning`, the next
observation of `online` makes it request `SSHreadOutput_stop`, and the slot
then dereferences the deleted object: its behaviour is undefined, nothing of
the claim is guaranteed. -/
theorem C26_stop_on_deleted_process (p : StreamProcess) :
    (SSHoutput.SSHreadOutput_stop (ProcessPointer.object p)).map
        (fun r => (r.process.stdin, r.waited, r.killed, r.killCalled, r.process.running)) =
      some (if p.running = true then p.stdin ++ "q" else p.stdin,
        if p.running = true then min (p.exitsAfter.getD 2000) 2000 else 0,
        p.running && !p.exitsWithin 2000, !(p.running && p.exitsWithin 2000), false) ∧
    (if p.running = true then min (p.exitsAfter.getD 2000) 2000 else 0) ≤ 2000 ∧
    SSHoutput.process_finished (-2) sampleTailError = [] ∧
    SSHoutput.process_finished.member
      (SSHoutput.SSHreadOutput_cont true none ProcessPointer.uninitialised) =
        ProcessPointer.deleted ∧
    (RaspberryPi.SSHgetStatus_finished sampleWindow (samplePi "1" piStatus.appRunning true)
      piStatus.online "").2.2 = [LaneRequest.SSHreadOutput_stop] ∧
    SSHoutput.SSHreadOutput_stop ProcessPointer.deleted = none := by
  refine ⟨?_, ?_, by decide, rfl, by decide, rfl⟩
  · obtain ⟨running, stdin, exitsAfter⟩ := p
    cases running
    · simp [SSHoutput.SSHreadOutput_stop, StreamProcess.write, StreamProcess.waitForFinished,
        StreamProcess.kill, StreamProcess.exitsWithin]
    · cases exitsAfter with
      | none =>
        simp [SSHoutput.SSHreadOutput_stop, StreamProcess.write,
          StreamProcess.waitForFinished, StreamProcess.kill, StreamProcess.exitsWithin]
      | some t =>
        by_cases ht : t ≤ 2000
        · simp [SSHoutput.SSHreadOutput_stop, StreamProcess.write,
            StreamProcess.waitForFinished, StreamProcess.kill, StreamProcess.exitsWithin, ht]
        · have ht2 : 2000 ≤ t := by omega
          simp [SSHoutput.SSHreadOutput_stop, StreamProcess.write,
            StreamProcess.waitForFinished, StreamProcess.kill, StreamProcess.exitsWithin, ht,
            ht2]
  · split_ifs
    · exact min_le_right _ _
    · omega

/-- After `clear` a signal emitted by any of the three lanes is dropped. -/
theorem clear_step_emitted (s : Teardown) (lane : Lane) (signal : LaneSignal) :
    Teardown.step (RaspberryPi.clear s) (TeardownEvent.emitted lane signal) =
      RaspberryPi.clear s := by
  have hb : (RaspberryPi.clear s).signalsBlocked lane = true := by
    unfold RaspberryPi.clear Teardown.signalsBlocked
    cases lane <;> simp only <;> split_ifs <;> rfl
  simp only [Teardown.step, hb, if_true]

/-- After `clear`, with nothing posted before it, no event changes the
state. -/
theorem clear_run_fixed (events : List TeardownEvent) (s : Teardown) (hq : s.posted = []) :
    Teardown.run (RaspberryPi.clear s) events = RaspberryPi.clear s := by
  have hposted : (RaspberryPi.clear s).posted = [] := by
    unfold RaspberryPi.clear
    simp only
    split_ifs <;> exact hq
  unfold Teardown.run
  induction events with
  | nil => rfl
  | cons e rest ih =>
    rw [List.foldl_cons]
    cases e with
    | emitted lane signal => rw [clear_step_emitted]; exact ih
    | delivered =>
      have : Teardown.step (RaspberryPi.clear s) TeardownEvent.delivered =
          RaspberryPi.clear s := by
        simp only [Teardown.step, hposted]
      rw [this]
      exact ih

/-- C27: the status lane has emitted `SSHcurrStatus(appRunning)` for an online
device and the signal is posted to the main thread when `clear` runs.
`clear` blocks the signals of the lanes so that pending signals are ignored,
but blocking does not take a posted signal back: when the main thread
delivers it after `clear`, the status of the device becomes `appRunning` and
the device requests the continuous output; in the same way a posted
`SSHstop_finished` changes counter, info list and buttons of the window.  So
a result that arrives after `clear` is applied to a device in teardown. -/
theorem C27_posted_signal_delivered_after_clear :
    (Teardown.run
      (RaspberryPi.clear (sampleTeardown piStatus.online
        [LaneSignal.SSHcurrStatus piStatus.appRunning ""]))
      [TeardownEvent.delivered]).pi.status = piStatus.appRunning ∧
    (Teardown.run
      (RaspberryPi.clear (sampleTeardown piStatus.online
        [LaneSignal.SSHcurrStatus piStatus.appRunning ""]))
      [TeardownEvent.delivered]).requests = [LaneRequest.SSHreadOutput_cont] ∧
    (Teardown.run
      (RaspberryPi.clear
        { sampleTeardown piStatus.appRunning [LaneSignal.SSHstop_finished true "stopped"] with
          w := { sampleWindow with busyPiCount := 1, btnsEnabled := false } })
      [TeardownEvent.delivered]).w =
      { sampleWindow with
        busyPiCount := 0, btnsEnabled := true, btnsCalls := [true],
        lw_infoOutput := ["1: stopped"] } := by
  decide

/-- What `clear` achieves: it blocks the signals of the three lane objects,
requests the stop of the continuous output exactly if the status of the
device is `appRunning`, and calls `deleteLater`; every signal a lane emits
after `clear` is dropped; and if no signal of the lanes was posted and still
undelivered when `clear` ran, no sequence of emissions and deliveries after
`clear` changes the device, the window (counter, buttons, output) or the
requests. -/
theorem clear_drops_later_signals (s : Teardown) (events : List TeardownEvent)
    (hq : s.posted = []) :
    ((RaspberryPi.clear s).actionBlocked = true ∧ (RaspberryPi.clear s).statusBlocked = true ∧
      (RaspberryPi.clear s).outputBlocked = true ∧ (RaspberryPi.clear s).deleteLater = true) ∧
    (RaspberryPi.clear s).requests =
      s.requests ++
        (if s.pi.status = piStatus.appRunning then [LaneRequest.SSHreadOutput_stop] else []) ∧
    ((RaspberryPi.clear s).w = s.w ∧ (RaspberryPi.clear s).pi = s.pi) ∧
    (∀ lane signal,
      Teardown.step (RaspberryPi.clear s) (TeardownEvent.emitted lane signal) =
        RaspberryPi.clear s) ∧
    Teardown.run (RaspberryPi.clear s) events = RaspberryPi.clear s := by
  refine ⟨?_, ?_, ?_, clear_step_emitted s, clear_run_fixed events s hq⟩
  · by_cases h : s.pi.status = piStatus.appRunning <;> simp [RaspberryPi.clear, h]
  · unfold RaspberryPi.clear
    simp only
    split_ifs <;> simp
  · by_cases h : s.pi.status = piStatus.appRunning <;> simp [RaspberryPi.clear, h]

/-- A device with the application running and nothing posted: `clear`
requests the stop of the continuous output, and the signals the lanes emit
afterwards change nothing. -/
theorem clear_drops_later_signals_sample :
    (sampleTeardown piStatus.appRunning []).posted = [] ∧
    (RaspberryPi.clear (sampleTeardown piStatus.appRunning [])).requests =
      [LaneRequest.SSHreadOutput_stop] ∧
    (RaspberryPi.clear (sampleTeardown piStatus.online [])).requests = [] ∧
    Teardown.run (RaspberryPi.clear (sampleTeardown piStatus.appRunning []))
      sampleTeardownEvents = RaspberryPi.clear (sampleTeardown piStatus.appRunning []) :=
  ⟨rfl, by decide, by decide,
    (clear_drops_later_signals (sampleTeardown piStatus.appRunning [])
      sampleTeardownEvents rfl).2.2.2.2⟩

end PiDeploy
